import Mathlib

/-! # agentshot: terminal grid interpreter and SVG renderer

A shallow embedding of `internal/tui/tui.go`: the character grid (`screen`), the
escape-sequence interpreter (`feed`) and the run grouping of the renderer (`toSVG`).

Conventions of the embedding

* Go `int` is 64 bits wide; cursor and colour arithmetic is done on `Int` and taken
  back into range by `wrap64` after every `+`, `-`, `*`.
* Go strings that are processed byte- or rune-wise (the fed data, the text of a run,
  the font family) are `List Nat` (bytes); a `rune` is a `Nat` code point. Colour
  strings, which are only stored and compared, are `String`.
* An index expression that is out of range makes the Go program panic; operations that
  can reach one return an `Outcome`, which keeps the grid as it was at the panic.
* `write`, `newline`, `setSGR` cannot reach an out-of-range index on a grid built by
  `newScreen` with at least one row; they are plain functions.
-/

namespace Tui

/-! ## Machine integers -/

/-- Largest value of a 64-bit Go `int`. -/
def maxInt : Int := 9223372036854775807

/-- Two's-complement wrap-around of a 64-bit Go `int`. -/
def wrap64 (x : Int) : Int :=
  (x + 9223372036854775808) % 18446744073709551616 - 9223372036854775808

/-! ## Palette -/

/-- The map `ansiColors`; a missing key yields the empty string, as a Go map does. -/
def ansiColors (n : Int) : String :=
  if n = 0 then "#282c34"
  else if n = 1 then "#e06c75"
  else if n = 2 then "#98c379"
  else if n = 3 then "#e5c07b"
  else if n = 4 then "#61afef"
  else if n = 5 then "#c678dd"
  else if n = 6 then "#56b6c2"
  else if n = 7 then "#abb2bf"
  else if n = 8 then "#5c6370"
  else if n = 9 then "#e06c75"
  else if n = 10 then "#98c379"
  else if n = 11 then "#e5c07b"
  else if n = 12 then "#61afef"
  else if n = 13 then "#c678dd"
  else if n = 14 then "#56b6c2"
  else if n = 15 then "#ffffff"
  else ""

def defaultBg : String := "#282c34"

def defaultFg : String := "#abb2bf"

/-! ## Data model -/

structure cell where
  char : Nat
  fg : String
  bg : String
  bold : Bool
  dim : Bool
  italic : Bool
deriving DecidableEq, Repr

structure screen where
  cells : List (List cell)
  cols : Int
  rows : Int
  curX : Int
  curY : Int
  curFg : String
  curBg : String
  bold : Bool
  dim : Bool
  italic : Bool
deriving DecidableEq, Repr

/-- The literal `cell{char: ' ', fg: defaultFg}`. -/
def blankCell : cell :=
  { char := 32, fg := defaultFg, bg := "", bold := false, dim := false, italic := false }

/-- A row of `cols` blank cells: `make([]cell, cols)` followed by the fill loop. -/
def blankRow (cols : Int) : List cell := List.replicate cols.toNat blankCell

/-- The function `newScreen(cols, rows)`, for non-negative dimensions (`make` panics
otherwise). -/
def newScreen (cols rows : Int) : screen :=
  { cells := List.replicate rows.toNat (blankRow cols)
    cols := cols
    rows := rows
    curX := 0
    curY := 0
    curFg := defaultFg
    curBg := ""
    bold := false
    dim := false
    italic := false }

/-- Result of an operation that may hit an out-of-range index: `done` when it returned,
`panic` when the Go runtime stopped it, with the screen as it was at that moment. -/
inductive Outcome where
  | done (s : screen)
  | panic (s : screen)
deriving DecidableEq, Repr

/-- The screen held by an outcome, whichever way the operation ended. -/
def Outcome.screen : Outcome → screen
  | .done s => s
  | .panic s => s

/-- The cell read by `cells[row][col]`, `none` when an index is out of range. -/
def cellAt (cells : List (List cell)) (row col : Int) : Option cell :=
  if 0 ≤ row ∧ 0 ≤ col then
    match cells[row.toNat]? with
    | some r => r[col.toNat]?
    | none => none
  else none

/-- The assignment `cells[row][col] = c`, `none` when an index is out of range. -/
def setCell (cells : List (List cell)) (row col : Int) (c : cell) :
    Option (List (List cell)) :=
  if 0 ≤ row ∧ 0 ≤ col then
    match cells[row.toNat]? with
    | some r =>
      if col.toNat < r.length then some (cells.set row.toNat (r.set col.toNat c)) else none
    | none => none
  else none

/-! ## Writing characters -/

/-- The scroll block of `write`: `copy(s.cells, s.cells[1:])`, a fresh blank row stored at
index `rows-1`, and `curY = rows-1`. -/
def scrollUp (s : screen) : screen :=
  { s with
    cells := (s.cells.drop 1 ++ s.cells.drop (s.cells.length - 1)).set
      (s.rows - 1).toNat (blankRow s.cols)
    curY := wrap64 (s.rows - 1) }

/-- First statement of `write`: `if s.curX >= s.cols { s.curX = 0; s.curY++ }`. -/
def wrapCursor (s : screen) : screen :=
  if s.curX ≥ s.cols then { s with curX := 0, curY := wrap64 (s.curY + 1) } else s

/-- Second statement of `write`: `if s.curY >= s.rows { scroll }`. -/
def scrollIfBelow (s : screen) : screen :=
  if s.curY ≥ s.rows then scrollUp s else s

/-- Third statement of `write`: the guarded assignment of the cell under the cursor. -/
def putRune (s : screen) (r : Nat) : screen :=
  if s.curY ≥ 0 ∧ s.curX ≥ 0 ∧ s.curY < s.rows ∧ s.curX < s.cols then
    { s with
      cells := (setCell s.cells s.curY s.curX
        { char := r, fg := s.curFg, bg := s.curBg, bold := s.bold, dim := s.dim,
          italic := s.italic }).getD s.cells }
  else s

/-- Last statement of `write`: `s.curX++`. -/
def advance (s : screen) : screen :=
  { s with curX := wrap64 (s.curX + 1) }

/-- The method `screen.write`: its four statements in sequence. -/
def write (s : screen) (r : Nat) : screen :=
  advance (putRune (scrollIfBelow (wrapCursor s)) r)

/-- The method `screen.newline`. -/
def newline (s : screen) : screen :=
  { s with curX := 0, curY := wrap64 (s.curY + 1) }

/-- The method `screen.carriageReturn`. -/
def carriageReturn (s : screen) : screen :=
  { s with curX := 0 }

/-- The loop `for i := 0; i < spaces; i++ { s.write(r) }`, run `n` times. -/
def writeN : Nat → screen → Nat → screen
  | 0, s, _ => s
  | n + 1, s, r => writeN n (write s r) r

/-- The body of the `switch r` that `feed` runs on every rune of plain text. -/
def feedRune (s : screen) (r : Nat) : screen :=
  if r = 10 then newline s
  else if r = 13 then carriageReturn s
  else if r = 9 then writeN (8 - Int.tmod s.curX 8).toNat s 32
  else if r ≥ 32 then write s r
  else s

/-- The loop `for _, r := range text { switch r ... }` over decoded runes. -/
def feedText (s : screen) (runes : List Nat) : screen :=
  runes.foldl feedRune s

/-! ## UTF-8 (Go runtime: `range` over a string, `strings.Builder.WriteRune`) -/

/-- The Go function `utf8.DecodeRuneInString` on the non-empty string `b0 :: rest`: the
rune and its width in bytes. Every ill-formed or truncated sequence yields `(U+FFFD, 1)`. -/
def decodeRune (b0 : Nat) (rest : List Nat) : Nat × Nat :=
  if b0 < 128 then (b0, 1)
  else if 194 ≤ b0 ∧ b0 ≤ 223 then
    match rest with
    | b1 :: _ =>
      if 128 ≤ b1 ∧ b1 ≤ 191 then ((b0 % 32) * 64 + b1 % 64, 2) else (65533, 1)
    | _ => (65533, 1)
  else if 224 ≤ b0 ∧ b0 ≤ 239 then
    match rest with
    | b1 :: b2 :: _ =>
      if (if b0 = 224 then 160 else 128) ≤ b1 ∧ b1 ≤ (if b0 = 237 then 159 else 191) ∧
          128 ≤ b2 ∧ b2 ≤ 191 then
        ((b0 % 16) * 4096 + (b1 % 64) * 64 + b2 % 64, 3)
      else (65533, 1)
    | _ => (65533, 1)
  else if 240 ≤ b0 ∧ b0 ≤ 244 then
    match rest with
    | b1 :: b2 :: b3 :: _ =>
      if (if b0 = 240 then 144 else 128) ≤ b1 ∧ b1 ≤ (if b0 = 244 then 143 else 191) ∧
          128 ≤ b2 ∧ b2 ≤ 191 ∧ 128 ≤ b3 ∧ b3 ≤ 191 then
        ((b0 % 8) * 262144 + (b1 % 64) * 4096 + (b2 % 64) * 64 + b3 % 64, 4)
      else (65533, 1)
    | _ => (65533, 1)
  else (65533, 1)

/-- Runes of a byte string in `range` order; `skip` bytes at the front belong to the rune
decoded last and are passed over. -/
def decodeRunesAux : Nat → List Nat → List Nat
  | _, [] => []
  | skip + 1, _ :: rest => decodeRunesAux skip rest
  | 0, b :: rest => (decodeRune b rest).1 :: decodeRunesAux ((decodeRune b rest).2 - 1) rest

/-- The runes produced by `for _, r := range text`. -/
def decodeRunes (text : List Nat) : List Nat := decodeRunesAux 0 text

/-- The Go function `utf8.AppendRune`, as used by `strings.Builder.WriteRune`: surrogates
and values above U+10FFFF are written as U+FFFD. -/
def encodeRune (r : Nat) : List Nat :=
  if r < 128 then [r]
  else if r < 2048 then [192 + r / 64, 128 + r % 64]
  else if r > 1114111 ∨ (55296 ≤ r ∧ r ≤ 57343) then [239, 191, 189]
  else if r < 65536 then [224 + r / 4096, 128 + r / 64 % 64, 128 + r % 64]
  else [240 + r / 262144, 128 + r / 4096 % 64, 128 + r / 64 % 64, 128 + r % 64]

/-! ## The escape pattern `\x1b\[([0-9;]*)([A-Za-z])` -/

/-- Character class `[0-9;]`. -/
def isParamByte (b : Nat) : Bool := (48 ≤ b && b ≤ 57) || b == 59

/-- Character class `[A-Za-z]`. -/
def isLetterByte (b : Nat) : Bool := (65 ≤ b && b ≤ 90) || (97 ≤ b && b ≤ 122)

/-- A match of `ansiEscapeRe` starting at the first byte of `text`: the two submatches.
The star is greedy and a letter is not in `[0-9;]`, so the parameter group is the longest
run of parameter bytes and the match exists iff a letter follows it. -/
def matchEscape (text : List Nat) : Option (List Nat × Nat) :=
  match text with
  | 27 :: 91 :: rest =>
    match rest.dropWhile isParamByte with
    | c :: _ => if isLetterByte c then some (rest.takeWhile isParamByte, c) else none
    | [] => none
  | _ => none

/-- Left-to-right scan behind `FindAllStringSubmatchIndex(text, -1)`: every match comes
with the text between the end of the previous match and its start (`text[lastEnd:match[0]]`),
and the text after the last match is returned second. `skip` bytes at the front belong to
the match found last; `acc` is the unmatched text gathered so far. -/
def findAllAux : Nat → List Nat → List Nat → List (List Nat × List Nat × Nat) × List Nat
  | _, acc, [] => ([], acc)
  | skip + 1, acc, _ :: rest => findAllAux skip acc rest
  | 0, acc, b :: rest =>
    match matchEscape (b :: rest) with
    | some (ps, c) =>
      ((acc, ps, c) :: (findAllAux (ps.length + 2) [] rest).1,
        (findAllAux (ps.length + 2) [] rest).2)
    | none => findAllAux 0 (acc ++ [b]) rest

/-- All non-overlapping matches of `ansiEscapeRe` in `text`, leftmost first, as triples
(text before the match, parameter string, final letter), and the remaining text. -/
def findAll (text : List Nat) : List (List Nat × List Nat × Nat) × List Nat :=
  findAllAux 0 [] text

/-! ## Parameters -/

/-- The call `strings.Split(s, ";")`. -/
def splitSemi : List Nat → List (List Nat)
  | [] => [[]]
  | b :: rest =>
    if b = 59 then [] :: splitSemi rest
    else
      match splitSemi rest with
      | p :: ps => (b :: p) :: ps
      | [] => [[b]]

/-- Value of a string of decimal digits. -/
def digitsValue (p : List Nat) : Nat := p.foldl (fun acc d => acc * 10 + (d - 48)) 0

/-- The call `n, _ := strconv.Atoi(p)` on a piece of a parameter string, which holds decimal digits
only: the empty string is a syntax error (0), a value above the largest `int` is a range
error, for which `Atoi` returns the largest `int`. -/
def atoi (p : List Nat) : Int :=
  if p = [] then 0
  else if (digitsValue p : Int) > maxInt then maxInt
  else (digitsValue p : Int)

/-- The function `parseParams`; `nil` is the empty list. -/
def parseParams (s : List Nat) : List Int :=
  if s = [] then [] else (splitSemi s).map atoi

/-! ## Colours -/

/-- The verb `%02x` of `fmt.Sprintf` on an `int`: lower-case hexadecimal, zero-padded to
width two, a negative value as `-` followed by the digits of its magnitude. -/
def hex2 (v : Int) : String :=
  if v < 0 then "-" ++ String.mk (Nat.toDigits 16 v.natAbs)
  else if v < 16 then "0" ++ String.mk (Nat.toDigits 16 v.toNat)
  else String.mk (Nat.toDigits 16 v.toNat)

/-- The call `fmt.Sprintf("#%02x%02x%02x", r, g, b)`. -/
def rgbHex (r g b : Int) : String := "#" ++ hex2 r ++ hex2 g ++ hex2 b

/-- The function `color256ToHex`. -/
def color256ToHex (n : Int) : String :=
  if n < 16 then ansiColors n
  else if n ≥ 232 then
    rgbHex (wrap64 (wrap64 (wrap64 (n - 232) * 10) + 8))
      (wrap64 (wrap64 (wrap64 (n - 232) * 10) + 8))
      (wrap64 (wrap64 (wrap64 (n - 232) * 10) + 8))
  else
    rgbHex (wrap64 (Int.tdiv (wrap64 (n - 16)) 36 * 51))
      (wrap64 (Int.tmod (Int.tdiv (wrap64 (n - 16)) 6) 6 * 51))
      (wrap64 (Int.tmod (wrap64 (n - 16)) 6 * 51))

/-! ## Select graphic rendition -/

/-- One iteration of the loop of `setSGR` at code `p`, with `rest` the parameters after it:
the new state and by how much the `case` advanced `i` before the final `i++`. -/
def sgrStep (s : screen) (p : Int) (rest : List Int) : screen × Nat :=
  if p = 0 then
    ({ s with curFg := defaultFg, curBg := "", bold := false, dim := false, italic := false }, 0)
  else if p = 1 then ({ s with bold := true }, 0)
  else if p = 2 then ({ s with dim := true }, 0)
  else if p = 3 then ({ s with italic := true }, 0)
  else if p = 22 then ({ s with bold := false, dim := false }, 0)
  else if p = 23 then ({ s with italic := false }, 0)
  else if p ≥ 30 ∧ p ≤ 37 then ({ s with curFg := ansiColors (p - 30) }, 0)
  else if p = 38 then
    match rest with
    | q :: n :: tl =>
      if q = 5 then ({ s with curFg := color256ToHex n }, 2)
      else if q = 2 then
        match tl with
        | g :: b :: _ => ({ s with curFg := rgbHex n g b }, 4)
        | _ => (s, 0)
      else (s, 0)
    | _ => (s, 0)
  else if p = 39 then ({ s with curFg := defaultFg }, 0)
  else if p ≥ 40 ∧ p ≤ 47 then ({ s with curBg := ansiColors (p - 40) }, 0)
  else if p = 48 then
    match rest with
    | q :: n :: tl =>
      if q = 5 then ({ s with curBg := color256ToHex n }, 2)
      else if q = 2 then
        match tl with
        | g :: b :: _ => ({ s with curBg := rgbHex n g b }, 4)
        | _ => (s, 0)
      else (s, 0)
    | _ => (s, 0)
  else if p = 49 then ({ s with curBg := "" }, 0)
  else if p ≥ 90 ∧ p ≤ 97 then ({ s with curFg := ansiColors (p - 90 + 8) }, 0)
  else if p ≥ 100 ∧ p ≤ 107 then ({ s with curBg := ansiColors (p - 100 + 8) }, 0)
  else (s, 0)

/-- The loop `for i < len(params)` of `setSGR`; the first `skip` parameters were consumed
by an extended colour form and are passed over. -/
def setSGRAux : Nat → screen → List Int → screen
  | _, s, [] => s
  | skip + 1, s, _ :: rest => setSGRAux skip s rest
  | 0, s, p :: rest => setSGRAux (sgrStep s p rest).2 (sgrStep s p rest).1 rest

/-- The method `screen.setSGR`. -/
def setSGR (s : screen) (params : List Int) : screen :=
  setSGRAux 0 s (if params = [] then [0] else params)

/-! ## Escape dispatch and `feed` -/

/-- The loop `for x := lo; cond; x++ { s.cells[s.curY][x] = cell{char: ' ', fg: defaultFg} }`,
for the `n` iterations its condition admits, starting at `x`. -/
def eraseLoop : Nat → screen → Int → Outcome
  | 0, s, _ => .done s
  | n + 1, s, x =>
    match setCell s.cells s.curY x blankCell with
    | some cs => eraseLoop n { s with cells := cs } (x + 1)
    | none => .panic s

/-- First parameter, or `d` when there is none. -/
def firstParam (params : List Int) (d : Int) : Int :=
  match params with
  | p :: _ => p
  | [] => d

/-- Count of a cursor movement: `n := 1; if len(params) > 0 && params[0] > 0 { n = params[0] }`. -/
def moveCount (params : List Int) : Int :=
  match params with
  | p :: _ => if p > 0 then p else 1
  | [] => 1

/-- The `switch cmd` of `feed` for one matched sequence with parameter string `paramsStr`
and final letter `cmd`. -/
def dispatch (s : screen) (paramsStr : List Nat) (cmd : Nat) : Outcome :=
  if cmd = 109 then .done (setSGR s (parseParams paramsStr))
  else if cmd = 72 ∨ cmd = 102 then
    .done { s with
      curY := wrap64 (firstParam (parseParams paramsStr) 1 - 1)
      curX := wrap64 (firstParam ((parseParams paramsStr).drop 1) 1 - 1) }
  else if cmd = 74 then
    if firstParam (parseParams paramsStr) 0 = 2 ∨ firstParam (parseParams paramsStr) 0 = 3 then
      .done { s with
        cells := s.cells.map (fun row => row.map (fun _ => blankCell))
        curX := 0
        curY := 0 }
    else .done s
  else if cmd = 75 then
    if firstParam (parseParams paramsStr) 0 = 0 then eraseLoop (s.cols - s.curX).toNat s s.curX
    else if firstParam (parseParams paramsStr) 0 = 1 then eraseLoop (s.curX + 1).toNat s 0
    else if firstParam (parseParams paramsStr) 0 = 2 then eraseLoop s.cols.toNat s 0
    else .done s
  else if cmd = 65 then
    .done { s with
      curY := if wrap64 (s.curY - moveCount (parseParams paramsStr)) < 0 then 0
        else wrap64 (s.curY - moveCount (parseParams paramsStr)) }
  else if cmd = 66 then
    .done { s with
      curY := if wrap64 (s.curY + moveCount (parseParams paramsStr)) ≥ s.rows
        then wrap64 (s.rows - 1)
        else wrap64 (s.curY + moveCount (parseParams paramsStr)) }
  else if cmd = 67 then
    .done { s with
      curX := if wrap64 (s.curX + moveCount (parseParams paramsStr)) ≥ s.cols
        then wrap64 (s.cols - 1)
        else wrap64 (s.curX + moveCount (parseParams paramsStr)) }
  else if cmd = 68 then
    .done { s with
      curX := if wrap64 (s.curX - moveCount (parseParams paramsStr)) < 0 then 0
        else wrap64 (s.curX - moveCount (parseParams paramsStr)) }
  else .done s

/-- The first loop of `feed`: for every match, the text before it, then the sequence. -/
def feedMatches : screen → List (List Nat × List Nat × Nat) → Outcome
  | s, [] => .done s
  | s, (before, paramsStr, cmd) :: ms =>
    match dispatch (feedText s (decodeRunes before)) paramsStr cmd with
    | .done s1 => feedMatches s1 ms
    | .panic s1 => .panic s1

/-- The method `screen.feed`. -/
def feed (s : screen) (data : List Nat) : Outcome :=
  match feedMatches s (findAll data).1 with
  | .done s1 => .done (feedText s1 (decodeRunes (findAll data).2))
  | .panic s1 => .panic s1

/-- Successive `feed` calls on one screen; a panic ends the run. -/
def feedAll : screen → List (List Nat) → Outcome
  | s, [] => .done s
  | s, data :: more =>
    match feed s data with
    | .done s1 => feedAll s1 more
    | .panic s1 => .panic s1

/-! ## Renderer -/

/-- Character class of the filter in `sanitizeFontFamily`: ASCII letters and digits, space,
hyphen, comma, underscore. -/
def isFontRune (r : Nat) : Bool :=
  (97 ≤ r && r ≤ 122) || (65 ≤ r && r ≤ 90) || (48 ≤ r && r ≤ 57) ||
    r == 32 || r == 45 || r == 44 || r == 95

/-- The string `"monospace"`. -/
def monospace : List Nat := [109, 111, 110, 111, 115, 112, 97, 99, 101]

/-- The function `sanitizeFontFamily`: the builder after the loop, or `"monospace"` when
it is empty. -/
def sanitizeFontFamily (font : List Nat) : List Nat :=
  if ((decodeRunes font).foldl
      (fun result r => if isFontRune r then result ++ encodeRune r else result) []).length = 0
  then monospace
  else (decodeRunes font).foldl
      (fun result r => if isFontRune r then result ++ encodeRune r else result) []

/-- The call `strings.TrimRight(s, " ")`. -/
def trimRight (s : List Nat) : List Nat := s.rdropWhile (fun b => b == 32)

/-- Replacement of one byte by `html.EscapeString`. -/
def escapeByte (b : Nat) : List Nat :=
  if b = 38 then [38, 97, 109, 112, 59]
  else if b = 39 then [38, 35, 51, 57, 59]
  else if b = 60 then [38, 108, 116, 59]
  else if b = 62 then [38, 103, 116, 59]
  else if b = 34 then [38, 35, 51, 52, 59]
  else [b]

/-- The function `html.EscapeString`. -/
def escapeString (s : List Nat) : List Nat := s.flatMap escapeByte

/-- A node written by `toSVG` inside the `g` element. The float64 geometry is kept as the
integers it is computed from: a rectangle has `x = padding + startCol*charWidth`, its `y`
from `row`, and `width = len*charWidth` with `len = len(textRaw)`, the length in bytes of
the text of the run; a text node has the same `x` and its `y` from `row`. -/
inductive node where
  | rect (row startCol len : Nat) (fill : String)
  | text (row startCol : Nat) (fill weight : String) (content : List Nat)
deriving DecidableEq, Repr

/-- The run test of the inner loop: `next` continues the run started by `c`. -/
def sameStyle (c next : cell) : Bool :=
  !(next.fg != c.fg || next.bg != c.bg || next.bold != c.bold)

/-- What `toSVG` writes for the run that starts with cell `c` at `startCol` and continues
over the cells `run`. -/
def runNodes (row startCol : Nat) (c : cell) (run : List cell) : List node :=
  (if c.bg ≠ "" then
    [node.rect row startCol (encodeRune c.char ++ run.flatMap (fun n => encodeRune n.char)).length
      c.bg]
  else []) ++
  (if trimRight (encodeRune c.char ++ run.flatMap (fun n => encodeRune n.char)) = [] then []
  else
    [node.text row startCol c.fg (if c.bold then "bold" else "normal")
      (escapeString (trimRight (encodeRune c.char ++ run.flatMap (fun n => encodeRune n.char))))])

/-- The loop `for col < s.cols` over the cells of one row, from column `col` on; the first
`skip` cells belong to the run emitted last and are passed over. -/
def renderRow (row : Nat) : Nat → Nat → List cell → List node
  | _, _, [] => []
  | skip + 1, col, _ :: rest => renderRow row skip (col + 1) rest
  | 0, col, c :: rest =>
    if c.char = 32 ∧ c.bg = "" then renderRow row 0 (col + 1) rest
    else
      runNodes row col c (rest.takeWhile (sameStyle c)) ++
        renderRow row (rest.takeWhile (sameStyle c)).length (col + 1) rest

/-- The loop `for row := 0; row < s.rows; row++`, from row index `row` on. -/
def renderRows : Nat → List (List cell) → List node
  | _, [] => []
  | row, r :: rs => renderRow row 0 0 r ++ renderRows (row + 1) rs

/-- The document returned by `toSVG`: the operands of the header (`cols`, `rows` and
`fontSize` determine width and height), the sanitized font family of the `g` element, and
the nodes inside it. The base rectangle filled with `defaultBg` and the closing tags are
the same in every document. -/
structure svg where
  cols : Int
  rows : Int
  fontSize : Int
  fontFamily : List Nat
  nodes : List node
deriving DecidableEq, Repr

/-- The method `screen.toSVG`, on a grid of `rows` rows of `cols` cells. -/
def toSVG (s : screen) (fontSize : Int) (fontFamily : List Nat) : svg :=
  { cols := s.cols
    rows := s.rows
    fontSize := fontSize
    fontFamily := sanitizeFontFamily fontFamily
    nodes := renderRows 0 s.cells }

/-! ## Predicates and auxiliary definitions used in the statements -/

/-- The grid has `rows` rows of `cols` cells each, and both dimensions are positive. -/
def GridOK (s : screen) : Prop :=
  1 ≤ s.cols ∧ 1 ≤ s.rows ∧ (s.cells.length : Int) = s.rows ∧
    ∀ row ∈ s.cells, (row.length : Int) = s.cols

/-- Two screens have the same declared dimensions. -/
def SameSize (s t : screen) : Prop := t.cols = s.cols ∧ t.rows = s.rows

/-- Grid, dimensions and cursor of `t` are those of `s`. -/
def SameGrid (s t : screen) : Prop :=
  t.cells = s.cells ∧ t.cols = s.cols ∧ t.rows = s.rows ∧ t.curX = s.curX ∧ t.curY = s.curY

/-- The value fits a 64-bit Go `int`. -/
def IsInt64 (x : Int) : Prop := -9223372036854775808 ≤ x ∧ x ≤ 9223372036854775807

/-- Both cursor coordinates are 64-bit values. -/
def CursorInt64 (s : screen) : Prop := IsInt64 s.curX ∧ IsInt64 s.curY

/-- The cell that `write` stores for rune `r`: the rune with the current graphics state. -/
def penCell (s : screen) (r : Nat) : cell :=
  { char := r, fg := s.curFg, bg := s.curBg, bold := s.bold, dim := s.dim, italic := s.italic }

/-- Graphics state and declared dimensions of `t` are those of `s`. -/
def SamePen (s t : screen) : Prop :=
  t.curFg = s.curFg ∧ t.curBg = s.curBg ∧ t.bold = s.bold ∧ t.dim = s.dim ∧
    t.italic = s.italic ∧ t.cols = s.cols ∧ t.rows = s.rows

/-- The rune is a Unicode scalar value: at most U+10FFFF and not a surrogate. -/
def IsScalar (r : Nat) : Prop := r ≤ 1114111 ∧ ¬ (55296 ≤ r ∧ r ≤ 57343)

/-- The graphics state after SGR code 0: default foreground, no background, no style. -/
def resetPen (s : screen) : screen :=
  { s with curFg := defaultFg, curBg := "", bold := false, dim := false, italic := false }

/-- The filter as the specification words it: the characters of `font`, in order, that are
ASCII letters, ASCII digits, space, hyphen, underscore or comma, or `"monospace"` when
there is none. -/
def sanitizeSpec (font : List Nat) : List Nat :=
  if (decodeRunes font).filter
      (fun r => decide ((65 ≤ r ∧ r ≤ 90) ∨ (97 ≤ r ∧ r ≤ 122) ∨ (48 ≤ r ∧ r ≤ 57) ∨
        r = 32 ∨ r = 45 ∨ r = 95 ∨ r = 44)) = []
  then monospace
  else (decodeRunes font).filter
      (fun r => decide ((65 ≤ r ∧ r ≤ 90) ∨ (97 ≤ r ∧ r ≤ 122) ∨ (48 ≤ r ∧ r ≤ 57) ∨
        r = 32 ∨ r = 45 ∨ r = 95 ∨ r = 44))

/-- Cells holding the bytes `p` with the default graphics state. -/
def textCells (p : List Nat) : List cell :=
  p.map (fun b =>
    { char := b, fg := defaultFg, bg := "", bold := false, dim := false, italic := false })

/-- The fresh grid after the text `p` was written on its first row. -/
def typed (cols rows : Int) (p : List Nat) : screen :=
  { newScreen cols rows with
    cells := (textCells p ++ List.replicate (cols.toNat - p.length) blankCell) ::
      List.replicate (rows.toNat - 1) (blankRow cols)
    curX := (p.length : Int) }

/-- A lower-case hexadecimal digit. -/
def isHexDigitChar (c : Char) : Bool :=
  c ∈ ['0', '1', '2', '3', '4', '5', '6', '7', '8', '9', 'a', 'b', 'c', 'd', 'e', 'f']

/-- The string has the form `#rrggbb`: seven characters, `#` followed by six hexadecimal
digits. -/
def isHexColour (t : String) : Bool :=
  match t.data with
  | c :: ds => c == '#' && ds.length == 6 && ds.all isHexDigitChar
  | [] => false

/-- The hexadecimal digit of a value below 16. -/
def hexDigitOf (v : Nat) : Char :=
  (['0', '1', '2', '3', '4', '5', '6', '7', '8', '9', 'a', 'b', 'c', 'd', 'e', 'f'].getD v '0')

/-- The colour `#rrggbb` of three components in 0..255, as the specification words it: two
hexadecimal digits per component. -/
def hexColour (r g b : Int) : String :=
  String.mk ['#', hexDigitOf (r.toNat / 16), hexDigitOf (r.toNat % 16),
    hexDigitOf (g.toNat / 16), hexDigitOf (g.toNat % 16),
    hexDigitOf (b.toNat / 16), hexDigitOf (b.toNat % 16)]

/-- Everything but the cells of `t` is as in `s`: dimensions, cursor and graphics state. -/
def SameButCells (s t : screen) : Prop :=
  t.cols = s.cols ∧ t.rows = s.rows ∧ t.curX = s.curX ∧ t.curY = s.curY ∧
    t.curFg = s.curFg ∧ t.curBg = s.curBg ∧ t.bold = s.bold ∧ t.dim = s.dim ∧
    t.italic = s.italic

/-- A 4 x 2 grid holding `abc` on its first row, cursor at (1, 0); used as a concrete
instance. -/
def sampleScreen : screen := { typed 4 2 [97, 98, 99] with curX := 1 }

/-- The cell with its `dim` and `italic` flags cleared. -/
def plainStyle (c : cell) : cell := { c with dim := false, italic := false }

/-- Two cells agree on character, foreground, background and bold; `dim` and `italic` are
free. -/
def SameVisible (a b : cell) : Prop :=
  a.char = b.char ∧ a.fg = b.fg ∧ a.bg = b.bg ∧ a.bold = b.bold

/-- The string `textRaw` of `toSVG` for the run that starts with cell `c` and continues over
the cells `run`: the characters of the run, written by `WriteRune`. -/
def runText (c : cell) (run : List cell) : List Nat :=
  encodeRune c.char ++ run.flatMap (fun n => encodeRune n.char)

/-- The five character references `&amp;`, `&#39;`, `&lt;`, `&gt;`, `&#34;`. -/
def entities : List (List Nat) :=
  [[38, 97, 109, 112, 59], [38, 35, 51, 57, 59], [38, 108, 116, 59], [38, 103, 116, 59],
    [38, 35, 51, 52, 59]]

/-! ## Dimension invariant -/

theorem blankRow_length (cols : Int) (h : 0 ≤ cols) : ((blankRow cols).length : Int) = cols := by
  simp [blankRow, Int.toNat_of_nonneg h]

theorem newScreen_gridOK (cols rows : Int) (hc : 1 ≤ cols) (hr : 1 ≤ rows) :
    GridOK (newScreen cols rows) := by
  refine ⟨hc, hr, ?_, ?_⟩
  · simp [newScreen, Int.toNat_of_nonneg (by omega : 0 ≤ rows)]
  · intro row hrow
    simp only [newScreen] at hrow
    rw [List.eq_of_mem_replicate hrow]
    exact blankRow_length cols (by omega)

theorem setCell_rows {cells cs : List (List cell)} {y x : Int} {c : cell}
    (h : setCell cells y x c = some cs) : cs.length = cells.length := by
  unfold setCell at h
  split at h
  · split at h
    · split at h
      · cases h; simp
      · cases h
    · cases h
  · cases h

theorem setCell_cols {cells cs : List (List cell)} {y x : Int} {c : cell} {n : Int}
    (h : setCell cells y x c = some cs) (hn : ∀ row ∈ cells, (row.length : Int) = n) :
    ∀ row ∈ cs, (row.length : Int) = n := by
  unfold setCell at h
  split at h
  · split at h
    · rename_i r hr
      split at h
      · cases h
        intro row hrow
        rcases List.mem_or_eq_of_mem_set hrow with h1 | h1
        · exact hn row h1
        · subst h1
          rw [List.length_set]
          exact hn r (List.getElem?_mem hr)
      · cases h
    · cases h
  · cases h

theorem setCell_gridOK {s : screen} {cs : List (List cell)} {y x : Int} {c : cell}
    (hs : GridOK s) (h : setCell s.cells y x c = some cs) :
    GridOK { s with cells := cs } := by
  obtain ⟨h1, h2, h3, h4⟩ := hs
  refine ⟨h1, h2, ?_, ?_⟩
  · show ((cs.length : Nat) : Int) = s.rows
    rw [setCell_rows h]; exact h3
  · exact setCell_cols h h4

theorem scrollUp_gridOK {s : screen} (hs : GridOK s) : GridOK (scrollUp s) := by
  obtain ⟨h1, h2, h3, h4⟩ := hs
  refine ⟨h1, h2, ?_, ?_⟩
  · simp only [scrollUp, List.length_set, List.length_append, List.length_drop]
    omega
  · intro row hrow
    simp only [scrollUp] at hrow
    rcases List.mem_or_eq_of_mem_set hrow with h5 | h5
    · rcases List.mem_append.mp h5 with h6 | h6
      · exact h4 row (List.mem_of_mem_drop h6)
      · exact h4 row (List.mem_of_mem_drop h6)
    · subst h5
      exact blankRow_length s.cols (by omega)

theorem wrapCursor_gridOK {s : screen} (hs : GridOK s) : GridOK (wrapCursor s) := by
  unfold wrapCursor; split <;> exact hs

theorem scrollIfBelow_gridOK {s : screen} (hs : GridOK s) : GridOK (scrollIfBelow s) := by
  unfold scrollIfBelow; split
  · exact scrollUp_gridOK hs
  · exact hs

theorem putRune_gridOK {s : screen} (r : Nat) (hs : GridOK s) : GridOK (putRune s r) := by
  unfold putRune; split
  · rename_i hg
    cases h : setCell s.cells s.curY s.curX
        { char := r, fg := s.curFg, bg := s.curBg, bold := s.bold, dim := s.dim,
          italic := s.italic } with
    | none => simpa [h] using hs
    | some cs => simpa [h] using setCell_gridOK hs h
  · exact hs

theorem write_gridOK {s : screen} (r : Nat) (hs : GridOK s) : GridOK (write s r) :=
  putRune_gridOK r (scrollIfBelow_gridOK (wrapCursor_gridOK hs))

theorem write_sameSize (s : screen) (r : Nat) : SameSize s (write s r) := by
  unfold write advance putRune scrollIfBelow scrollUp wrapCursor SameSize
  constructor <;> (repeat' split) <;> rfl

theorem gridOK_congr {s t : screen} (h1 : t.cells = s.cells) (h2 : t.cols = s.cols)
    (h3 : t.rows = s.rows) (hs : GridOK s) : GridOK t := by
  unfold GridOK at *
  rw [h1, h2, h3]; exact hs

theorem sameSize_refl (s : screen) : SameSize s s := ⟨rfl, rfl⟩

theorem sameSize_trans {s t u : screen} (h1 : SameSize s t) (h2 : SameSize t u) :
    SameSize s u := ⟨h2.1.trans h1.1, h2.2.trans h1.2⟩

theorem writeN_gridOK (n : Nat) (r : Nat) {s : screen} (hs : GridOK s) :
    GridOK (writeN n s r) := by
  induction n generalizing s with
  | zero => exact hs
  | succ n ih => exact ih (write_gridOK r hs)

theorem writeN_sameSize (n : Nat) (r : Nat) (s : screen) : SameSize s (writeN n s r) := by
  induction n generalizing s with
  | zero => exact sameSize_refl s
  | succ n ih => exact sameSize_trans (write_sameSize s r) (ih (write s r))

theorem feedRune_gridOK (r : Nat) {s : screen} (hs : GridOK s) : GridOK (feedRune s r) := by
  unfold feedRune
  split
  · exact hs
  · split
    · exact hs
    · split
      · exact writeN_gridOK _ _ hs
      · split
        · exact write_gridOK r hs
        · exact hs

theorem feedRune_sameSize (s : screen) (r : Nat) : SameSize s (feedRune s r) := by
  unfold feedRune
  split
  · exact ⟨rfl, rfl⟩
  · split
    · exact ⟨rfl, rfl⟩
    · split
      · exact writeN_sameSize _ _ s
      · split
        · exact write_sameSize s r
        · exact sameSize_refl s

theorem feedText_gridOK (runes : List Nat) {s : screen} (hs : GridOK s) :
    GridOK (feedText s runes) := by
  induction runes generalizing s with
  | nil => exact hs
  | cons r rs ih => exact ih (feedRune_gridOK r hs)

theorem feedText_sameSize (runes : List Nat) (s : screen) : SameSize s (feedText s runes) := by
  induction runes generalizing s with
  | nil => exact sameSize_refl s
  | cons r rs ih => exact sameSize_trans (feedRune_sameSize s r) (ih (feedRune s r))

/-! ## Frame of the graphics-rendition code: grid and cursor are not touched -/

theorem ite_pred {α : Type} (P : α → Prop) (c : Prop) [Decidable c] (a b : α)
    (ha : P a) (hb : P b) : P (if c then a else b) := by
  split
  · exact ha
  · exact hb

theorem sgrStep_sameGrid (s : screen) (p : Int) (rest : List Int) :
    SameGrid s (sgrStep s p rest).1 := by
  rcases rest with _ | ⟨q, _ | ⟨n, _ | ⟨g, _ | ⟨b, tl⟩⟩⟩⟩ <;>
    (unfold sgrStep
     repeat' (first
      | exact ⟨rfl, rfl, rfl, rfl, rfl⟩
      | refine ite_pred (fun x : screen × Nat => SameGrid s x.1) _ _ _ ?_ ?_))

theorem setSGRAux_sameGrid (skip : Nat) (s : screen) (params : List Int) :
    SameGrid s (setSGRAux skip s params) := by
  induction params generalizing skip s with
  | nil => cases skip <;> exact ⟨rfl, rfl, rfl, rfl, rfl⟩
  | cons p rest ih =>
    cases skip with
    | zero =>
      have h1 := sgrStep_sameGrid s p rest
      have h2 := ih (sgrStep s p rest).2 (sgrStep s p rest).1
      simp only [setSGRAux]
      unfold SameGrid at *
      refine ⟨h2.1.trans h1.1, h2.2.1.trans h1.2.1, h2.2.2.1.trans h1.2.2.1,
        h2.2.2.2.1.trans h1.2.2.2.1, h2.2.2.2.2.trans h1.2.2.2.2⟩
    | succ k => exact ih k s

theorem setSGR_sameGrid (s : screen) (params : List Int) : SameGrid s (setSGR s params) :=
  setSGRAux_sameGrid 0 s _

/-! ## Dimension invariant through the escape dispatch -/

theorem eraseLoop_gridOK (n : Nat) (x : Int) {s : screen} (hs : GridOK s) :
    GridOK (eraseLoop n s x).screen := by
  induction n generalizing s x with
  | zero => exact hs
  | succ n ih =>
    unfold eraseLoop
    cases h : setCell s.cells s.curY x blankCell with
    | none => exact hs
    | some cs => exact ih (x + 1) (setCell_gridOK hs h)

theorem eraseLoop_sameSize (n : Nat) (x : Int) (s : screen) :
    SameSize s (eraseLoop n s x).screen := by
  induction n generalizing s x with
  | zero => exact sameSize_refl s
  | succ n ih =>
    unfold eraseLoop
    cases h : setCell s.cells s.curY x blankCell with
    | none => exact sameSize_refl s
    | some cs => exact ih (x + 1) { s with cells := cs }

theorem clear_gridOK {s : screen} (hs : GridOK s) :
    GridOK { s with
      cells := s.cells.map (fun row => row.map (fun _ => blankCell))
      curX := 0
      curY := 0 } := by
  obtain ⟨h1, h2, h3, h4⟩ := hs
  refine ⟨h1, h2, by simpa using h3, ?_⟩
  intro row hrow
  simp only [List.mem_map] at hrow
  obtain ⟨r0, hr0, rfl⟩ := hrow
  simpa using h4 r0 hr0

theorem dispatch_gridOK (paramsStr : List Nat) (cmd : Nat) {s : screen} (hs : GridOK s) :
    GridOK (dispatch s paramsStr cmd).screen := by
  unfold dispatch
  repeat' (first
    | exact hs
    | exact eraseLoop_gridOK _ _ hs
    | exact clear_gridOK hs
    | exact gridOK_congr (setSGR_sameGrid s _).1 (setSGR_sameGrid s _).2.1
        (setSGR_sameGrid s _).2.2.1 hs
    | refine ite_pred (fun o : Outcome => GridOK o.screen) _ _ _ ?_ ?_)

theorem dispatch_sameSize (paramsStr : List Nat) (cmd : Nat) (s : screen) :
    SameSize s (dispatch s paramsStr cmd).screen := by
  unfold dispatch
  repeat' (first
    | exact ⟨rfl, rfl⟩
    | exact eraseLoop_sameSize _ _ s
    | exact ⟨(setSGR_sameGrid s _).2.1, (setSGR_sameGrid s _).2.2.1⟩
    | refine ite_pred (fun o : Outcome => SameSize s o.screen) _ _ _ ?_ ?_)

theorem feedMatches_gridOK (ms : List (List Nat × List Nat × Nat)) {s : screen}
    (hs : GridOK s) : GridOK (feedMatches s ms).screen := by
  induction ms generalizing s with
  | nil => exact hs
  | cons m ms ih =>
    obtain ⟨before, paramsStr, cmd⟩ := m
    have h := dispatch_gridOK paramsStr cmd (feedText_gridOK (decodeRunes before) hs)
    unfold feedMatches
    cases hd : dispatch (feedText s (decodeRunes before)) paramsStr cmd with
    | done s1 => rw [hd] at h; exact ih h
    | panic s1 => rw [hd] at h; exact h

theorem feedMatches_sameSize (ms : List (List Nat × List Nat × Nat)) (s : screen) :
    SameSize s (feedMatches s ms).screen := by
  induction ms generalizing s with
  | nil => exact sameSize_refl s
  | cons m ms ih =>
    obtain ⟨before, paramsStr, cmd⟩ := m
    have h := sameSize_trans (feedText_sameSize (decodeRunes before) s)
      (dispatch_sameSize paramsStr cmd (feedText s (decodeRunes before)))
    unfold feedMatches
    cases hd : dispatch (feedText s (decodeRunes before)) paramsStr cmd with
    | done s1 => rw [hd] at h; exact sameSize_trans h (ih s1)
    | panic s1 => rw [hd] at h; exact h

theorem feed_gridOK (data : List Nat) {s : screen} (hs : GridOK s) :
    GridOK (feed s data).screen := by
  have h := feedMatches_gridOK (findAll data).1 hs
  unfold feed
  cases hd : feedMatches s (findAll data).1 with
  | done s1 => rw [hd] at h; exact feedText_gridOK _ h
  | panic s1 => rw [hd] at h; exact h

theorem feed_sameSize (data : List Nat) (s : screen) : SameSize s (feed s data).screen := by
  have h := feedMatches_sameSize (findAll data).1 s
  unfold feed
  cases hd : feedMatches s (findAll data).1 with
  | done s1 => rw [hd] at h; exact sameSize_trans h (feedText_sameSize _ s1)
  | panic s1 => rw [hd] at h; exact h

theorem feedAll_gridOK (chunks : List (List Nat)) {s : screen} (hs : GridOK s) :
    GridOK (feedAll s chunks).screen := by
  induction chunks generalizing s with
  | nil => exact hs
  | cons d ds ih =>
    have h := feed_gridOK d hs
    unfold feedAll
    cases hd : feed s d with
    | done s1 => rw [hd] at h; exact ih h
    | panic s1 => rw [hd] at h; exact h

theorem feedAll_sameSize (chunks : List (List Nat)) (s : screen) :
    SameSize s (feedAll s chunks).screen := by
  induction chunks generalizing s with
  | nil => exact sameSize_refl s
  | cons d ds ih =>
    have h := feed_sameSize d s
    unfold feedAll
    cases hd : feed s d with
    | done s1 => rw [hd] at h; exact sameSize_trans h (ih s1)
    | panic s1 => rw [hd] at h; exact h

/-- C2. Grid dimensions never drift: on a grid made by `newScreen cols rows` with both
dimensions at least 1, after any sequence of `feed` calls (also one that a panic ended)
the grid has exactly `rows` rows, every row has exactly `cols` cells, and the declared
dimensions are still `cols` and `rows`. -/
theorem grid_dimensions_never_drift (cols rows : Int) (hc : 1 ≤ cols) (hr : 1 ≤ rows)
    (chunks : List (List Nat)) :
    ((feedAll (newScreen cols rows) chunks).screen.cells.length : Int) = rows ∧
    (∀ row ∈ (feedAll (newScreen cols rows) chunks).screen.cells, (row.length : Int) = cols) ∧
    (feedAll (newScreen cols rows) chunks).screen.rows = rows ∧
    (feedAll (newScreen cols rows) chunks).screen.cols = cols := by
  have h1 := feedAll_gridOK chunks (newScreen_gridOK cols rows hc hr)
  have h2 := feedAll_sameSize chunks (newScreen cols rows)
  obtain ⟨hcols, hrows⟩ := h2
  have hcols' : (feedAll (newScreen cols rows) chunks).screen.cols = cols := hcols
  have hrows' : (feedAll (newScreen cols rows) chunks).screen.rows = rows := hrows
  obtain ⟨-, -, h3, h4⟩ := h1
  rw [hrows'] at h3
  rw [hcols'] at h4
  exact ⟨h3, h4, hrows', hcols'⟩

/-! ## Machine-integer range of the cursor -/

theorem wrap64_isInt64 (x : Int) : IsInt64 (wrap64 x) := by
  unfold IsInt64 wrap64; omega

theorem wrap64_of_isInt64 {x : Int} (h : IsInt64 x) : wrap64 x = x := by
  unfold IsInt64 at h; unfold wrap64; omega

theorem isInt64_zero : IsInt64 0 := by unfold IsInt64; omega

theorem write_cursorInt64 (s : screen) (r : Nat) (hs : CursorInt64 s) :
    CursorInt64 (write s r) := by
  refine ⟨wrap64_isInt64 _, ?_⟩
  show IsInt64 (putRune (scrollIfBelow (wrapCursor s)) r).curY
  have h1 : IsInt64 (wrapCursor s).curY := by
    unfold wrapCursor; split
    · exact wrap64_isInt64 _
    · exact hs.2
  have h2 : IsInt64 (scrollIfBelow (wrapCursor s)).curY := by
    unfold scrollIfBelow; split
    · exact wrap64_isInt64 _
    · exact h1
  unfold putRune; split
  · exact h2
  · exact h2

theorem writeN_cursorInt64 (n : Nat) (r : Nat) (s : screen) (hs : CursorInt64 s) :
    CursorInt64 (writeN n s r) := by
  induction n generalizing s with
  | zero => exact hs
  | succ n ih => exact ih (write s r) (write_cursorInt64 s r hs)

theorem feedRune_cursorInt64 (s : screen) (r : Nat) (hs : CursorInt64 s) :
    CursorInt64 (feedRune s r) := by
  unfold feedRune
  split
  · exact ⟨isInt64_zero, wrap64_isInt64 _⟩
  · split
    · exact ⟨isInt64_zero, hs.2⟩
    · split
      · exact writeN_cursorInt64 _ _ s hs
      · split
        · exact write_cursorInt64 s r hs
        · exact hs

theorem feedText_cursorInt64 (runes : List Nat) (s : screen) (hs : CursorInt64 s) :
    CursorInt64 (feedText s runes) := by
  induction runes generalizing s with
  | nil => exact hs
  | cons r rs ih => exact ih (feedRune s r) (feedRune_cursorInt64 s r hs)

theorem eraseLoop_cursor (n : Nat) (x : Int) (s : screen) :
    (eraseLoop n s x).screen.curX = s.curX ∧ (eraseLoop n s x).screen.curY = s.curY := by
  induction n generalizing s x with
  | zero => exact ⟨rfl, rfl⟩
  | succ n ih =>
    unfold eraseLoop
    cases h : setCell s.cells s.curY x blankCell with
    | none => exact ⟨rfl, rfl⟩
    | some cs => exact ih (x + 1) { s with cells := cs }

theorem dispatch_cursorInt64 (paramsStr : List Nat) (cmd : Nat) (s : screen)
    (hs : CursorInt64 s) : CursorInt64 (dispatch s paramsStr cmd).screen := by
  have hw := wrap64_isInt64
  have hz := isInt64_zero
  unfold dispatch
  repeat' (first
    | exact hs
    | exact ⟨hw _, hw _⟩
    | exact ⟨hz, hz⟩
    | exact ⟨hs.1, ite_pred IsInt64 _ _ _ hz (hw _)⟩
    | exact ⟨hs.1, ite_pred IsInt64 _ _ _ (hw _) (hw _)⟩
    | exact ⟨ite_pred IsInt64 _ _ _ hz (hw _), hs.2⟩
    | exact ⟨ite_pred IsInt64 _ _ _ (hw _) (hw _), hs.2⟩
    | (show IsInt64 (eraseLoop _ s _).screen.curX ∧ IsInt64 (eraseLoop _ s _).screen.curY
       rw [(eraseLoop_cursor _ _ s).1, (eraseLoop_cursor _ _ s).2]
       exact hs)
    | (show IsInt64 (setSGR s _).curX ∧ IsInt64 (setSGR s _).curY
       rw [(setSGR_sameGrid s _).2.2.2.1, (setSGR_sameGrid s _).2.2.2.2]
       exact hs)
    | refine ite_pred (fun o : Outcome => CursorInt64 o.screen) _ _ _ ?_ ?_)

theorem feedMatches_cursorInt64 (ms : List (List Nat × List Nat × Nat)) (s : screen)
    (hs : CursorInt64 s) : CursorInt64 (feedMatches s ms).screen := by
  induction ms generalizing s with
  | nil => exact hs
  | cons m ms ih =>
    obtain ⟨before, paramsStr, cmd⟩ := m
    have h := dispatch_cursorInt64 paramsStr cmd _ (feedText_cursorInt64 (decodeRunes before) s hs)
    unfold feedMatches
    cases hd : dispatch (feedText s (decodeRunes before)) paramsStr cmd with
    | done s1 => rw [hd] at h; exact ih s1 h
    | panic s1 => rw [hd] at h; exact h

theorem feed_cursorInt64 (data : List Nat) (s : screen) (hs : CursorInt64 s) :
    CursorInt64 (feed s data).screen := by
  have h := feedMatches_cursorInt64 (findAll data).1 s hs
  unfold feed
  cases hd : feedMatches s (findAll data).1 with
  | done s1 => rw [hd] at h; exact feedText_cursorInt64 _ s1 h
  | panic s1 => rw [hd] at h; exact h

theorem newScreen_cursorInt64 (cols rows : Int) : CursorInt64 (newScreen cols rows) :=
  ⟨isInt64_zero, isInt64_zero⟩

/-! ## Feeding plain bytes -/

theorem matchEscape_none_of_ne {b : Nat} (rest : List Nat) (hb : b ≠ 27) :
    matchEscape (b :: rest) = none := by
  unfold matchEscape
  split
  · rename_i heq
    simp only [List.cons.injEq] at heq
    exact absurd heq.1 hb
  · rfl

theorem findAllAux_no_escape (acc data : List Nat) (h : ∀ b ∈ data, b ≠ 27) :
    findAllAux 0 acc data = ([], acc ++ data) := by
  induction data generalizing acc with
  | nil => simp [findAllAux]
  | cons b rest ih =>
    have hb : b ≠ 27 := h b (List.mem_cons_self b rest)
    simp only [findAllAux, matchEscape_none_of_ne rest hb]
    rw [ih (acc ++ [b]) (fun x hx => h x (List.mem_cons_of_mem b hx))]
    simp

/-- A text without the byte ESC has no match; all of it is remaining text. -/
theorem findAll_no_escape (data : List Nat) (h : ∀ b ∈ data, b ≠ 27) :
    findAll data = ([], data) := by
  simpa using findAllAux_no_escape [] data h

theorem feed_no_escape (s : screen) (data : List Nat) (h : ∀ b ∈ data, b ≠ 27) :
    feed s data = Outcome.done (feedText s (decodeRunes data)) := by
  unfold feed
  rw [findAll_no_escape data h]
  rfl

theorem feed_ascii_printable (s : screen) (b : Nat) (h1 : 32 ≤ b) (h2 : b < 128) :
    feed s [b] = Outcome.done (write s b) := by
  rw [feed_no_escape s [b] (by intro x hx; simp at hx; omega)]
  have hd : decodeRunes [b] = [b] := by
    simp [decodeRunes, decodeRunesAux, decodeRune, h2]
  rw [hd]
  simp only [feedText, List.foldl, feedRune]
  rw [if_neg (by omega), if_neg (by omega), if_neg (by omega), if_pos (by omega)]

/-! ## Cursor of `write` -/

theorem write_curX (s : screen) (r : Nat) :
    (write s r).curX = wrap64 ((if s.curX ≥ s.cols then 0 else s.curX) + 1) := by
  unfold write advance putRune scrollIfBelow scrollUp wrapCursor
  repeat' split
  all_goals rfl

theorem write_curY (s : screen) (r : Nat) :
    (write s r).curY =
      if (if s.curX ≥ s.cols then wrap64 (s.curY + 1) else s.curY) ≥ s.rows
      then wrap64 (s.rows - 1)
      else (if s.curX ≥ s.cols then wrap64 (s.curY + 1) else s.curY) := by
  unfold write advance putRune scrollIfBelow scrollUp wrapCursor
  by_cases h1 : s.curX ≥ s.cols
  · simp only [h1, if_true]
    repeat' split
    all_goals rfl
  · simp only [h1, if_false]
    repeat' split
    all_goals rfl

theorem write_bounds (s : screen) (r : Nat) (hc : 1 ≤ s.cols) (hr : 1 ≤ s.rows)
    (hcm : s.cols ≤ maxInt) (hrm : s.rows ≤ maxInt) (hcur : CursorInt64 s) :
    (write s r).curY < s.rows ∧ (write s r).curX ≤ s.cols ∧
    (0 ≤ s.curX → 0 ≤ s.curY → s.curY < maxInt →
      0 ≤ (write s r).curY ∧ 1 ≤ (write s r).curX) := by
  rw [write_curX, write_curY]
  unfold CursorInt64 IsInt64 at hcur
  unfold maxInt at *
  unfold wrap64
  obtain ⟨⟨hx1, hx2⟩, hy1, hy2⟩ := hcur
  refine ⟨?_, ?_, ?_⟩
  · split_ifs <;> omega
  · split_ifs <;> omega
  · intro h1 h2 h3
    constructor
    · split_ifs <;> omega
    · split_ifs <;> omega

/-- C1 (claim fails on the code). Erase-line indexes `cells[curY][x]` without a bounds
check, so `feed` panics when the cursor is outside the grid. On a 4 x 2 grid each input
named by the claim ends in a panic: `ESC[99;1H ESC[K` (row 98), `ESC[0;0H ESC[K`
(cursor (-1,-1)), two line feeds then `ESC[K` (row 2 = rows), and `abcd ESC[1K`
(column 4 = cols, after the row was erased). -/
theorem erase_line_panics_outside_grid :
    feed (newScreen 4 2) [27, 91, 57, 57, 59, 49, 72, 27, 91, 75] =
      Outcome.panic { newScreen 4 2 with curY := 98 } ∧
    feed (newScreen 4 2) [27, 91, 48, 59, 48, 72, 27, 91, 75] =
      Outcome.panic { newScreen 4 2 with curX := -1, curY := -1 } ∧
    feed (newScreen 4 2) [10, 10, 27, 91, 75] =
      Outcome.panic { newScreen 4 2 with curY := 2 } ∧
    feed (newScreen 4 2) [97, 98, 99, 100, 27, 91, 49, 75] =
      Outcome.panic { newScreen 4 2 with curX := 4 } := by
  set_option maxRecDepth 100000 in decide

/-- C3 (counterexample). After `feed` returns the cursor can be outside the grid: two
line feeds on a 4 x 2 grid leave the cursor row at 2 = rows, and `ESC[0;0H` leaves the
cursor at (-1,-1). -/
theorem cursor_outside_grid_after_feed :
    feed (newScreen 4 2) [10, 10] = Outcome.done { newScreen 4 2 with curY := 2 } ∧
    ¬ ((feed (newScreen 4 2) [10, 10]).screen.curY < (newScreen 4 2).rows) ∧
    feed (newScreen 4 2) [27, 91, 48, 59, 48, 72] =
      Outcome.done { newScreen 4 2 with curX := -1, curY := -1 } ∧
    ¬ (0 ≤ (feed (newScreen 4 2) [27, 91, 48, 59, 48, 72]).screen.curY) ∧
    ¬ (0 ≤ (feed (newScreen 4 2) [27, 91, 48, 59, 48, 72]).screen.curX) := by
  set_option maxRecDepth 100000 in decide

/-- C3 (amended). The cursor is brought back into the grid by `write`, not after every
operation: on a grid made with dimensions between 1 and the largest `int`, in whatever
state `s1` a `feed` of any bytes returned, feeding one more printable ASCII character
writes it and leaves the cursor with row `< rows` and column `≤ cols`; if the cursor was
non-negative before (row below the largest `int`), it is non-negative after, with
column `≥ 1`. -/
theorem cursor_bounds_after_write (cols rows : Int) (hc : 1 ≤ cols) (hr : 1 ≤ rows)
    (hcm : cols ≤ maxInt) (hrm : rows ≤ maxInt) (data : List Nat) (s1 : screen)
    (h1 : feed (newScreen cols rows) data = Outcome.done s1)
    (b : Nat) (hb1 : 32 ≤ b) (hb2 : b < 128) :
    feed s1 [b] = Outcome.done (write s1 b) ∧
    (write s1 b).curY < rows ∧ (write s1 b).curX ≤ cols ∧
    (0 ≤ s1.curX → 0 ≤ s1.curY → s1.curY < maxInt →
      0 ≤ (write s1 b).curY ∧ 1 ≤ (write s1 b).curX) := by
  have hsz := feed_sameSize data (newScreen cols rows)
  have hcur := feed_cursorInt64 data (newScreen cols rows) (newScreen_cursorInt64 cols rows)
  rw [h1] at hsz hcur
  have hcols : s1.cols = cols := hsz.1
  have hrows : s1.rows = rows := hsz.2
  have hb := write_bounds s1 b (by omega) (by omega) (by omega) (by omega) hcur
  rw [hcols, hrows] at hb
  exact ⟨feed_ascii_printable s1 b hb1 hb2, hb⟩

/-- Witness of `cursor_bounds_after_write`: line feeds past the last row of a 4 x 2 grid,
then the letter `a`. -/
theorem cursor_bounds_after_write_witness :
    feed { newScreen 4 2 with curY := 2 } [97] =
      Outcome.done (write { newScreen 4 2 with curY := 2 } 97) ∧
    (write { newScreen 4 2 with curY := 2 } 97).curY < 2 ∧
    (write { newScreen 4 2 with curY := 2 } 97).curX ≤ 4 ∧
    ((0 : Int) ≤ 0 → (0 : Int) ≤ 2 → (2 : Int) < maxInt →
      0 ≤ (write { newScreen 4 2 with curY := 2 } 97).curY ∧
      1 ≤ (write { newScreen 4 2 with curY := 2 } 97).curX) :=
  cursor_bounds_after_write 4 2 (by decide) (by decide) (by decide) (by decide) [10, 10]
    { newScreen 4 2 with curY := 2 } (by set_option maxRecDepth 100000 in decide) 97
    (by decide) (by decide)

/-- Witness of `grid_dimensions_never_drift`: two chunks fed to a 3 x 2 grid, the first
one scrolling it. -/
theorem grid_dimensions_never_drift_witness :
    ((feedAll (newScreen 3 2) [[97, 98, 99, 100, 10, 10, 101], [27, 91, 50, 74]]).screen.cells.length
      : Int) = 2 ∧
    (∀ row ∈ (feedAll (newScreen 3 2) [[97, 98, 99, 100, 10, 10, 101],
      [27, 91, 50, 74]]).screen.cells, (row.length : Int) = 3) ∧
    (feedAll (newScreen 3 2) [[97, 98, 99, 100, 10, 10, 101], [27, 91, 50, 74]]).screen.rows = 2 ∧
    (feedAll (newScreen 3 2) [[97, 98, 99, 100, 10, 10, 101], [27, 91, 50, 74]]).screen.cols = 3 :=
  grid_dimensions_never_drift 3 2 (by decide) (by decide)
    [[97, 98, 99, 100, 10, 10, 101], [27, 91, 50, 74]]

/-! ## Cells: reading after an assignment -/

theorem setCell_eq_some {cells : List (List cell)} {y x : Int} {row : List cell} (c : cell)
    (hy : 0 ≤ y) (hx : 0 ≤ x) (hrow : cells[y.toNat]? = some row)
    (hcol : x.toNat < row.length) :
    setCell cells y x c = some (cells.set y.toNat (row.set x.toNat c)) := by
  unfold setCell
  rw [if_pos ⟨hy, hx⟩, hrow]
  simp only [if_pos hcol]

theorem cellAt_set_same {cells : List (List cell)} {y x : Int} {row : List cell} (c : cell)
    (hy : 0 ≤ y) (hx : 0 ≤ x) (hrow : cells[y.toNat]? = some row)
    (hcol : x.toNat < row.length) :
    cellAt (cells.set y.toNat (row.set x.toNat c)) y x = some c := by
  have hlen : y.toNat < cells.length := by
    rcases List.getElem?_eq_some.mp hrow with ⟨h, -⟩
    exact h
  unfold cellAt
  rw [if_pos ⟨hy, hx⟩]
  simp [List.getElem?_set, hlen, hcol]

theorem cellAt_set_other {cells : List (List cell)} {y x : Int} {row : List cell} (c : cell)
    (hy : 0 ≤ y) (hx : 0 ≤ x) (hrow : cells[y.toNat]? = some row) (i j : Int)
    (hij : i ≠ y ∨ j ≠ x) :
    cellAt (cells.set y.toNat (row.set x.toNat c)) i j = cellAt cells i j := by
  have hlen : y.toNat < cells.length := by
    rcases List.getElem?_eq_some.mp hrow with ⟨h, -⟩
    exact h
  unfold cellAt
  by_cases hpos : 0 ≤ i ∧ 0 ≤ j
  · rw [if_pos hpos, if_pos hpos]
    by_cases hi : y.toNat = i.toNat
    · have hiy : i = y := by omega
      have hjx : j.toNat ≠ x.toNat := by
        rcases hij with h | h
        · exact absurd hiy h
        · omega
      rw [List.getElem?_set, if_pos hi, if_pos hlen, ← hi, hrow]
      simp only
      rw [List.getElem?_set, if_neg (Ne.symm hjx)]
    · rw [List.getElem?_set, if_neg hi]
  · rw [if_neg hpos, if_neg hpos]

/-- The row under an in-range row index of a well-dimensioned grid. -/
theorem gridOK_row {s : screen} (hs : GridOK s) {y : Int} (hy : 0 ≤ y) (hy2 : y < s.rows) :
    ∃ row, s.cells[y.toNat]? = some row ∧ (row.length : Int) = s.cols := by
  obtain ⟨-, -, h3, h4⟩ := hs
  have hlt : y.toNat < s.cells.length := by omega
  refine ⟨s.cells[y.toNat], List.getElem?_eq_getElem hlt, ?_⟩
  exact h4 _ (List.getElem_mem hlt)

theorem write_samePen (s : screen) (r : Nat) : SamePen s (write s r) := by
  unfold write advance putRune scrollIfBelow scrollUp wrapCursor SamePen
  refine ⟨?_, ?_, ?_, ?_, ?_, ?_, ?_⟩ <;> (repeat' split) <;> rfl

/-- Effect of `write` with the cursor inside the grid: the cell under the cursor is assigned and the
column advances. -/
theorem write_in_bounds (s : screen) (r : Nat) (hs : GridOK s) (hcm : s.cols ≤ maxInt)
    (hx : 0 ≤ s.curX) (hx2 : s.curX < s.cols) (hy : 0 ≤ s.curY) (hy2 : s.curY < s.rows) :
    ∃ row, s.cells[s.curY.toNat]? = some row ∧ (row.length : Int) = s.cols ∧
      write s r =
        { s with
          cells := s.cells.set s.curY.toNat (row.set s.curX.toNat (penCell s r))
          curX := s.curX + 1 } := by
  obtain ⟨row, hrow, hlen⟩ := gridOK_row hs hy hy2
  refine ⟨row, hrow, hlen, ?_⟩
  have h1 : wrapCursor s = s := by
    unfold wrapCursor; rw [if_neg (by omega)]
  have h2 : scrollIfBelow s = s := by
    unfold scrollIfBelow; rw [if_neg (by omega)]
  have h3 : putRune s r =
      { s with cells := s.cells.set s.curY.toNat (row.set s.curX.toNat (penCell s r)) } := by
    unfold putRune
    rw [if_pos ⟨hy, hx, hy2, hx2⟩]
    have := setCell_eq_some (penCell s r) hy hx hrow (by omega)
    unfold penCell at this
    rw [this]
    rfl
  unfold write
  rw [h1, h2, h3]
  unfold advance
  have hw : wrap64 (s.curX + 1) = s.curX + 1 := by
    unfold maxInt at hcm
    unfold wrap64; omega
  simp only [hw]

/-! ## UTF-8 round trip -/

theorem decodeRunes_encodeRune (r : Nat) (h : IsScalar r) : decodeRunes (encodeRune r) = [r] := by
  unfold IsScalar at h
  unfold encodeRune
  by_cases h1 : r < 128
  · simp [decodeRunes, decodeRunesAux, decodeRune, h1]
  · rw [if_neg h1]
    by_cases h2 : r < 2048
    · rw [if_pos h2]
      have a1 : ¬ (192 + r / 64 < 128) := by omega
      have a2 : 194 ≤ 192 + r / 64 ∧ 192 + r / 64 ≤ 223 := by omega
      have a3 : 128 ≤ 128 + r % 64 ∧ 128 + r % 64 ≤ 191 := by omega
      simp only [decodeRunes, decodeRunesAux, decodeRune, if_neg a1, if_pos a2, if_pos a3]
      simp only [Nat.add_sub_cancel, decodeRunesAux, List.cons.injEq, and_true]
      omega
    · rw [if_neg h2]
      rw [if_neg (by omega)]
      by_cases h3 : r < 65536
      · rw [if_pos h3]
        have a1 : ¬ (224 + r / 4096 < 128) := by omega
        have a2 : ¬ (194 ≤ 224 + r / 4096 ∧ 224 + r / 4096 ≤ 223) := by omega
        have a3 : 224 ≤ 224 + r / 4096 ∧ 224 + r / 4096 ≤ 239 := by omega
        have a4 : (if 224 + r / 4096 = 224 then 160 else 128) ≤ 128 + r / 64 % 64 ∧
            128 + r / 64 % 64 ≤ (if 224 + r / 4096 = 237 then 159 else 191) ∧
            128 ≤ 128 + r % 64 ∧ 128 + r % 64 ≤ 191 := by
          split_ifs <;> omega
        simp only [decodeRunes, decodeRunesAux, decodeRune, if_neg a1, if_neg a2, if_pos a3,
          if_pos a4]
        simp only [Nat.add_sub_cancel, decodeRunesAux, List.cons.injEq, and_true]
        omega
      · rw [if_neg h3]
        have a1 : ¬ (240 + r / 262144 < 128) := by omega
        have a2 : ¬ (194 ≤ 240 + r / 262144 ∧ 240 + r / 262144 ≤ 223) := by omega
        have a3 : ¬ (224 ≤ 240 + r / 262144 ∧ 240 + r / 262144 ≤ 239) := by omega
        have a5 : 240 ≤ 240 + r / 262144 ∧ 240 + r / 262144 ≤ 244 := by omega
        have a4 : (if 240 + r / 262144 = 240 then 144 else 128) ≤ 128 + r / 4096 % 64 ∧
            128 + r / 4096 % 64 ≤ (if 240 + r / 262144 = 244 then 143 else 191) ∧
            128 ≤ 128 + r / 64 % 64 ∧ 128 + r / 64 % 64 ≤ 191 ∧
            128 ≤ 128 + r % 64 ∧ 128 + r % 64 ≤ 191 := by
          split_ifs <;> omega
        simp only [decodeRunes, decodeRunesAux, decodeRune, if_neg a1, if_neg a2, if_neg a3,
          if_pos a5, if_pos a4]
        simp only [Nat.add_sub_cancel, decodeRunesAux, List.cons.injEq, and_true]
        omega

theorem encodeRune_no_escape (r : Nat) (hr : 32 ≤ r) : ∀ b ∈ encodeRune r, b ≠ 27 := by
  intro b hb
  unfold encodeRune at hb
  split_ifs at hb <;> simp at hb <;> omega

/-- Feeding the UTF-8 bytes of a printable scalar value is one `write` of it. -/
theorem feed_encodeRune (s : screen) (r : Nat) (hr : 32 ≤ r) (hv : IsScalar r) :
    feed s (encodeRune r) = Outcome.done (write s r) := by
  rw [feed_no_escape s _ (encodeRune_no_escape r hr), decodeRunes_encodeRune r hv]
  simp only [feedText, List.foldl, feedRune]
  rw [if_neg (by omega), if_neg (by omega), if_neg (by omega), if_pos (by omega)]

/-- C5. Printable write: on a screen whose grid has its declared dimensions and whose
cursor is inside the grid, feeding a character `r` with code at least 32 (as its UTF-8
bytes) returns, sets cell (y, x) to `r` with the current foreground, background, bold, dim
and italic, advances the column to x+1 on the same row, and leaves every other cell, the
graphics state and the dimensions unchanged. -/
theorem printable_write (s : screen) (r : Nat) (hs : GridOK s) (hcm : s.cols ≤ maxInt)
    (hx : 0 ≤ s.curX ∧ s.curX < s.cols) (hy : 0 ≤ s.curY ∧ s.curY < s.rows)
    (hr : 32 ≤ r) (hv : IsScalar r) :
    feed s (encodeRune r) = Outcome.done (write s r) ∧
    cellAt (write s r).cells s.curY s.curX =
      some { char := r, fg := s.curFg, bg := s.curBg, bold := s.bold, dim := s.dim,
             italic := s.italic } ∧
    (∀ i j : Int, i ≠ s.curY ∨ j ≠ s.curX →
      cellAt (write s r).cells i j = cellAt s.cells i j) ∧
    (write s r).curX = s.curX + 1 ∧ (write s r).curY = s.curY ∧
    SamePen s (write s r) ∧ GridOK (write s r) := by
  obtain ⟨row, hrow, hlen, hw⟩ := write_in_bounds s r hs hcm hx.1 hx.2 hy.1 hy.2
  refine ⟨feed_encodeRune s r hr hv, ?_, ?_, ?_, ?_, write_samePen s r, write_gridOK r hs⟩
  · rw [hw]
    exact cellAt_set_same (penCell s r) hy.1 hx.1 hrow (by omega)
  · intro i j hij
    rw [hw]
    exact cellAt_set_other (penCell s r) hy.1 hx.1 hrow i j hij
  · rw [hw]
  · rw [hw]

/-- Witness of `printable_write`: the letter `a` at cursor (1, 0) of a 4 x 2 grid. -/
theorem printable_write_witness :
    feed { newScreen 4 2 with curX := 1 } (encodeRune 97) =
      Outcome.done (write { newScreen 4 2 with curX := 1 } 97) ∧
    cellAt (write { newScreen 4 2 with curX := 1 } 97).cells 0 1 =
      some { char := 97, fg := defaultFg, bg := "", bold := false, dim := false,
             italic := false } ∧
    (∀ i j : Int, i ≠ 0 ∨ j ≠ 1 →
      cellAt (write { newScreen 4 2 with curX := 1 } 97).cells i j =
        cellAt (newScreen 4 2).cells i j) ∧
    (write { newScreen 4 2 with curX := 1 } 97).curX = 1 + 1 ∧
    (write { newScreen 4 2 with curX := 1 } 97).curY = 0 ∧
    SamePen { newScreen 4 2 with curX := 1 } (write { newScreen 4 2 with curX := 1 } 97) ∧
    GridOK (write { newScreen 4 2 with curX := 1 } 97) :=
  printable_write { newScreen 4 2 with curX := 1 } 97
    (newScreen_gridOK 4 2 (by decide) (by decide)) (by decide) (by decide) (by decide)
    (by decide) (by unfold IsScalar; decide)

/-- C6. Scroll: with the cursor at column `cols` of the last row, writing `r` moves every
row up by one (old row 0 is dropped), makes the last row blank except for column 0, which
holds `r` with the current graphics state, and leaves the cursor at (1, rows-1). -/
theorem write_scrolls_at_bottom (s : screen) (r : Nat) (hs : GridOK s)
    (hcm : s.cols ≤ maxInt) (hrm : s.rows ≤ maxInt)
    (hx : s.curX = s.cols) (hy : s.curY = s.rows - 1) :
    (∀ i : Nat, (i : Int) < s.rows - 1 → (write s r).cells[i]? = s.cells[i + 1]?) ∧
    (write s r).cells[(s.rows - 1).toNat]? =
      some ((List.replicate s.cols.toNat blankCell).set 0
        { char := r, fg := s.curFg, bg := s.curBg, bold := s.bold, dim := s.dim,
          italic := s.italic }) ∧
    (write s r).cells.length = s.cells.length ∧
    (write s r).curX = 1 ∧ (write s r).curY = s.rows - 1 := by
  obtain ⟨h1, h2, h3, h4⟩ := hs
  unfold maxInt at hcm hrm
  have hw1 : wrap64 (s.rows - 1 + 1) = s.rows := by unfold wrap64; omega
  have hw2 : wrap64 (s.rows - 1) = s.rows - 1 := by unfold wrap64; omega
  have hw3 : wrap64 (0 + 1) = 1 := by unfold wrap64; omega
  have e1 : wrapCursor s = { s with curX := 0, curY := s.rows } := by
    unfold wrapCursor
    rw [if_pos (by omega), hy, hw1]
  have e2 : scrollIfBelow { s with curX := 0, curY := s.rows } =
      { s with
        cells := (s.cells.drop 1 ++ s.cells.drop (s.cells.length - 1)).set
          (s.rows - 1).toNat (blankRow s.cols)
        curX := 0
        curY := s.rows - 1 } := by
    unfold scrollIfBelow scrollUp
    simp only [ge_iff_le, le_refl, if_true, hw2]
  have hidx : (s.rows - 1).toNat < (s.cells.drop 1 ++ s.cells.drop (s.cells.length - 1)).length := by
    simp only [List.length_append, List.length_drop]
    omega
  have hrowget : ((s.cells.drop 1 ++ s.cells.drop (s.cells.length - 1)).set
      (s.rows - 1).toNat (blankRow s.cols))[(s.rows - 1).toNat]? = some (blankRow s.cols) := by
    rw [List.getElem?_set, if_pos rfl, if_pos hidx]
  have hblank : (blankRow s.cols).length = s.cols.toNat := by simp [blankRow]
  have e3 : putRune { s with
        cells := (s.cells.drop 1 ++ s.cells.drop (s.cells.length - 1)).set
          (s.rows - 1).toNat (blankRow s.cols)
        curX := 0
        curY := s.rows - 1 } r =
      { s with
        cells := ((s.cells.drop 1 ++ s.cells.drop (s.cells.length - 1)).set
          (s.rows - 1).toNat (blankRow s.cols)).set (s.rows - 1).toNat
            ((blankRow s.cols).set 0 (penCell s r))
        curX := 0
        curY := s.rows - 1 } := by
    unfold putRune
    simp only
    rw [if_pos ⟨by omega, le_refl 0, by omega, by omega⟩]
    have hset := @setCell_eq_some ((s.cells.drop 1 ++ s.cells.drop (s.cells.length - 1)).set
      (s.rows - 1).toNat (blankRow s.cols)) (s.rows - 1) 0 (blankRow s.cols) (penCell s r)
      (by omega) (le_refl 0) hrowget (by simp [hblank]; omega)
    unfold penCell at hset
    rw [hset]
    rfl
  have e : write s r =
      { s with
        cells := ((s.cells.drop 1 ++ s.cells.drop (s.cells.length - 1)).set
          (s.rows - 1).toNat (blankRow s.cols)).set (s.rows - 1).toNat
            ((blankRow s.cols).set 0 (penCell s r))
        curX := 1
        curY := s.rows - 1 } := by
    unfold write
    rw [e1, e2, e3]
    unfold advance
    simp only [hw3]
  rw [e]
  refine ⟨?_, ?_, ?_, rfl, rfl⟩
  · intro i hi
    have hne : (s.rows - 1).toNat ≠ i := by omega
    simp only
    rw [List.getElem?_set, if_neg hne, List.getElem?_set, if_neg hne,
      List.getElem?_append_left (by simp only [List.length_drop]; omega), List.getElem?_drop,
      Nat.add_comm]
  · simp only
    rw [List.getElem?_set, if_pos rfl, if_pos (by simpa using hidx)]
    rfl
  · simp only [List.length_set, List.length_append, List.length_drop]
    omega

/-- Witness of `write_scrolls_at_bottom`: cursor at column 4 of the last row of a 4 x 2
grid. -/
theorem write_scrolls_at_bottom_witness :
    (∀ i : Nat, (i : Int) < 2 - 1 →
      (write { newScreen 4 2 with curX := 4, curY := 1 } 97).cells[i]? =
        (newScreen 4 2).cells[i + 1]?) ∧
    (write { newScreen 4 2 with curX := 4, curY := 1 } 97).cells[((2 : Int) - 1).toNat]? =
      some ((List.replicate (4 : Int).toNat blankCell).set 0
        { char := 97, fg := defaultFg, bg := "", bold := false, dim := false,
          italic := false }) ∧
    (write { newScreen 4 2 with curX := 4, curY := 1 } 97).cells.length =
      (newScreen 4 2).cells.length ∧
    (write { newScreen 4 2 with curX := 4, curY := 1 } 97).curX = 1 ∧
    (write { newScreen 4 2 with curX := 4, curY := 1 } 97).curY = 2 - 1 :=
  write_scrolls_at_bottom { newScreen 4 2 with curX := 4, curY := 1 } 97
    (newScreen_gridOK 4 2 (by decide) (by decide)) (by decide) (by decide) rfl rfl

/-- C7. Lazy wrap, once per write. With the cursor at column `cols` of a row `y` above the
last one, writing `r` puts `r` at (y+1, 0), leaves the cursor at (1, y+1) and changes no
other cell; and with the cursor at column `cols-1` of a row inside the grid, writing `r`
fills that cell and leaves the cursor at column `cols` of the same row, no other cell
changed (no wrap and no scroll before the next write). -/
theorem lazy_wrap (s : screen) (r : Nat) (hs : GridOK s) (hcm : s.cols ≤ maxInt)
    (hrm : s.rows ≤ maxInt) (hy : 0 ≤ s.curY) :
    (s.curX = s.cols → s.curY < s.rows - 1 →
      cellAt (write s r).cells (s.curY + 1) 0 =
        some { char := r, fg := s.curFg, bg := s.curBg, bold := s.bold, dim := s.dim,
               italic := s.italic } ∧
      (∀ i j : Int, i ≠ s.curY + 1 ∨ j ≠ 0 →
        cellAt (write s r).cells i j = cellAt s.cells i j) ∧
      (write s r).curX = 1 ∧ (write s r).curY = s.curY + 1) ∧
    (s.curX = s.cols - 1 → s.curY < s.rows →
      cellAt (write s r).cells s.curY (s.cols - 1) =
        some { char := r, fg := s.curFg, bg := s.curBg, bold := s.bold, dim := s.dim,
               italic := s.italic } ∧
      (∀ i j : Int, i ≠ s.curY ∨ j ≠ s.cols - 1 →
        cellAt (write s r).cells i j = cellAt s.cells i j) ∧
      (write s r).curX = s.cols ∧ (write s r).curY = s.curY) := by
  have hc1 : 1 ≤ s.cols := hs.1
  constructor
  · intro hx hy2
    have hw1 : wrap64 (s.curY + 1) = s.curY + 1 := by
      unfold maxInt at hrm; unfold wrap64; omega
    have e1 : wrapCursor s = { s with curX := 0, curY := s.curY + 1 } := by
      unfold wrapCursor
      rw [if_pos (by omega), hw1]
    have e0 : wrapCursor { s with curX := 0, curY := s.curY + 1 } =
        { s with curX := 0, curY := s.curY + 1 } := by
      unfold wrapCursor
      rw [if_neg (by show ¬ ((0 : Int) ≥ s.cols); omega)]
    have ew : write s r = write { s with curX := 0, curY := s.curY + 1 } r := by
      unfold write
      rw [e1, e0]
    obtain ⟨row, hrow, hlen, hw⟩ := write_in_bounds { s with curX := 0, curY := s.curY + 1 } r
      hs hcm (le_refl 0) (by show (0 : Int) < s.cols; omega)
      (by show 0 ≤ s.curY + 1; omega) (by show s.curY + 1 < s.rows; omega)
    have hlen' : (row.length : Int) = s.cols := hlen
    have hrow' : s.cells[(s.curY + 1).toNat]? = some row := hrow
    have hw' : write { s with curX := 0, curY := s.curY + 1 } r =
        { s with
          cells := s.cells.set (s.curY + 1).toNat (row.set (0 : Int).toNat (penCell s r))
          curX := 0 + 1
          curY := s.curY + 1 } := hw
    rw [ew, hw']
    refine ⟨?_, ?_, by simp, rfl⟩
    · exact cellAt_set_same (y := s.curY + 1) (x := 0) _ (by omega) (le_refl 0) hrow'
        (by simp only [Int.toNat_zero]; omega)
    · intro i j hij
      exact cellAt_set_other (y := s.curY + 1) (x := 0) _ (by omega) (le_refl 0) hrow' i j hij
  · intro hx hy2
    obtain ⟨row, hrow, hlen, hw⟩ := write_in_bounds s r hs hcm (by omega) (by omega) hy hy2
    rw [hw]
    refine ⟨?_, ?_, by simp only; omega, rfl⟩
    · rw [← hx]
      exact cellAt_set_same _ hy (by omega) hrow (by omega)
    · intro i j hij
      rw [← hx] at hij
      exact cellAt_set_other _ hy (by omega) hrow i j hij

/-- Witness of `lazy_wrap`: on a 4 x 2 grid, a write with the cursor at (4, 0) and a write
with the cursor at (3, 0). -/
theorem lazy_wrap_witness :
    (cellAt (write { newScreen 4 2 with curX := 4 } 97).cells (0 + 1) 0 =
        some { char := 97, fg := defaultFg, bg := "", bold := false, dim := false,
               italic := false } ∧
      (∀ i j : Int, i ≠ 0 + 1 ∨ j ≠ 0 →
        cellAt (write { newScreen 4 2 with curX := 4 } 97).cells i j =
          cellAt (newScreen 4 2).cells i j) ∧
      (write { newScreen 4 2 with curX := 4 } 97).curX = 1 ∧
      (write { newScreen 4 2 with curX := 4 } 97).curY = 0 + 1) ∧
    (cellAt (write { newScreen 4 2 with curX := 3 } 97).cells 0 (4 - 1) =
        some { char := 97, fg := defaultFg, bg := "", bold := false, dim := false,
               italic := false } ∧
      (∀ i j : Int, i ≠ 0 ∨ j ≠ 4 - 1 →
        cellAt (write { newScreen 4 2 with curX := 3 } 97).cells i j =
          cellAt (newScreen 4 2).cells i j) ∧
      (write { newScreen 4 2 with curX := 3 } 97).curX = 4 ∧
      (write { newScreen 4 2 with curX := 3 } 97).curY = 0) :=
  ⟨(lazy_wrap { newScreen 4 2 with curX := 4 } 97 (newScreen_gridOK 4 2 (by decide) (by decide))
      (by decide) (by decide) (by decide)).1 rfl (by decide),
    (lazy_wrap { newScreen 4 2 with curX := 3 } 97 (newScreen_gridOK 4 2 (by decide) (by decide))
      (by decide) (by decide) (by decide)).2 rfl (by decide)⟩

/-! ## Select graphic rendition: reset -/

theorem feed_of_findAll (s : screen) {data : List Nat}
    {ms : List (List Nat × List Nat × Nat)} {rest : List Nat}
    (h : findAll data = (ms, rest)) :
    feed s data =
      match feedMatches s ms with
      | .done s1 => .done (feedText s1 (decodeRunes rest))
      | .panic s1 => .panic s1 := by
  unfold feed
  rw [h]

theorem dispatch_sgr (s : screen) (paramsStr : List Nat) :
    dispatch s paramsStr 109 = Outcome.done (setSGR s (parseParams paramsStr)) := by
  unfold dispatch
  rw [if_pos rfl]

theorem setSGR_zero (s : screen) : setSGR s [0] = resetPen s := by
  have hne : (([0] : List Int) = []) = False := by simp
  simp only [setSGR, hne, if_false, setSGRAux]
  unfold sgrStep
  rw [if_pos rfl]
  rfl

theorem setSGR_nil (s : screen) : setSGR s [] = resetPen s := by
  have h : setSGR s [] = setSGR s [0] := by
    simp only [setSGR, if_true]
    rfl
  rw [h, setSGR_zero]

theorem setSGR_foreground (s : screen) (p : Int) (h1 : 30 ≤ p) (h2 : p ≤ 37) :
    setSGR s [p] = { s with curFg := ansiColors (p - 30) } := by
  have hne : ([p] = ([] : List Int)) = False := by simp
  simp only [setSGR, hne, if_false, setSGRAux, sgrStep]
  rw [if_neg (by omega), if_neg (by omega), if_neg (by omega), if_neg (by omega),
    if_neg (by omega), if_neg (by omega), if_pos ⟨h1, h2⟩]

theorem feedText_single_printable (s : screen) (r : Nat) (hr : 32 ≤ r) :
    feedText s [r] = write s r := by
  simp only [feedText, List.foldl, feedRune]
  rw [if_neg (by omega), if_neg (by omega), if_neg (by omega), if_pos (by omega)]

/-- Cell, cursor, graphics state and dimensions after a `write` with the cursor inside the
grid. -/
theorem write_at_cursor (s : screen) (r : Nat) (hs : GridOK s) (hcm : s.cols ≤ maxInt)
    (hx : 0 ≤ s.curX ∧ s.curX < s.cols) (hy : 0 ≤ s.curY ∧ s.curY < s.rows) :
    cellAt (write s r).cells s.curY s.curX = some (penCell s r) ∧
    (∀ i j : Int, i ≠ s.curY ∨ j ≠ s.curX →
      cellAt (write s r).cells i j = cellAt s.cells i j) ∧
    (write s r).curX = s.curX + 1 ∧ (write s r).curY = s.curY ∧
    SamePen s (write s r) ∧ GridOK (write s r) := by
  obtain ⟨row, hrow, hlen, hw⟩ := write_in_bounds s r hs hcm hx.1 hx.2 hy.1 hy.2
  refine ⟨?_, ?_, ?_, ?_, write_samePen s r, write_gridOK r hs⟩
  · rw [hw]
    exact cellAt_set_same (penCell s r) hy.1 hx.1 hrow (by omega)
  · intro i j hij
    rw [hw]
    exact cellAt_set_other (penCell s r) hy.1 hx.1 hrow i j hij
  · rw [hw]
  · rw [hw]

theorem feed_sgr_reset (s : screen) :
    feed s [27, 91, 48, 109] = Outcome.done (resetPen s) ∧
    feed s [27, 91, 109] = Outcome.done (resetPen s) := by
  have f1 : findAll [27, 91, 48, 109] = ([([], [48], 109)], []) := by decide
  have f2 : findAll [27, 91, 109] = ([([], [], 109)], []) := by decide
  have p1 : parseParams [48] = [0] := by decide
  have p2 : parseParams [] = [] := by decide
  have d : decodeRunes [] = [] := by decide
  constructor
  · rw [feed_of_findAll s f1]
    simp only [feedMatches, d, feedText, List.foldl, dispatch_sgr, p1, setSGR_zero]
  · rw [feed_of_findAll s f2]
    simp only [feedMatches, d, feedText, List.foldl, dispatch_sgr, p2, setSGR_nil]

/-- The screen after `ESC[<c>m X ESC[0m Y` on a fresh grid, for a foreground code `c`. -/
theorem feed_colour_then_reset (c : Nat) (hc1 : 30 ≤ c) (hc2 : c ≤ 37) (s : screen) :
    feed s [27, 91, 48 + c / 10, 48 + c % 10, 109, 88, 27, 91, 48, 109, 89] =
      Outcome.done (write (resetPen (write { s with curFg := ansiColors ((c : Int) - 30) } 88)) 89) := by
  have d0 : decodeRunes [] = [] := by decide
  have d1 : decodeRunes [88] = [88] := by decide
  have d2 : decodeRunes [89] = [89] := by decide
  have p0 : parseParams [48] = [0] := by decide
  have key : ∀ d : Nat, 48 ≤ d → d ≤ 55 →
      findAll [27, 91, 51, d, 109, 88, 27, 91, 48, 109, 89] =
        ([([], [51, d], 109), ([88], [48], 109)], [89]) ∧
      parseParams [51, d] = [((30 + (d - 48) : Nat) : Int)] := by
    intro d h1 h2
    interval_cases d <;> decide
  have hdiv : 48 + c / 10 = 51 := by omega
  obtain ⟨f, p⟩ := key (48 + c % 10) (by omega) (by omega)
  rw [hdiv, feed_of_findAll s f]
  simp only [feedMatches, d0, d1, d2, dispatch_sgr, p, p0, setSGR_zero]
  have hp : ((30 + (48 + c % 10 - 48) : Nat) : Int) = (c : Int) := by omega
  rw [hp, setSGR_foreground _ _ (by omega) (by omega)]
  have w : ∀ (t : screen) (r : Nat), 32 ≤ r → feedRune t r = write t r :=
    fun t r hr => feedText_single_printable t r hr
  simp only [feedText, List.foldl, w _ 88 (by decide), w _ 89 (by decide)]

/-- C8. SGR reset: for every graphics state, code 0 and the empty parameter list (`ESC[0m`,
`ESC[m`) set the foreground to the default, the background to none and bold, dim, italic
to false, touching nothing else; and for every foreground code `c` in 30..37, feeding
`ESC[<c>m X ESC[0m Y` to a fresh grid with at least 2 columns yields cell (0,0) = `X`
with foreground palette entry `c-30` (code 31: `#e06c75`) and cell (0,1) = `Y` with the
default foreground `#abb2bf`. -/
theorem sgr_reset (c : Nat) (cols rows : Int) (hc : 30 ≤ c ∧ c ≤ 37) (hcols : 2 ≤ cols)
    (hcm : cols ≤ maxInt) (hrows : 1 ≤ rows) :
    (∀ s : screen,
      setSGR s [0] =
        { s with curFg := defaultFg, curBg := "", bold := false, dim := false,
                 italic := false } ∧
      setSGR s [] = setSGR s [0] ∧
      feed s [27, 91, 48, 109] = Outcome.done (setSGR s [0]) ∧
      feed s [27, 91, 109] = Outcome.done (setSGR s [0])) ∧
    (∃ s1 : screen,
      feed (newScreen cols rows)
        [27, 91, 48 + c / 10, 48 + c % 10, 109, 88, 27, 91, 48, 109, 89] = Outcome.done s1 ∧
      cellAt s1.cells 0 0 =
        some { char := 88, fg := ansiColors ((c : Int) - 30), bg := "", bold := false,
               dim := false, italic := false } ∧
      cellAt s1.cells 0 1 =
        some { char := 89, fg := defaultFg, bg := "", bold := false, dim := false,
               italic := false }) ∧
    ansiColors (31 - 30) = "#e06c75" ∧ defaultFg = "#abb2bf" := by
  refine ⟨?_, ?_, by decide, by decide⟩
  · intro s
    rw [setSGR_nil, setSGR_zero]
    exact ⟨rfl, rfl, (feed_sgr_reset s).1, (feed_sgr_reset s).2⟩
  · refine ⟨_, feed_colour_then_reset c hc.1 hc.2 (newScreen cols rows), ?_, ?_⟩
    · have g0 : GridOK { newScreen cols rows with curFg := ansiColors ((c : Int) - 30) } :=
        newScreen_gridOK cols rows (by omega) hrows
      obtain ⟨a1, a2, a3, a4, a5, a6⟩ :=
        write_at_cursor { newScreen cols rows with curFg := ansiColors ((c : Int) - 30) } 88 g0
          hcm ⟨le_refl 0, by show (0 : Int) < cols; omega⟩
          ⟨le_refl 0, by show (0 : Int) < rows; omega⟩
      have g1 : GridOK (resetPen (write
          { newScreen cols rows with curFg := ansiColors ((c : Int) - 30) } 88)) := a6
      have hx1 : (resetPen (write
          { newScreen cols rows with curFg := ansiColors ((c : Int) - 30) } 88)).curX = 1 := a3
      have hy1 : (resetPen (write
          { newScreen cols rows with curFg := ansiColors ((c : Int) - 30) } 88)).curY = 0 := a4
      have hc1 : (resetPen (write
          { newScreen cols rows with curFg := ansiColors ((c : Int) - 30) } 88)).cols = cols :=
        a5.2.2.2.2.2.1
      have hr1 : (resetPen (write
          { newScreen cols rows with curFg := ansiColors ((c : Int) - 30) } 88)).rows = rows :=
        a5.2.2.2.2.2.2
      obtain ⟨b1, b2, -⟩ := write_at_cursor _ 89 g1 (by rw [hc1]; exact hcm)
        ⟨by rw [hx1]; decide, by rw [hx1, hc1]; omega⟩ ⟨by rw [hy1], by rw [hy1, hr1]; omega⟩
      rw [hx1, hy1] at b2
      rw [b2 0 0 (Or.inr (by decide))]
      exact a1
    · have g0 : GridOK { newScreen cols rows with curFg := ansiColors ((c : Int) - 30) } :=
        newScreen_gridOK cols rows (by omega) hrows
      obtain ⟨a1, a2, a3, a4, a5, a6⟩ :=
        write_at_cursor { newScreen cols rows with curFg := ansiColors ((c : Int) - 30) } 88 g0
          hcm ⟨le_refl 0, by show (0 : Int) < cols; omega⟩
          ⟨le_refl 0, by show (0 : Int) < rows; omega⟩
      have g1 : GridOK (resetPen (write
          { newScreen cols rows with curFg := ansiColors ((c : Int) - 30) } 88)) := a6
      have hx1 : (resetPen (write
          { newScreen cols rows with curFg := ansiColors ((c : Int) - 30) } 88)).curX = 1 := a3
      have hy1 : (resetPen (write
          { newScreen cols rows with curFg := ansiColors ((c : Int) - 30) } 88)).curY = 0 := a4
      have hc1 : (resetPen (write
          { newScreen cols rows with curFg := ansiColors ((c : Int) - 30) } 88)).cols = cols :=
        a5.2.2.2.2.2.1
      have hr1 : (resetPen (write
          { newScreen cols rows with curFg := ansiColors ((c : Int) - 30) } 88)).rows = rows :=
        a5.2.2.2.2.2.2
      obtain ⟨b1, -⟩ := write_at_cursor _ 89 g1 (by rw [hc1]; exact hcm)
        ⟨by rw [hx1]; decide, by rw [hx1, hc1]; omega⟩ ⟨by rw [hy1], by rw [hy1, hr1]; omega⟩
      rw [hx1, hy1] at b1
      exact b1

/-- Witness of `sgr_reset`: code 31 (red) on an 80 x 24 grid. -/
theorem sgr_reset_witness :
    (∀ s : screen,
      setSGR s [0] =
        { s with curFg := defaultFg, curBg := "", bold := false, dim := false,
                 italic := false } ∧
      setSGR s [] = setSGR s [0] ∧
      feed s [27, 91, 48, 109] = Outcome.done (setSGR s [0]) ∧
      feed s [27, 91, 109] = Outcome.done (setSGR s [0])) ∧
    (∃ s1 : screen,
      feed (newScreen 80 24)
        [27, 91, 48 + 31 / 10, 48 + 31 % 10, 109, 88, 27, 91, 48, 109, 89] = Outcome.done s1 ∧
      cellAt s1.cells 0 0 =
        some { char := 88, fg := ansiColors (((31 : Nat) : Int) - 30), bg := "", bold := false,
               dim := false, italic := false } ∧
      cellAt s1.cells 0 1 =
        some { char := 89, fg := defaultFg, bg := "", bold := false, dim := false,
               italic := false }) ∧
    ansiColors (31 - 30) = "#e06c75" ∧ defaultFg = "#abb2bf" :=
  sgr_reset 31 80 24 (by decide) (by decide) (by decide) (by decide)

/-! ## Font-family sanitization -/

theorem isFontRune_iff (r : Nat) :
    isFontRune r = true ↔
      ((65 ≤ r ∧ r ≤ 90) ∨ (97 ≤ r ∧ r ≤ 122) ∨ (48 ≤ r ∧ r ≤ 57) ∨
        r = 32 ∨ r = 45 ∨ r = 95 ∨ r = 44) := by
  simp only [isFontRune, Bool.or_eq_true, Bool.and_eq_true, decide_eq_true_eq, beq_iff_eq]
  omega

theorem isFontRune_lt (r : Nat) (h : isFontRune r = true) : r < 128 := by
  rw [isFontRune_iff] at h; omega

theorem encodeRune_ascii (r : Nat) (h : r < 128) : encodeRune r = [r] := by
  unfold encodeRune; rw [if_pos h]

theorem sanitize_loop (acc runes : List Nat) :
    runes.foldl (fun result r => if isFontRune r then result ++ encodeRune r else result) acc =
      acc ++ runes.filter isFontRune := by
  induction runes generalizing acc with
  | nil => simp
  | cons r rs ih =>
    simp only [List.foldl_cons]
    rw [ih]
    by_cases h : isFontRune r = true
    · rw [if_pos h, encodeRune_ascii r (isFontRune_lt r h), List.filter_cons_of_pos h]
      simp
    · rw [if_neg h, List.filter_cons_of_neg h]

theorem ite_pred_dep {α : Type} (P : α → Prop) (c : Prop) [Decidable c] (a b : α)
    (ha : c → P a) (hb : ¬ c → P b) : P (if c then a else b) := by
  split
  · exact ha ‹_›
  · exact hb ‹_›

/-- What `decodeRune` returns: an ASCII byte is its own rune of width 1; otherwise the
rune is not ASCII and the bytes it covers after the first are not ASCII. -/
theorem decodeRune_cases (b : Nat) (rest : List Nat) :
    (b < 128 ∧ decodeRune b rest = (b, 1)) ∨
    (128 ≤ b ∧ 128 ≤ (decodeRune b rest).1 ∧
      ∀ x ∈ rest.take ((decodeRune b rest).2 - 1), 128 ≤ x) := by
  by_cases h0 : b < 128
  · left
    exact ⟨h0, by unfold decodeRune; rw [if_pos h0]⟩
  · right
    refine ⟨by omega, ?_⟩
    have bad : ∀ l : List Nat, 128 ≤ ((65533, 1) : Nat × Nat).1 ∧
        ∀ x ∈ l.take (((65533, 1) : Nat × Nat).2 - 1), 128 ≤ x := by
      intro l; simp
    unfold decodeRune
    rw [if_neg h0]
    refine ite_pred_dep (fun p : Nat × Nat => 128 ≤ p.1 ∧ ∀ x ∈ rest.take (p.2 - 1), 128 ≤ x)
      _ _ _ (fun h1 => ?_) (fun h1 => ?_)
    · rcases rest with _ | ⟨b1, r1⟩
      · exact bad _
      · refine ite_pred_dep
          (fun p : Nat × Nat => 128 ≤ p.1 ∧ ∀ x ∈ (b1 :: r1).take (p.2 - 1), 128 ≤ x)
          _ _ _ (fun h4 => ?_) (fun _ => bad _)
        refine ⟨by simp only; omega, ?_⟩
        intro x hx
        simp at hx
        omega
    · refine ite_pred_dep (fun p : Nat × Nat => 128 ≤ p.1 ∧ ∀ x ∈ rest.take (p.2 - 1), 128 ≤ x)
        _ _ _ (fun h2 => ?_) (fun h2 => ?_)
      · rcases rest with _ | ⟨b1, _ | ⟨b2, r2⟩⟩
        · exact bad _
        · exact bad _
        · refine ite_pred_dep
            (fun p : Nat × Nat => 128 ≤ p.1 ∧ ∀ x ∈ (b1 :: b2 :: r2).take (p.2 - 1), 128 ≤ x)
            _ _ _ (fun h4 => ?_) (fun _ => bad _)
          obtain ⟨h41, h42, h43⟩ := h4
          split_ifs at h41 h42 <;>
            (refine ⟨by simp only; omega, ?_⟩
             intro x hx
             simp at hx
             omega)
      · refine ite_pred_dep
          (fun p : Nat × Nat => 128 ≤ p.1 ∧ ∀ x ∈ rest.take (p.2 - 1), 128 ≤ x)
          _ _ _ (fun h3 => ?_) (fun _ => bad _)
        rcases rest with _ | ⟨b1, _ | ⟨b2, _ | ⟨b3, r3⟩⟩⟩
        · exact bad _
        · exact bad _
        · exact bad _
        · refine ite_pred_dep
            (fun p : Nat × Nat =>
              128 ≤ p.1 ∧ ∀ x ∈ (b1 :: b2 :: b3 :: r3).take (p.2 - 1), 128 ≤ x)
            _ _ _ (fun h4 => ?_) (fun _ => bad _)
          obtain ⟨h41, h42, h43⟩ := h4
          split_ifs at h41 h42 <;>
            (refine ⟨by simp only; omega, ?_⟩
             intro x hx
             simp at hx
             omega)

theorem filter_decodeRunesAux (skip : Nat) (text : List Nat)
    (h : ∀ x ∈ text.take skip, 128 ≤ x) :
    (decodeRunesAux skip text).filter isFontRune = text.filter isFontRune := by
  induction text generalizing skip with
  | nil => cases skip <;> simp [decodeRunesAux]
  | cons b rest ih =>
    cases skip with
    | succ k =>
      have hb : 128 ≤ b := h b (by simp)
      have hnb : ¬ isFontRune b = true := fun hf => by
        have := isFontRune_lt b hf
        omega
      simp only [decodeRunesAux]
      rw [List.filter_cons_of_neg hnb]
      exact ih k (fun x hx => h x (by simp [hx]))
    | zero =>
      simp only [decodeRunesAux]
      rcases decodeRune_cases b rest with ⟨h1, h2⟩ | ⟨h1, h2, h3⟩
      · rw [h2]
        simp only [List.filter_cons]
        rw [ih 0 (by simp)]
      · have hn1 : ¬ isFontRune (decodeRune b rest).1 = true := fun hf => by
          have := isFontRune_lt _ hf
          omega
        have hn2 : ¬ isFontRune b = true := fun hf => by
          have := isFontRune_lt _ hf
          omega
        rw [List.filter_cons_of_neg hn1, List.filter_cons_of_neg hn2]
        exact ih _ h3

/-- C9. Font-family sanitization: `sanitizeFontFamily f` is the sequence of the characters
of `f`, in order, that are ASCII letters, ASCII digits, space, hyphen, underscore or comma
(the same as keeping those bytes of `f`), and `"monospace"` when there is none; the result
is never empty and holds only allow-listed characters, so no quote, angle bracket or
ampersand. -/
theorem sanitizeFontFamily_allow_list (f : List Nat) :
    sanitizeFontFamily f = sanitizeSpec f ∧
    sanitizeFontFamily f =
      (if f.filter isFontRune = [] then monospace else f.filter isFontRune) ∧
    sanitizeFontFamily f ≠ [] ∧
    ∀ b ∈ sanitizeFontFamily f,
      ((65 ≤ b ∧ b ≤ 90) ∨ (97 ≤ b ∧ b ≤ 122) ∨ (48 ≤ b ∧ b ≤ 57) ∨
        b = 32 ∨ b = 45 ∨ b = 95 ∨ b = 44) ∧
      b ≠ 34 ∧ b ≠ 39 ∧ b ≠ 60 ∧ b ≠ 62 ∧ b ≠ 38 := by
  have hfun : (fun r => decide ((65 ≤ r ∧ r ≤ 90) ∨ (97 ≤ r ∧ r ≤ 122) ∨ (48 ≤ r ∧ r ≤ 57) ∨
        r = 32 ∨ r = 45 ∨ r = 95 ∨ r = 44)) = isFontRune := by
    funext r
    rw [Bool.eq_iff_iff, decide_eq_true_iff]
    exact (isFontRune_iff r).symm
  have hloop := sanitize_loop [] (decodeRunes f)
  rw [List.nil_append] at hloop
  have hbytes : (decodeRunes f).filter isFontRune = f.filter isFontRune :=
    filter_decodeRunesAux 0 f (by simp)
  have e1 : sanitizeFontFamily f =
      (if f.filter isFontRune = [] then monospace else f.filter isFontRune) := by
    unfold sanitizeFontFamily
    rw [hloop, hbytes]
    simp only [List.length_eq_zero]
  have hmem : ∀ b ∈ sanitizeFontFamily f, isFontRune b = true := by
    intro b hb
    rw [e1] at hb
    split_ifs at hb
    · revert b
      decide
    · exact (List.mem_filter.mp hb).2
  refine ⟨?_, e1, ?_, ?_⟩
  · unfold sanitizeSpec
    rw [hfun, hbytes, e1]
  · rw [e1]
    split_ifs with h
    · decide
    · exact h
  · intro b hb
    have := (isFontRune_iff b).mp (hmem b hb)
    refine ⟨this, ?_⟩
    omega

/-! ## Plain text typed into a fresh grid -/

theorem typed_nil (cols rows : Int) (hr : 1 ≤ rows) : typed cols rows [] = newScreen cols rows := by
  have h : rows.toNat = (rows.toNat - 1) + 1 := by omega
  unfold typed newScreen textCells
  simp only [List.map_nil, List.nil_append, List.length_nil, Nat.sub_zero, Nat.cast_zero]
  conv_rhs => rw [h, List.replicate_succ]
  rfl

theorem typed_gridOK (cols rows : Int) (p : List Nat) (hc : 1 ≤ cols) (hr : 1 ≤ rows)
    (hp : (p.length : Int) ≤ cols) : GridOK (typed cols rows p) := by
  refine ⟨hc, hr, ?_, ?_⟩
  · show (((textCells p ++ List.replicate (cols.toNat - p.length) blankCell) ::
      List.replicate (rows.toNat - 1) (blankRow cols)).length : Int) = rows
    simp only [List.length_cons, List.length_replicate]
    omega
  · intro row hrow
    show (row.length : Int) = cols
    have hrow' : row ∈ (textCells p ++ List.replicate (cols.toNat - p.length) blankCell) ::
      List.replicate (rows.toNat - 1) (blankRow cols) := hrow
    simp only [List.mem_cons] at hrow'
    rcases hrow' with h | h
    · subst h
      simp only [textCells, List.length_append, List.length_map, List.length_replicate]
      omega
    · rw [List.eq_of_mem_replicate h]
      exact blankRow_length cols (by omega)

theorem screen_eq_of_cells (cols rows : Int) {cs cs1 : List (List cell)} {x x1 : Int}
    (h1 : cs = cs1) (h2 : x = x1) :
    ({ newScreen cols rows with cells := cs, curX := x } : screen) =
      { newScreen cols rows with cells := cs1, curX := x1 } := by
  subst h1 h2; rfl

theorem write_typed (cols rows : Int) (p : List Nat) (b : Nat) (hr : 1 ≤ rows)
    (hcm : cols ≤ maxInt) (hp : (p.length : Int) < cols) :
    write (typed cols rows p) b = typed cols rows (p ++ [b]) := by
  have hg := typed_gridOK cols rows p (by omega) hr (by omega)
  obtain ⟨row, hrow, -, hw⟩ := write_in_bounds (typed cols rows p) b hg hcm
    (by show (0 : Int) ≤ (p.length : Int); omega) hp (le_refl 0) (by show (0 : Int) < rows; omega)
  have hrow' : row = textCells p ++ List.replicate (cols.toNat - p.length) blankCell := by
    have h0 : (typed cols rows p).cells[(typed cols rows p).curY.toNat]? =
        some (textCells p ++ List.replicate (cols.toNat - p.length) blankCell) := by
      simp [typed, newScreen]
    rw [h0] at hrow
    exact (Option.some.inj hrow).symm
  rw [hw, hrow']
  have hlen : (textCells p).length = p.length := by simp [textCells]
  have hk : cols.toNat - p.length = (cols.toNat - (p.length + 1)) + 1 := by omega
  have hset : (textCells p ++ List.replicate (cols.toNat - p.length) blankCell).set p.length
      (penCell (typed cols rows p) b) =
      textCells (p ++ [b]) ++ List.replicate (cols.toNat - (p.length + 1)) blankCell := by
    rw [hk, List.replicate_succ]
    have : p.length = (textCells p).length := hlen.symm
    conv_lhs => rw [this]
    rw [List.set_append_right _ _ (le_refl _)]
    simp [textCells, penCell, typed, newScreen]
  refine screen_eq_of_cells cols rows ?_ ?_
  · show ((textCells p ++ List.replicate (cols.toNat - p.length) blankCell) ::
        List.replicate (rows.toNat - 1) (blankRow cols)).set 0
          ((textCells p ++ List.replicate (cols.toNat - p.length) blankCell).set
            ((p.length : Int)).toNat (penCell (typed cols rows p) b)) = _
    rw [List.set_cons_zero, Int.toNat_ofNat, hset]
    simp
  · show (p.length : Int) + 1 = ((p ++ [b]).length : Int)
    simp

theorem feedText_typed (cols rows : Int) (q p : List Nat) (hr : 1 ≤ rows)
    (hcm : cols ≤ maxInt) (hq : ∀ b ∈ q, 32 ≤ b)
    (hlen : ((p.length + q.length : Nat) : Int) ≤ cols) :
    feedText (typed cols rows p) q = typed cols rows (p ++ q) := by
  induction q generalizing p with
  | nil => simp [feedText]
  | cons b rest ih =>
    have hb : 32 ≤ b := hq b (List.mem_cons_self b rest)
    have h1 : feedRune (typed cols rows p) b = write (typed cols rows p) b :=
      feedText_single_printable _ b hb
    simp only [List.length_cons] at hlen
    show feedText (feedRune (typed cols rows p) b) rest = _
    rw [h1, write_typed cols rows p b hr hcm (by omega)]
    rw [ih (p ++ [b]) (fun x hx => hq x (List.mem_cons_of_mem b hx))
      (by simp only [List.length_append, List.length_singleton]; omega)]
    simp

theorem decodeRunes_ascii (text : List Nat) (h : ∀ b ∈ text, b < 128) :
    decodeRunes text = text := by
  unfold decodeRunes
  induction text with
  | nil => rfl
  | cons b rest ih =>
    have hb : b < 128 := h b (List.mem_cons_self b rest)
    simp only [decodeRunesAux, decodeRune, if_pos hb, Nat.sub_self]
    rw [ih (fun x hx => h x (List.mem_cons_of_mem b hx))]

/-- Feeding printable ASCII text that fits the first row of a fresh grid. -/
theorem feed_typed (cols rows : Int) (text : List Nat) (hr : 1 ≤ rows) (hcm : cols ≤ maxInt)
    (ht : ∀ b ∈ text, 32 ≤ b ∧ b ≤ 126) (hlen : (text.length : Int) ≤ cols) :
    feed (newScreen cols rows) text = Outcome.done (typed cols rows text) := by
  rw [feed_no_escape _ _ (fun b hb => by have := ht b hb; omega),
    decodeRunes_ascii text (fun b hb => by have := ht b hb; omega),
    ← typed_nil cols rows hr,
    feedText_typed cols rows text [] hr hcm (fun b hb => (ht b hb).1) (by simpa using hlen)]
  simp

/-! ## Rendering -/

theorem renderRow_skip_all (row : Nat) (cells : List cell) (skip col : Nat)
    (h : cells.length ≤ skip) : renderRow row skip col cells = [] := by
  induction cells generalizing skip col with
  | nil => cases skip <;> rfl
  | cons c rest ih =>
    cases skip with
    | zero => simp at h
    | succ k =>
      simp only [renderRow]
      exact ih k (col + 1) (by simpa using h)

theorem renderRow_blank (row n col : Nat) :
    renderRow row 0 col (List.replicate n blankCell) = [] := by
  induction n generalizing col with
  | zero => rfl
  | succ n ih =>
    rw [List.replicate_succ]
    simp only [renderRow]
    rw [if_pos (by decide)]
    exact ih (col + 1)

theorem renderRows_blank (row m : Nat) (cols : Int) :
    renderRows row (List.replicate m (blankRow cols)) = [] := by
  induction m generalizing row with
  | zero => rfl
  | succ m ih =>
    rw [List.replicate_succ]
    simp only [renderRows]
    rw [ih (row + 1)]
    simp only [blankRow, renderRow_blank, List.append_nil]

theorem trimRight_spaces (t : List Nat) (k : Nat) :
    trimRight (t ++ List.replicate k 32) = trimRight t := by
  induction k with
  | zero => simp
  | succ k ih =>
    rw [List.replicate_succ', ← List.append_assoc]
    unfold trimRight at *
    rw [List.rdropWhile_concat_pos _ _ _ (by decide)]
    exact ih

theorem trimRight_of_last (t : List Nat) (h : t.getLast? ≠ some 32) : trimRight t = t := by
  unfold trimRight
  rw [List.rdropWhile_eq_self_iff]
  intro hl hp
  apply h
  rw [List.getLast?_eq_getLast _ hl]
  simpa using hp

theorem escapeString_plain (t : List Nat)
    (h : ∀ b ∈ t, b ≠ 38 ∧ b ≠ 39 ∧ b ≠ 60 ∧ b ≠ 62 ∧ b ≠ 34) : escapeString t = t := by
  unfold escapeString
  induction t with
  | nil => rfl
  | cons b rest ih =>
    obtain ⟨h1, h2, h3, h4, h5⟩ := h b (List.mem_cons_self b rest)
    rw [List.flatMap_cons, ih (fun x hx => h x (List.mem_cons_of_mem b hx))]
    simp only [escapeByte, if_neg h1, if_neg h2, if_neg h3, if_neg h4, if_neg h5]
    rfl

theorem flatMap_textCells (t : List Nat) (h : ∀ b ∈ t, b < 128) :
    (textCells t).flatMap (fun n => encodeRune n.char) = t := by
  induction t with
  | nil => rfl
  | cons b rest ih =>
    simp only [textCells, List.map_cons, List.flatMap_cons]
    rw [encodeRune_ascii b (h b (List.mem_cons_self b rest))]
    have := ih (fun x hx => h x (List.mem_cons_of_mem b hx))
    unfold textCells at this
    rw [this]
    rfl

theorem flatMap_blank (k : Nat) :
    (List.replicate k blankCell).flatMap (fun n => encodeRune n.char) = List.replicate k 32 := by
  induction k with
  | zero => rfl
  | succ k ih =>
    rw [List.replicate_succ, List.flatMap_cons, ih, List.replicate_succ]
    rfl

theorem takeWhile_default_style (c : cell) (hfg : c.fg = defaultFg) (hbg : c.bg = "")
    (hbold : c.bold = false) (t : List Nat) (k : Nat) :
    (textCells t ++ List.replicate k blankCell).takeWhile (sameStyle c) =
      textCells t ++ List.replicate k blankCell := by
  rw [List.takeWhile_eq_self_iff]
  intro x hx
  have hx' : x.fg = defaultFg ∧ x.bg = "" ∧ x.bold = false := by
    rcases List.mem_append.mp hx with h | h
    · simp only [textCells, List.mem_map] at h
      obtain ⟨b, -, rfl⟩ := h
      exact ⟨rfl, rfl, rfl⟩
    · rw [List.eq_of_mem_replicate h]
      exact ⟨rfl, rfl, rfl⟩
  simp [sameStyle, hx'.1, hx'.2.1, hx'.2.2, hfg, hbg, hbold]

/-- One row holding printable ASCII text from column 0, blank after it, renders as one
text node. -/
theorem renderRow_text (row : Nat) (text : List Nat) (k : Nat)
    (hprint : ∀ b ∈ text, 32 ≤ b ∧ b ≤ 126 ∧ b ≠ 60 ∧ b ≠ 62 ∧ b ≠ 38 ∧ b ≠ 39 ∧ b ≠ 34)
    (hne : text ≠ [])
    (hfirst : text.head? ≠ some 32) (hlast : text.getLast? ≠ some 32) :
    renderRow row 0 0 (textCells text ++ List.replicate k blankCell) =
      [node.text row 0 defaultFg "normal" text] := by
  rcases text with _ | ⟨b, rest⟩
  · exact absurd rfl hne
  · have hb : b ≠ 32 := fun h => hfirst (by simp [h])
    have hascii : ∀ x ∈ rest, x < 128 := fun x hx => by
      have := hprint x (List.mem_cons_of_mem b hx); omega
    have hb128 : b < 128 := by
      have := hprint b (List.mem_cons_self b rest); omega
    have hcons : textCells (b :: rest) ++ List.replicate k blankCell =
        { char := b, fg := defaultFg, bg := "", bold := false, dim := false, italic := false } ::
          (textCells rest ++ List.replicate k blankCell) := rfl
    rw [hcons]
    simp only [renderRow]
    rw [if_neg (by simp [hb])]
    rw [takeWhile_default_style _ rfl rfl rfl rest k]
    rw [renderRow_skip_all _ _ _ _ (le_refl _), List.append_nil]
    have htext : encodeRune b ++ (textCells rest ++ List.replicate k blankCell).flatMap
        (fun n => encodeRune n.char) = (b :: rest) ++ List.replicate k 32 := by
      rw [List.flatMap_append, flatMap_textCells rest hascii, flatMap_blank,
        encodeRune_ascii b hb128]
      rfl
    have htrim : trimRight ((b :: rest) ++ List.replicate k 32) = b :: rest := by
      rw [trimRight_spaces, trimRight_of_last _ hlast]
    have hesc : escapeString (b :: rest) = b :: rest :=
      escapeString_plain _ (fun x hx => by have := hprint x hx; omega)
    unfold runNodes
    simp only [htext, htrim, hesc]
    simp

/-- C4. End-to-end text preservation: a string of printable ASCII characters without
`<`, `>`, `&`, `'`, `"`, of length between 1 and `cols`, that neither starts nor ends with a
space, fed to a fresh grid with at least one row and rendered by `toSVG`, yields exactly
one text node, at the start of row 0, whose content is the string itself, and no
rectangle besides the base background. -/
theorem text_preserved_end_to_end (cols rows : Int) (text : List Nat) (fontSize : Int)
    (fontFamily : List Nat) (hr : 1 ≤ rows) (hcm : cols ≤ maxInt)
    (hprint : ∀ b ∈ text, 32 ≤ b ∧ b ≤ 126 ∧ b ≠ 60 ∧ b ≠ 62 ∧ b ≠ 38 ∧ b ≠ 39 ∧ b ≠ 34)
    (hlen1 : 1 ≤ text.length) (hlen2 : (text.length : Int) ≤ cols)
    (hfirst : text.head? ≠ some 32) (hlast : text.getLast? ≠ some 32) :
    ∃ s1 : screen, feed (newScreen cols rows) text = Outcome.done s1 ∧
      (toSVG s1 fontSize fontFamily).nodes = [node.text 0 0 defaultFg "normal" text] := by
  refine ⟨typed cols rows text, ?_, ?_⟩
  · exact feed_typed cols rows text hr hcm (fun b hb => ⟨(hprint b hb).1, (hprint b hb).2.1⟩) hlen2
  · have hne : text ≠ [] := by
      intro h; rw [h] at hlen1; simp at hlen1
    show renderRows 0 ((textCells text ++ List.replicate (cols.toNat - text.length) blankCell) ::
      List.replicate (rows.toNat - 1) (blankRow cols)) = _
    simp only [renderRows]
    rw [renderRows_blank, renderRow_text 0 text _ hprint hne hfirst hlast]
    rfl

/-- Witness of `text_preserved_end_to_end`: the string `hi you` on an 80 x 24 grid. -/
theorem text_preserved_end_to_end_witness :
    ∃ s1 : screen, feed (newScreen 80 24) [104, 105, 32, 121, 111, 117] = Outcome.done s1 ∧
      (toSVG s1 14 monospace).nodes =
        [node.text 0 0 defaultFg "normal" [104, 105, 32, 121, 111, 117]] :=
  text_preserved_end_to_end 80 24 [104, 105, 32, 121, 111, 117] 14 monospace (by decide)
    (by decide) (by decide) (by decide) (by decide) (by decide) (by decide)

/-- C10 (claim fails on the code). The rectangle of a run is as wide as the text of the
run is long in bytes (`len(textRaw)`), not as the run has cells: a single cell holding
`é` (U+00E9, two bytes in UTF-8) on a red background gives a rectangle two character
widths wide. With ASCII `abc` the rectangle is three wide. -/
theorem background_rect_counts_bytes :
    feed (newScreen 4 1) [27, 91, 52, 49, 109, 195, 169] =
      Outcome.done
        { newScreen 4 1 with
          cells := [[{ char := 233, fg := defaultFg, bg := "#e06c75", bold := false,
                       dim := false, italic := false }, blankCell, blankCell, blankCell]]
          curX := 1
          curBg := "#e06c75" } ∧
    (toSVG (feed (newScreen 4 1) [27, 91, 52, 49, 109, 195, 169]).screen 14 monospace).nodes =
      [node.rect 0 0 2 "#e06c75", node.text 0 0 defaultFg "normal" [195, 169]] ∧
    (toSVG (feed (newScreen 4 1) [27, 91, 52, 49, 109, 97, 98, 99]).screen 14 monospace).nodes =
      [node.rect 0 0 3 "#e06c75", node.text 0 0 defaultFg "normal" [97, 98, 99]] := by
  set_option maxRecDepth 100000 in decide

/-! ## Erase-line with the cursor below the grid, on any grid -/

theorem dispatch_position (s : screen) (paramsStr : List Nat) :
    dispatch s paramsStr 72 =
      Outcome.done { s with
        curY := wrap64 (firstParam (parseParams paramsStr) 1 - 1)
        curX := wrap64 (firstParam ((parseParams paramsStr).drop 1) 1 - 1) } := by
  unfold dispatch
  rw [if_neg (by decide), if_pos (by decide)]

theorem dispatch_erase_to_end (s : screen) :
    dispatch s [] 75 = eraseLoop (s.cols - s.curX).toNat s s.curX := by
  have p : parseParams [] = [] := by decide
  unfold dispatch
  rw [if_neg (by decide), if_neg (by decide), if_neg (by decide), if_pos rfl, p]
  simp only [firstParam, if_true]

/-- The sequence `ESC[99;1H ESC[K` makes `feed` panic on every fresh grid with at most 98
rows, the default 120 x 40 grid included. -/
theorem erase_line_panics_below_grid (cols rows : Int) (hc : 1 ≤ cols) (hr : 1 ≤ rows)
    (h98 : rows ≤ 98) :
    feed (newScreen cols rows) [27, 91, 57, 57, 59, 49, 72, 27, 91, 75] =
      Outcome.panic { newScreen cols rows with curY := 98 } := by
  have f : findAll [27, 91, 57, 57, 59, 49, 72, 27, 91, 75] =
      ([([], [57, 57, 59, 49], 72), ([], [], 75)], []) := by decide
  have p : parseParams [57, 57, 59, 49] = [99, 1] := by decide
  have d : decodeRunes [] = [] := by decide
  have w1 : wrap64 (99 - 1) = 98 := by decide
  have w2 : wrap64 (1 - 1) = 0 := by decide
  have hn : (cols - 0).toNat = (cols.toNat - 1) + 1 := by omega
  have hset : setCell (newScreen cols rows).cells 98 0 blankCell = none := by
    unfold setCell
    rw [if_pos (by decide)]
    have : (newScreen cols rows).cells[(98 : Int).toNat]? = none := by
      apply List.getElem?_eq_none
      simp only [newScreen, List.length_replicate]
      omega
    rw [this]
  have hpos : dispatch (newScreen cols rows) [57, 57, 59, 49] 72 =
      Outcome.done { newScreen cols rows with curY := 98, curX := 0 } := by
    rw [dispatch_position, p]
    show Outcome.done { newScreen cols rows with curY := wrap64 (99 - 1), curX := wrap64 (1 - 1) } = _
    rw [w1, w2]
  have herase : dispatch { newScreen cols rows with curY := 98, curX := 0 } [] 75 =
      Outcome.panic { newScreen cols rows with curY := 98 } := by
    rw [dispatch_erase_to_end]
    show eraseLoop (cols - 0).toNat { newScreen cols rows with curY := 98, curX := 0 } 0 = _
    rw [hn]
    unfold eraseLoop
    rw [show ({ newScreen cols rows with curY := 98, curX := 0 } : screen).cells =
      (newScreen cols rows).cells from rfl,
      show ({ newScreen cols rows with curY := 98, curX := 0 } : screen).curY = 98 from rfl, hset]
    rfl
  rw [feed_of_findAll _ f]
  simp only [feedMatches, d, feedText, List.foldl, hpos, herase]


/-! ## A single escape sequence -/

theorem findAllAux_skip_all (skip : Nat) (acc text : List Nat) (h : text.length ≤ skip) :
    findAllAux skip acc text = ([], acc) := by
  induction text generalizing skip with
  | nil => cases skip <;> rfl
  | cons b rest ih =>
    cases skip with
    | zero => simp at h
    | succ k =>
      simp only [findAllAux]
      exact ih k (by simpa using h)

theorem isParamByte_not_letter (c : Nat) (hc : isLetterByte c = true) : ¬ isParamByte c = true := by
  simp only [isLetterByte, isParamByte, Bool.or_eq_true, Bool.and_eq_true, decide_eq_true_eq,
    beq_iff_eq] at *
  omega

theorem matchEscape_complete (ps : List Nat) (c : Nat) (tail : List Nat)
    (hps : ∀ b ∈ ps, isParamByte b = true) (hc : isLetterByte c = true) :
    matchEscape (27 :: 91 :: (ps ++ c :: tail)) = some (ps, c) := by
  have hd : (ps ++ c :: tail).dropWhile isParamByte = c :: tail := by
    rw [List.dropWhile_append_of_pos hps,
      List.dropWhile_cons_of_neg (isParamByte_not_letter c hc)]
  have ht : (ps ++ c :: tail).takeWhile isParamByte = ps := by
    rw [List.takeWhile_append_of_pos hps,
      List.takeWhile_cons_of_neg (isParamByte_not_letter c hc), List.append_nil]
  simp only [matchEscape, hd, ht, hc, if_true]

/-- One complete sequence `ESC [ params letter` and nothing else: one match, no text. -/
theorem findAll_single (ps : List Nat) (c : Nat)
    (hps : ∀ b ∈ ps, isParamByte b = true) (hc : isLetterByte c = true) :
    findAll (27 :: 91 :: (ps ++ [c])) = ([([], ps, c)], []) := by
  unfold findAll
  simp only [findAllAux, matchEscape_complete ps c [] hps hc]
  rw [findAllAux_skip_all (ps.length + 1) [] (ps ++ [c]) (by simp)]

theorem feed_single (s : screen) (ps : List Nat) (c : Nat)
    (hps : ∀ b ∈ ps, isParamByte b = true) (hc : isLetterByte c = true) :
    feed s (27 :: 91 :: (ps ++ [c])) = dispatch s ps c := by
  have d : decodeRunes [] = [] := rfl
  rw [feed_of_findAll s (findAll_single ps c hps hc)]
  simp only [feedMatches, d, feedText, List.foldl]
  cases dispatch s ps c <;> rfl

/-! ## Erase display -/

/-- The screen after `ESC[2J`: every cell blank, cursor at the origin. -/
theorem dispatch_clear (s : screen) (ps : List Nat) :
    dispatch s ps 74 =
      if firstParam (parseParams ps) 0 = 2 ∨ firstParam (parseParams ps) 0 = 3 then
        Outcome.done { s with
          cells := s.cells.map (fun row => row.map (fun _ => blankCell))
          curX := 0
          curY := 0 }
      else Outcome.done s := by
  unfold dispatch
  rw [if_neg (by decide), if_neg (by decide), if_pos rfl]

/-- C15. Erase display: for every screen, `ESC[2J` and `ESC[3J` leave every cell equal to
the default blank cell (row count and row lengths kept), the cursor at (0,0) and the
graphics state and dimensions unchanged; `ESC[J`, `ESC[0J` and `ESC[1J` change nothing. -/
theorem erase_display (s : screen) :
    feed s [27, 91, 50, 74] =
      Outcome.done { s with
        cells := s.cells.map (fun row => row.map (fun _ => blankCell))
        curX := 0
        curY := 0 } ∧
    feed s [27, 91, 51, 74] = feed s [27, 91, 50, 74] ∧
    (∀ row ∈ s.cells.map (fun row => row.map (fun _ => blankCell)), ∀ c ∈ row, c = blankCell) ∧
    (s.cells.map (fun row => row.map (fun _ => blankCell))).length = s.cells.length ∧
    (∀ i : Nat, ((s.cells.map (fun row => row.map (fun _ => blankCell)))[i]?).map List.length =
      (s.cells[i]?).map List.length) ∧
    blankCell =
      { char := 32, fg := "#abb2bf", bg := "", bold := false, dim := false, italic := false } ∧
    feed s [27, 91, 74] = Outcome.done s ∧
    feed s [27, 91, 48, 74] = Outcome.done s ∧
    feed s [27, 91, 49, 74] = Outcome.done s := by
  have e2 := feed_single s [50] 74 (by decide) (by decide)
  have e3 := feed_single s [51] 74 (by decide) (by decide)
  have e0 := feed_single s [] 74 (by decide) (by decide)
  have e00 := feed_single s [48] 74 (by decide) (by decide)
  have e1 := feed_single s [49] 74 (by decide) (by decide)
  have p2 : firstParam (parseParams [50]) 0 = 2 := by decide
  have p3 : firstParam (parseParams [51]) 0 = 3 := by decide
  have p0 : firstParam (parseParams []) 0 = 0 := by decide
  have p00 : firstParam (parseParams [48]) 0 = 0 := by decide
  have p1 : firstParam (parseParams [49]) 0 = 1 := by decide
  simp only [List.cons_append, List.nil_append] at e2 e3 e0 e00 e1
  rw [e2, e3, e0, e00, e1]
  simp only [dispatch_clear, p2, p3, p0, p00, p1]
  refine ⟨by simp, by simp, ?_, by simp, ?_, rfl, by simp, by simp, by simp⟩
  · intro row hrow c hc
    simp only [List.mem_map] at hrow
    obtain ⟨r0, -, rfl⟩ := hrow
    simp only [List.mem_map] at hc
    obtain ⟨c0, -, rfl⟩ := hc
    rfl
  · intro i
    simp only [List.getElem?_map, Option.map_map]
    congr 1
    funext row
    simp


/-! ## Cursor position -/

theorem dispatch_position_f (s : screen) (paramsStr : List Nat) :
    dispatch s paramsStr 102 =
      Outcome.done { s with
        curY := wrap64 (firstParam (parseParams paramsStr) 1 - 1)
        curX := wrap64 (firstParam ((parseParams paramsStr).drop 1) 1 - 1) } := by
  unfold dispatch
  rw [if_neg (by decide), if_pos (by decide)]

/-- The cursor stored by `H`/`f` for parsed parameters `params`. -/
theorem position_of_params (s : screen) (ps : List Nat) (row col : Int)
    (hrow : wrap64 (firstParam (parseParams ps) 1 - 1) = row)
    (hcol : wrap64 (firstParam ((parseParams ps).drop 1) 1 - 1) = col) :
    dispatch s ps 72 = Outcome.done { s with curY := row, curX := col } ∧
    dispatch s ps 102 = Outcome.done { s with curY := row, curX := col } := by
  rw [dispatch_position, dispatch_position_f, hrow, hcol]
  exact ⟨rfl, rfl⟩

/-- C19 (claim fails on the code). Cursor position `H`/`f` stores (col-1, row-1) and a
parameter missing at the end defaults to 1: `ESC[H` gives (0,0), `ESC[5H` column 0 row 4,
`ESC[3;7f` column 6 row 2. A parameter left empty before a `;` is not defaulted: it parses
as 0, so `ESC[;5H` gives column 4 and row -1 (the claim says row 0), and `ESC[5;H` gives
column -1. -/
theorem cursor_position_empty_parameter (s : screen) :
    feed s [27, 91, 72] = Outcome.done { s with curY := 0, curX := 0 } ∧
    feed s [27, 91, 53, 72] = Outcome.done { s with curY := 4, curX := 0 } ∧
    feed s [27, 91, 51, 59, 55, 102] = Outcome.done { s with curY := 2, curX := 6 } ∧
    parseParams [59, 53] = [0, 5] ∧
    feed s [27, 91, 59, 53, 72] = Outcome.done { s with curY := -1, curX := 4 } ∧
    feed s [27, 91, 53, 59, 72] = Outcome.done { s with curY := 4, curX := -1 } := by
  have e1 := feed_single s [] 72 (by decide) (by decide)
  have e2 := feed_single s [53] 72 (by decide) (by decide)
  have e3 := feed_single s [51, 59, 55] 102 (by decide) (by decide)
  have e4 := feed_single s [59, 53] 72 (by decide) (by decide)
  have e5 := feed_single s [53, 59] 72 (by decide) (by decide)
  simp only [List.cons_append, List.nil_append] at e1 e2 e3 e4 e5
  rw [e1, e2, e3, e4, e5]
  exact ⟨(position_of_params s [] 0 0 (by decide) (by decide)).1,
    (position_of_params s [53] 4 0 (by decide) (by decide)).1,
    (position_of_params s [51, 59, 55] 2 6 (by decide) (by decide)).2,
    by decide,
    (position_of_params s [59, 53] (-1) 4 (by decide) (by decide)).1,
    (position_of_params s [53, 59] 4 (-1) (by decide) (by decide)).1⟩

/-! ## Text that does not complete the escape pattern -/

theorem matchEscape_incomplete (t : List Nat)
    (hbad : ∀ c rest, t.dropWhile isParamByte = c :: rest → isLetterByte c = false) :
    matchEscape (27 :: 91 :: t) = none := by
  simp only [matchEscape]
  cases h : t.dropWhile isParamByte with
  | nil => rfl
  | cons c rest => simp only [hbad c rest h, Bool.false_eq_true, if_false]

theorem findAll_incomplete (t : List Nat) (hno : ∀ b ∈ t, b ≠ 27)
    (hbad : ∀ c rest, t.dropWhile isParamByte = c :: rest → isLetterByte c = false) :
    findAll (27 :: 91 :: t) = ([], 27 :: 91 :: t) := by
  unfold findAll
  simp only [findAllAux, matchEscape_incomplete t hbad,
    matchEscape_none_of_ne t (by decide : (91 : Nat) ≠ 27)]
  rw [findAllAux_no_escape _ t hno]
  rfl

theorem decodeRunes_cons_ascii (b : Nat) (t : List Nat) (hb : b < 128) :
    decodeRunes (b :: t) = b :: decodeRunes t := by
  simp only [decodeRunes, decodeRunesAux, decodeRune, if_pos hb, Nat.sub_self]

/-- C11 (amended). An `ESC [` prefix that does not complete the pattern (the bytes after
it, free of further ESC bytes, do not continue as parameter bytes followed by a letter) is
not a match and is processed as plain text: the ESC byte is dropped, `[` is written as a
character and the bytes after it are fed as text. -/
theorem incomplete_escape_is_text (s : screen) (t : List Nat) (hno : ∀ b ∈ t, b ≠ 27)
    (hbad : ∀ c rest, t.dropWhile isParamByte = c :: rest → isLetterByte c = false) :
    feed s (27 :: 91 :: t) = Outcome.done (feedText (write s 91) (decodeRunes t)) := by
  rw [feed_of_findAll s (findAll_incomplete t hno hbad)]
  simp only [feedMatches]
  rw [decodeRunes_cons_ascii 27 _ (by decide), decodeRunes_cons_ascii 91 _ (by decide)]
  have h27 : feedRune s 27 = s := by
    simp only [feedRune]
    rw [if_neg (by decide), if_neg (by decide), if_neg (by decide), if_neg (by decide)]
  have h91 : feedRune s 91 = write s 91 := feedText_single_printable s 91 (by decide)
  simp only [feedText, List.foldl, h27, h91]

/-- Witness of `incomplete_escape_is_text`: the private-mode sequence `ESC[?25l` on a
fresh 8 x 2 grid. -/
theorem incomplete_escape_is_text_witness :
    feed (newScreen 8 2) (27 :: 91 :: [63, 50, 53, 108]) =
      Outcome.done (feedText (write (newScreen 8 2) 91) (decodeRunes [63, 50, 53, 108])) :=
  incomplete_escape_is_text (newScreen 8 2) [63, 50, 53, 108] (by decide)
    (by intro c rest h; simp [List.dropWhile, isParamByte] at h; rw [← h.1]; decide)

/-- C11 (counterexample). On a fresh 8 x 2 grid `ESC[?25l` writes the five characters
`[?25l` on row 0 and moves the cursor to column 5, and the truncated `ESC[12` writes `[12`
and moves the cursor to column 3. -/
theorem malformed_escape_is_written :
    feed (newScreen 8 2) [27, 91, 63, 50, 53, 108] =
      Outcome.done (typed 8 2 [91, 63, 50, 53, 108]) ∧
    feed (newScreen 8 2) [27, 91, 49, 50] = Outcome.done (typed 8 2 [91, 49, 50]) ∧
    cellAt (typed 8 2 [91, 63, 50, 53, 108]).cells 0 0 ≠ cellAt (newScreen 8 2).cells 0 0 ∧
    (typed 8 2 [91, 63, 50, 53, 108]).curX = 5 ∧
    cellAt (typed 8 2 [91, 49, 50]).cells 0 0 ≠ cellAt (newScreen 8 2).cells 0 0 ∧
    (typed 8 2 [91, 49, 50]).curX = 3 := by
  set_option maxRecDepth 100000 in decide


/-! ## Select graphic rendition: single codes -/

theorem setSGR_single (s : screen) (p : Int) : setSGR s [p] = (sgrStep s p []).1 := by
  have hne : ([p] = ([] : List Int)) = False := by simp
  simp only [setSGR, hne, if_false, setSGRAux]

theorem sgrStep_background (s : screen) (p : Int) (rest : List Int) (h1 : 40 ≤ p) (h2 : p ≤ 47) :
    sgrStep s p rest = ({ s with curBg := ansiColors (p - 40) }, 0) := by
  unfold sgrStep
  rw [if_neg (by omega), if_neg (by omega), if_neg (by omega), if_neg (by omega),
    if_neg (by omega), if_neg (by omega), if_neg (by omega), if_neg (by omega),
    if_neg (by omega), if_pos ⟨h1, h2⟩]

theorem sgrStep_bright_foreground (s : screen) (p : Int) (rest : List Int) (h1 : 90 ≤ p)
    (h2 : p ≤ 97) : sgrStep s p rest = ({ s with curFg := ansiColors (p - 90 + 8) }, 0) := by
  unfold sgrStep
  rw [if_neg (by omega), if_neg (by omega), if_neg (by omega), if_neg (by omega),
    if_neg (by omega), if_neg (by omega), if_neg (by omega), if_neg (by omega),
    if_neg (by omega), if_neg (by omega), if_neg (by omega), if_neg (by omega),
    if_pos ⟨h1, h2⟩]

theorem sgrStep_bright_background (s : screen) (p : Int) (rest : List Int) (h1 : 100 ≤ p)
    (h2 : p ≤ 107) : sgrStep s p rest = ({ s with curBg := ansiColors (p - 100 + 8) }, 0) := by
  unfold sgrStep
  rw [if_neg (by omega), if_neg (by omega), if_neg (by omega), if_neg (by omega),
    if_neg (by omega), if_neg (by omega), if_neg (by omega), if_neg (by omega),
    if_neg (by omega), if_neg (by omega), if_neg (by omega), if_neg (by omega),
    if_neg (by omega), if_pos ⟨h1, h2⟩]

/-- A code outside the table, alone in the list, changes nothing (38 and 48 included: with
no parameter after them they set no colour). -/
theorem sgrStep_other (s : screen) (p : Int)
    (h : p ≠ 0 ∧ p ≠ 1 ∧ p ≠ 2 ∧ p ≠ 3 ∧ p ≠ 22 ∧ p ≠ 23 ∧ ¬ (30 ≤ p ∧ p ≤ 37) ∧ p ≠ 39 ∧
      ¬ (40 ≤ p ∧ p ≤ 47) ∧ p ≠ 49 ∧ ¬ (90 ≤ p ∧ p ≤ 97) ∧ ¬ (100 ≤ p ∧ p ≤ 107)) :
    (sgrStep s p []).1 = s := by
  obtain ⟨h0, h1, h2, h3, h22, h23, h30, h39, h40, h49, h90, h100⟩ := h
  unfold sgrStep
  rw [if_neg h0, if_neg h1, if_neg h2, if_neg h3, if_neg h22, if_neg h23,
    if_neg (by simpa using h30)]
  by_cases h38 : p = 38
  · rw [if_pos h38]
  · rw [if_neg h38, if_neg h39, if_neg (by simpa using h40)]
    by_cases h48 : p = 48
    · rw [if_pos h48]
    · rw [if_neg h48, if_neg h49, if_neg (by simpa using h90), if_neg (by simpa using h100)]

/-- C20. Single-code SGR table: `setSGR [p]` changes exactly the fields the table names:
1 bold on, 2 dim on, 3 italic on, 22 bold and dim off, 23 italic off, 30..37 foreground
palette entry p-30, 39 default foreground, 40..47 background palette entry p-40, 49 no
background, 90..97 foreground palette entry 8+(p-90), 100..107 background palette entry
8+(p-100); every code outside the table and other than 0 leaves the whole screen as it
was; cells, dimensions and cursor are never touched. -/
theorem sgr_single_code_table (s : screen) (p : Int) :
    setSGR s [1] = { s with bold := true } ∧
    setSGR s [2] = { s with dim := true } ∧
    setSGR s [3] = { s with italic := true } ∧
    setSGR s [22] = { s with bold := false, dim := false } ∧
    setSGR s [23] = { s with italic := false } ∧
    setSGR s [39] = { s with curFg := defaultFg } ∧
    setSGR s [49] = { s with curBg := "" } ∧
    (30 ≤ p ∧ p ≤ 37 → setSGR s [p] = { s with curFg := ansiColors (p - 30) }) ∧
    (40 ≤ p ∧ p ≤ 47 → setSGR s [p] = { s with curBg := ansiColors (p - 40) }) ∧
    (90 ≤ p ∧ p ≤ 97 → setSGR s [p] = { s with curFg := ansiColors (8 + (p - 90)) }) ∧
    (100 ≤ p ∧ p ≤ 107 → setSGR s [p] = { s with curBg := ansiColors (8 + (p - 100)) }) ∧
    (p ≠ 0 ∧ p ≠ 1 ∧ p ≠ 2 ∧ p ≠ 3 ∧ p ≠ 22 ∧ p ≠ 23 ∧ ¬ (30 ≤ p ∧ p ≤ 37) ∧ p ≠ 39 ∧
      ¬ (40 ≤ p ∧ p ≤ 47) ∧ p ≠ 49 ∧ ¬ (90 ≤ p ∧ p ≤ 97) ∧ ¬ (100 ≤ p ∧ p ≤ 107) →
      setSGR s [p] = s) ∧
    (setSGR s [p]).cells = s.cells ∧ (setSGR s [p]).cols = s.cols ∧
    (setSGR s [p]).rows = s.rows ∧ (setSGR s [p]).curX = s.curX ∧
    (setSGR s [p]).curY = s.curY := by
  refine ⟨?_, ?_, ?_, ?_, ?_, ?_, ?_, ?_, ?_, ?_, ?_, ?_, setSGR_sameGrid s [p]⟩
  · rw [setSGR_single]; unfold sgrStep
    rw [if_neg (by decide), if_pos rfl]
  · rw [setSGR_single]; unfold sgrStep
    rw [if_neg (by decide), if_neg (by decide), if_pos rfl]
  · rw [setSGR_single]; unfold sgrStep
    rw [if_neg (by decide), if_neg (by decide), if_neg (by decide), if_pos rfl]
  · rw [setSGR_single]; unfold sgrStep
    rw [if_neg (by decide), if_neg (by decide), if_neg (by decide), if_neg (by decide),
      if_pos rfl]
  · rw [setSGR_single]; unfold sgrStep
    rw [if_neg (by decide), if_neg (by decide), if_neg (by decide), if_neg (by decide),
      if_neg (by decide), if_pos rfl]
  · rw [setSGR_single]; unfold sgrStep
    rw [if_neg (by decide), if_neg (by decide), if_neg (by decide), if_neg (by decide),
      if_neg (by decide), if_neg (by decide), if_neg (by decide), if_neg (by decide),
      if_pos rfl]
  · rw [setSGR_single]; unfold sgrStep
    rw [if_neg (by decide), if_neg (by decide), if_neg (by decide), if_neg (by decide),
      if_neg (by decide), if_neg (by decide), if_neg (by decide), if_neg (by decide),
      if_neg (by decide), if_neg (by decide), if_neg (by decide), if_pos rfl]
  · intro h
    exact setSGR_foreground s p h.1 h.2
  · intro h
    rw [setSGR_single, sgrStep_background s p [] h.1 h.2]
  · intro h
    rw [setSGR_single, sgrStep_bright_foreground s p [] h.1 h.2, Int.add_comm]
  · intro h
    rw [setSGR_single, sgrStep_bright_background s p [] h.1 h.2, Int.add_comm]
  · intro h
    rw [setSGR_single, sgrStep_other s p h]

/-- Witness of `sgr_single_code_table`: code 31 (red foreground), 44 (blue background),
95 (bright magenta foreground), 107 (bright white background) and the unlisted code 5 on a
fresh 4 x 2 grid. -/
theorem sgr_single_code_table_witness :
    setSGR (newScreen 4 2) [31] = { newScreen 4 2 with curFg := ansiColors (31 - 30) } ∧
    setSGR (newScreen 4 2) [44] = { newScreen 4 2 with curBg := ansiColors (44 - 40) } ∧
    setSGR (newScreen 4 2) [95] = { newScreen 4 2 with curFg := ansiColors (8 + (95 - 90)) } ∧
    setSGR (newScreen 4 2) [107] =
      { newScreen 4 2 with curBg := ansiColors (8 + (107 - 100)) } ∧
    setSGR (newScreen 4 2) [5] = newScreen 4 2 :=
  ⟨(sgr_single_code_table (newScreen 4 2) 31).2.2.2.2.2.2.2.1 (by decide),
    (sgr_single_code_table (newScreen 4 2) 44).2.2.2.2.2.2.2.2.1 (by decide),
    (sgr_single_code_table (newScreen 4 2) 95).2.2.2.2.2.2.2.2.2.1 (by decide),
    (sgr_single_code_table (newScreen 4 2) 107).2.2.2.2.2.2.2.2.2.2.1 (by decide),
    (sgr_single_code_table (newScreen 4 2) 5).2.2.2.2.2.2.2.2.2.2.2.1 (by decide)⟩


/-! ## The 256-colour mapping -/

theorem hexDigitOf_digitChar : ∀ k : Nat, k < 16 → Nat.digitChar k = hexDigitOf k := by
  decide

theorem toDigits_one_digit (v : Nat) (h : v < 16) : Nat.toDigits 16 v = [hexDigitOf v] := by
  unfold Nat.toDigits
  rw [Nat.toDigitsCore]
  simp only [Nat.mod_eq_of_lt h, Nat.div_eq_of_lt h, if_true, hexDigitOf_digitChar v h]

theorem toDigits_two_digits (v : Nat) (h1 : 16 ≤ v) (h2 : v < 256) :
    Nat.toDigits 16 v = [hexDigitOf (v / 16), hexDigitOf (v % 16)] := by
  obtain ⟨k, rfl⟩ : ∃ k, v = k + 1 := ⟨v - 1, by omega⟩
  have hd : (k + 1) / 16 ≠ 0 := by omega
  have hd2 : (k + 1) / 16 / 16 = 0 := by omega
  have hm : (k + 1) / 16 % 16 = (k + 1) / 16 := by omega
  unfold Nat.toDigits
  rw [Nat.toDigitsCore]
  simp only [hd, if_false]
  rw [Nat.toDigitsCore]
  simp only [hd2, if_true, hm]
  rw [hexDigitOf_digitChar _ (by omega), hexDigitOf_digitChar _ (by omega)]

/-- The verb `%02x` on a value in 0..255 prints exactly two hexadecimal digits. -/
theorem hex2_small (x : Nat) (h : x < 256) :
    hex2 (x : Int) = String.mk [hexDigitOf (x / 16), hexDigitOf (x % 16)] := by
  unfold hex2
  rw [if_neg (by omega)]
  by_cases h16 : x < 16
  · rw [if_pos (by omega), Int.toNat_ofNat, toDigits_one_digit x h16]
    have h0 : x / 16 = 0 := by omega
    have hm : x % 16 = x := by omega
    rw [h0, hm]
    rfl
  · rw [if_neg (by omega), Int.toNat_ofNat, toDigits_two_digits x (by omega) h]

theorem rgbHex_small (r g b : Int) (hr : 0 ≤ r ∧ r ≤ 255) (hg : 0 ≤ g ∧ g ≤ 255)
    (hb : 0 ≤ b ∧ b ≤ 255) : rgbHex r g b = hexColour r g b := by
  obtain ⟨x, rfl⟩ := Int.eq_ofNat_of_zero_le hr.1
  obtain ⟨y, rfl⟩ := Int.eq_ofNat_of_zero_le hg.1
  obtain ⟨z, rfl⟩ := Int.eq_ofNat_of_zero_le hb.1
  unfold rgbHex hexColour
  rw [hex2_small x (by omega), hex2_small y (by omega), hex2_small z (by omega)]
  simp only [Int.toNat_ofNat]
  rfl

theorem hexDigitOf_isHex : ∀ k : Nat, k < 16 → isHexDigitChar (hexDigitOf k) = true := by
  decide

theorem hexColour_isHexColour (r g b : Int) (hr : r ≤ 255) (hg : g ≤ 255) (hb : b ≤ 255) :
    isHexColour (hexColour r g b) = true := by
  have h : ∀ v : Int, v ≤ 255 → v.toNat / 16 < 16 ∧ v.toNat % 16 < 16 := by
    intro v hv; omega
  unfold isHexColour hexColour
  simp only [List.length_cons, List.length_nil, List.all_cons, List.all_nil,
    hexDigitOf_isHex _ (h r hr).1, hexDigitOf_isHex _ (h r hr).2,
    hexDigitOf_isHex _ (h g hg).1, hexDigitOf_isHex _ (h g hg).2,
    hexDigitOf_isHex _ (h b hb).1, hexDigitOf_isHex _ (h b hb).2]
  decide

theorem ansiColors_isHexColour :
    ∀ k : Nat, k < 16 → isHexColour (ansiColors (k : Int)) = true := by
  decide


theorem wrap64_small {x : Int} (h1 : -9223372036854775808 ≤ x) (h2 : x ≤ 9223372036854775807) :
    wrap64 x = x := by
  unfold wrap64; omega

theorem color256_cube (n r g b : Int) (hr : 0 ≤ r ∧ r ≤ 5) (hg : 0 ≤ g ∧ g ≤ 5)
    (hb : 0 ≤ b ∧ b ≤ 5) (hn : n - 16 = 36 * r + 6 * g + b) :
    color256ToHex n = rgbHex (51 * r) (51 * g) (51 * b) := by
  have w1 : wrap64 (n - 16) = n - 16 := wrap64_small (by omega) (by omega)
  have d1 : Int.tdiv (n - 16) 36 = r := by
    rw [Int.tdiv_eq_ediv (by omega) (by decide)]; omega
  have d2 : Int.tdiv (n - 16) 6 = 6 * r + g := by
    rw [Int.tdiv_eq_ediv (by omega) (by decide)]; omega
  have d3 : Int.tmod (6 * r + g) 6 = g := by
    rw [Int.tmod_eq_emod (by omega) (by decide)]; omega
  have d4 : Int.tmod (n - 16) 6 = b := by
    rw [Int.tmod_eq_emod (by omega) (by decide)]; omega
  unfold color256ToHex
  rw [if_neg (by omega), if_neg (by omega), w1, d1, d2, d3, d4,
    wrap64_small (by omega) (by omega), wrap64_small (by omega) (by omega),
    wrap64_small (by omega) (by omega), Int.mul_comm r, Int.mul_comm g, Int.mul_comm b]

theorem color256_grey (n : Int) (h1 : 232 ≤ n) (h2 : n ≤ 255) :
    color256ToHex n =
      rgbHex (8 + 10 * (n - 232)) (8 + 10 * (n - 232)) (8 + 10 * (n - 232)) := by
  have w1 : wrap64 (n - 232) = n - 232 := wrap64_small (by omega) (by omega)
  have w2 : wrap64 ((n - 232) * 10) = (n - 232) * 10 := wrap64_small (by omega) (by omega)
  have w3 : wrap64 ((n - 232) * 10 + 8) = 8 + 10 * (n - 232) := by
    rw [wrap64_small (by omega) (by omega)]; omega
  unfold color256ToHex
  rw [if_neg (by omega), if_pos (by omega), w1, w2, w3]

/-- C13. 256-colour mapping: for every n in 0..255 `color256ToHex n` is a well-formed
`#rrggbb` string; it is the named palette entry n for n below 16; for n in 16..231 with
n-16 = 36r + 6g + b and r, g, b in 0..5 it is the hex colour of (51r, 51g, 51b); for n in
232..255 it is the grey with all components 8 + 10(n-232), which is at most 238. The
values for 232, 16 and 1 are `#080808`, `#000000` and `#e06c75`, pairwise distinct. -/
theorem color256_mapping (n : Int) (h0 : 0 ≤ n) (h255 : n ≤ 255) :
    isHexColour (color256ToHex n) = true ∧
    (n < 16 → color256ToHex n = ansiColors n) ∧
    (16 ≤ n → n ≤ 231 → ∀ r g b : Int, 0 ≤ r ∧ r ≤ 5 → 0 ≤ g ∧ g ≤ 5 → 0 ≤ b ∧ b ≤ 5 →
      n - 16 = 36 * r + 6 * g + b → color256ToHex n = hexColour (51 * r) (51 * g) (51 * b)) ∧
    (232 ≤ n →
      color256ToHex n =
        hexColour (8 + 10 * (n - 232)) (8 + 10 * (n - 232)) (8 + 10 * (n - 232)) ∧
      8 + 10 * (n - 232) ≤ 238) ∧
    color256ToHex 232 = "#080808" ∧ color256ToHex 16 = "#000000" ∧
    color256ToHex 1 = "#e06c75" ∧
    color256ToHex 232 ≠ color256ToHex 16 ∧ color256ToHex 232 ≠ color256ToHex 1 ∧
    color256ToHex 16 ≠ color256ToHex 1 := by
  have cube : 16 ≤ n → n ≤ 231 → ∀ r g b : Int, 0 ≤ r ∧ r ≤ 5 → 0 ≤ g ∧ g ≤ 5 →
      0 ≤ b ∧ b ≤ 5 → n - 16 = 36 * r + 6 * g + b →
      color256ToHex n = hexColour (51 * r) (51 * g) (51 * b) := by
    intro _ _ r g b hr hg hb hn
    rw [color256_cube n r g b hr hg hb hn,
      rgbHex_small _ _ _ (by omega) (by omega) (by omega)]
  have grey : 232 ≤ n → color256ToHex n =
      hexColour (8 + 10 * (n - 232)) (8 + 10 * (n - 232)) (8 + 10 * (n - 232)) := by
    intro h
    rw [color256_grey n h h255, rgbHex_small _ _ _ (by omega) (by omega) (by omega)]
  refine ⟨?_, fun h => by unfold color256ToHex; rw [if_pos h], cube,
    fun h => ⟨grey h, by omega⟩, by decide, by decide, by decide, by decide, by decide,
    by decide⟩
  by_cases h16 : n < 16
  · obtain ⟨k, rfl⟩ := Int.eq_ofNat_of_zero_le h0
    unfold color256ToHex
    rw [if_pos h16]
    exact ansiColors_isHexColour k (by omega)
  · by_cases h232 : 232 ≤ n
    · rw [grey h232]
      exact hexColour_isHexColour _ _ _ (by omega) (by omega) (by omega)
    · rw [cube (by omega) (by omega) ((n - 16) / 36) ((n - 16) / 6 % 6) ((n - 16) % 6)
        (by omega) (by omega) (by omega) (by omega)]
      exact hexColour_isHexColour _ _ _ (by omega) (by omega) (by omega)

/-- Witness of `color256_mapping`: index 100 = 16 + 36*2 + 6*2 + 0 is `#666600`. -/
theorem color256_mapping_witness :
    color256ToHex 100 = hexColour (51 * 2) (51 * 2) (51 * 0) ∧
    hexColour (51 * 2) (51 * 2) (51 * 0) = "#666600" ∧
    isHexColour (color256ToHex 100) = true :=
  ⟨(color256_mapping 100 (by decide) (by decide)).2.2.1 (by decide) (by decide) 2 2 0
      (by decide) (by decide) (by decide) (by decide),
    by decide,
    (color256_mapping 100 (by decide) (by decide)).1⟩

/-- C12 (claim fails on the code). Extended colour parameters are formatted with `%02x`
without a range check, so a component above 255 gives more than two digits: after
`ESC[38;2;256;0;0m X` the cell holds foreground `#1000000` (eight characters), and after
`ESC[48;5;257m X` it holds background `#102102102`; neither is a `#rrggbb` string. -/
theorem colour_out_of_range_not_normalised :
    cellAt (feed (newScreen 4 1)
        [27, 91, 51, 56, 59, 50, 59, 50, 53, 54, 59, 48, 59, 48, 109, 88]).screen.cells 0 0 =
      some { char := 88, fg := "#1000000", bg := "", bold := false, dim := false,
             italic := false } ∧
    isHexColour "#1000000" = false ∧
    cellAt (feed (newScreen 4 1)
        [27, 91, 52, 56, 59, 53, 59, 50, 53, 55, 109, 88]).screen.cells 0 0 =
      some { char := 88, fg := defaultFg, bg := "#102102102", bold := false, dim := false,
             italic := false } ∧
    isHexColour "#102102102" = false := by
  set_option maxRecDepth 100000 in decide


/-! ## Erase line -/

theorem cellAt_setCell {cells cs : List (List cell)} {y x : Int} {c : cell}
    (h : setCell cells y x c = some cs) (i j : Int) :
    cellAt cs i j = if i = y ∧ j = x then some c else cellAt cells i j := by
  unfold setCell at h
  split at h
  · rename_i hpos
    split at h
    · rename_i row hrow
      split at h
      · rename_i hcol
        cases h
        by_cases hij : i = y ∧ j = x
        · rw [if_pos hij, hij.1, hij.2]
          exact cellAt_set_same c hpos.1 hpos.2 hrow hcol
        · rw [if_neg hij]
          exact cellAt_set_other c hpos.1 hpos.2 hrow i j (by omega)
      · cases h
    · cases h
  · cases h

/-- The erase loop over columns `x0 .. x0+n-1` of the cursor row, when they are inside
the grid: it returns, and exactly those cells become blank. -/
theorem eraseLoop_in_bounds (n : Nat) (s : screen) (x0 : Int) (hs : GridOK s)
    (hy : 0 ≤ s.curY ∧ s.curY < s.rows) (hx0 : 0 ≤ x0) (hn : x0 + n ≤ s.cols) :
    ∃ t, eraseLoop n s x0 = Outcome.done t ∧ SameButCells s t ∧
      ∀ i j : Int, cellAt t.cells i j =
        if i = s.curY ∧ x0 ≤ j ∧ j < x0 + n then some blankCell else cellAt s.cells i j := by
  induction n generalizing s x0 with
  | zero =>
    refine ⟨s, rfl, ⟨rfl, rfl, rfl, rfl, rfl, rfl, rfl, rfl, rfl⟩, ?_⟩
    intro i j
    rw [if_neg (by simp only [Nat.cast_zero]; omega)]
  | succ n ih =>
    obtain ⟨row, hrow, hlen⟩ := gridOK_row hs hy.1 hy.2
    have hset := setCell_eq_some blankCell hy.1 hx0 hrow
      (by simp only [Nat.cast_add, Nat.cast_one] at hn; omega)
    have hs1 := setCell_gridOK hs hset
    obtain ⟨t, ht, hsame, hcells⟩ := ih
      { s with cells := s.cells.set s.curY.toNat (row.set x0.toNat blankCell) } (x0 + 1) hs1
      hy (by omega)
      (by show x0 + 1 + (n : Int) ≤ s.cols
          simp only [Nat.cast_add, Nat.cast_one] at hn; omega)
    refine ⟨t, ?_, hsame, ?_⟩
    · unfold eraseLoop
      rw [hset]
      exact ht
    · intro i j
      rw [hcells i j, cellAt_setCell hset i j]
      have hcy : ({ s with cells := s.cells.set s.curY.toNat (row.set x0.toNat blankCell) } :
        screen).curY = s.curY := rfl
      rw [hcy]
      simp only [Nat.cast_add, Nat.cast_one]
      by_cases h1 : i = s.curY ∧ x0 + 1 ≤ j ∧ j < x0 + 1 + n
      · rw [if_pos h1, if_pos (by omega)]
      · rw [if_neg h1]
        by_cases h2 : i = s.curY ∧ j = x0
        · rw [if_pos h2, if_pos (by omega)]
        · rw [if_neg h2, if_neg (by omega)]

theorem dispatch_erase_line (s : screen) (ps : List Nat) :
    dispatch s ps 75 =
      if firstParam (parseParams ps) 0 = 0 then eraseLoop (s.cols - s.curX).toNat s s.curX
      else if firstParam (parseParams ps) 0 = 1 then eraseLoop (s.curX + 1).toNat s 0
      else if firstParam (parseParams ps) 0 = 2 then eraseLoop s.cols.toNat s 0
      else Outcome.done s := by
  unfold dispatch
  rw [if_neg (by decide), if_neg (by decide), if_neg (by decide), if_pos rfl]

/-- C14. Erase line with the cursor (x, y) inside the grid: `ESC[K` and `ESC[0K` return and
set cells x..cols-1 of row y to the default blank cell, `ESC[1K` sets cells 0..x of row y,
`ESC[2K` sets every cell of row y; all other cells, the dimensions, the cursor and the
graphics state are unchanged. -/
theorem erase_line (s : screen) (hs : GridOK s) (hx : 0 ≤ s.curX ∧ s.curX < s.cols)
    (hy : 0 ≤ s.curY ∧ s.curY < s.rows) :
    (∃ t, feed s [27, 91, 75] = Outcome.done t ∧ feed s [27, 91, 48, 75] = Outcome.done t ∧
      SameButCells s t ∧
      ∀ i j : Int, cellAt t.cells i j =
        if i = s.curY ∧ s.curX ≤ j ∧ j < s.cols then some blankCell else cellAt s.cells i j) ∧
    (∃ t, feed s [27, 91, 49, 75] = Outcome.done t ∧ SameButCells s t ∧
      ∀ i j : Int, cellAt t.cells i j =
        if i = s.curY ∧ 0 ≤ j ∧ j ≤ s.curX then some blankCell else cellAt s.cells i j) ∧
    (∃ t, feed s [27, 91, 50, 75] = Outcome.done t ∧ SameButCells s t ∧
      ∀ i j : Int, cellAt t.cells i j =
        if i = s.curY ∧ 0 ≤ j ∧ j < s.cols then some blankCell else cellAt s.cells i j) ∧
    blankCell =
      { char := 32, fg := "#abb2bf", bg := "", bold := false, dim := false, italic := false } := by
  have e0 := feed_single s [] 75 (by decide) (by decide)
  have e00 := feed_single s [48] 75 (by decide) (by decide)
  have e1 := feed_single s [49] 75 (by decide) (by decide)
  have e2 := feed_single s [50] 75 (by decide) (by decide)
  have p0 : firstParam (parseParams []) 0 = 0 := by decide
  have p00 : firstParam (parseParams [48]) 0 = 0 := by decide
  have p1 : firstParam (parseParams [49]) 0 = 1 := by decide
  have p2 : firstParam (parseParams [50]) 0 = 2 := by decide
  simp only [List.cons_append, List.nil_append] at e0 e00 e1 e2
  rw [e0, e00, e1, e2]
  simp only [dispatch_erase_line, p0, p00, p1, p2]
  have n0 : ((1 : Int) = 0) = False := by simp
  have n1 : ((2 : Int) = 0) = False := by simp
  have n2 : ((2 : Int) = 1) = False := by simp
  simp only [if_true, n0, n1, n2, if_false]
  refine ⟨?_, ?_, ?_, rfl⟩
  · obtain ⟨t, ht, hsame, hcells⟩ := eraseLoop_in_bounds (s.cols - s.curX).toNat s s.curX hs hy
      hx.1 (by omega)
    refine ⟨t, ht, ht, hsame, ?_⟩
    intro i j
    rw [hcells i j]
    have : s.curX + ((s.cols - s.curX).toNat : Int) = s.cols := by omega
    rw [this]
  · obtain ⟨t, ht, hsame, hcells⟩ := eraseLoop_in_bounds (s.curX + 1).toNat s 0 hs hy
      (le_refl 0) (by omega)
    refine ⟨t, ht, hsame, ?_⟩
    intro i j
    rw [hcells i j]
    have : (0 : Int) + ((s.curX + 1).toNat : Int) = s.curX + 1 := by omega
    rw [this]
    by_cases h : i = s.curY ∧ 0 ≤ j ∧ j < s.curX + 1
    · rw [if_pos h, if_pos (by omega)]
    · rw [if_neg h, if_neg (by omega)]
  · obtain ⟨t, ht, hsame, hcells⟩ := eraseLoop_in_bounds s.cols.toNat s 0 hs hy
      (le_refl 0) (by have := hs.1; omega)
    refine ⟨t, ht, hsame, ?_⟩
    intro i j
    rw [hcells i j]
    have : (0 : Int) + (s.cols.toNat : Int) = s.cols := by have := hs.1; omega
    rw [this]


theorem sampleScreen_gridOK : GridOK sampleScreen :=
  typed_gridOK 4 2 [97, 98, 99] (by decide) (by decide) (by decide)

/-- Witness of `erase_line`: the grid holding `abc`, cursor at (1, 0). -/
theorem erase_line_witness :
    (∃ t, feed sampleScreen [27, 91, 75] = Outcome.done t ∧
      feed sampleScreen [27, 91, 48, 75] = Outcome.done t ∧
      SameButCells sampleScreen t ∧
      ∀ i j : Int, cellAt t.cells i j =
        if i = sampleScreen.curY ∧ sampleScreen.curX ≤ j ∧ j < sampleScreen.cols
        then some blankCell else cellAt sampleScreen.cells i j) ∧
    (∃ t, feed sampleScreen [27, 91, 49, 75] = Outcome.done t ∧ SameButCells sampleScreen t ∧
      ∀ i j : Int, cellAt t.cells i j =
        if i = sampleScreen.curY ∧ 0 ≤ j ∧ j ≤ sampleScreen.curX
        then some blankCell else cellAt sampleScreen.cells i j) ∧
    (∃ t, feed sampleScreen [27, 91, 50, 75] = Outcome.done t ∧ SameButCells sampleScreen t ∧
      ∀ i j : Int, cellAt t.cells i j =
        if i = sampleScreen.curY ∧ 0 ≤ j ∧ j < sampleScreen.cols
        then some blankCell else cellAt sampleScreen.cells i j) ∧
    blankCell =
      { char := 32, fg := "#abb2bf", bg := "", bold := false, dim := false, italic := false } :=
  erase_line sampleScreen sampleScreen_gridOK ⟨by decide, by decide⟩ ⟨by decide, by decide⟩


/-! ## Tab -/

theorem samePen_trans {s t u : screen} (h1 : SamePen s t) (h2 : SamePen t u) : SamePen s u := by
  unfold SamePen at *
  obtain ⟨a1, a2, a3, a4, a5, a6, a7⟩ := h1
  obtain ⟨b1, b2, b3, b4, b5, b6, b7⟩ := h2
  exact ⟨b1.trans a1, b2.trans a2, b3.trans a3, b4.trans a4, b5.trans a5, b6.trans a6,
    b7.trans a7⟩

theorem penCell_of_samePen {s t : screen} (h : SamePen s t) (r : Nat) :
    penCell t r = penCell s r := by
  obtain ⟨a1, a2, a3, a4, a5, -, -⟩ := h
  unfold penCell
  rw [a1, a2, a3, a4, a5]

/-- The loop of `k` writes of `r` starting inside the grid and ending at most at its right
edge: the cells x..x+k-1 of the cursor row get `r` with the current graphics state. -/
theorem writeN_in_bounds (k : Nat) (s : screen) (r : Nat) (hs : GridOK s)
    (hcm : s.cols ≤ maxInt) (hx : 0 ≤ s.curX) (hy : 0 ≤ s.curY ∧ s.curY < s.rows)
    (hk : s.curX + k ≤ s.cols) :
    (writeN k s r).curX = s.curX + k ∧ (writeN k s r).curY = s.curY ∧
    SamePen s (writeN k s r) ∧ GridOK (writeN k s r) ∧
    ∀ i j : Int, cellAt (writeN k s r).cells i j =
      if i = s.curY ∧ s.curX ≤ j ∧ j < s.curX + k then some (penCell s r)
      else cellAt s.cells i j := by
  induction k generalizing s with
  | zero =>
    refine ⟨by simp [writeN], rfl, ⟨rfl, rfl, rfl, rfl, rfl, rfl, rfl⟩, hs, ?_⟩
    intro i j
    rw [if_neg (by simp only [Nat.cast_zero]; omega)]
    rfl
  | succ k ih =>
    simp only [Nat.cast_add, Nat.cast_one] at hk
    obtain ⟨a1, a2, a3, a4, a5, a6⟩ := write_at_cursor s r hs hcm ⟨hx, by omega⟩ hy
    have hcols : (write s r).cols = s.cols := a5.2.2.2.2.2.1
    have hrows : (write s r).rows = s.rows := a5.2.2.2.2.2.2
    obtain ⟨b1, b2, b3, b4, b5⟩ := ih (write s r) a6 (by rw [hcols]; exact hcm)
      (by rw [a3]; omega) (by rw [a4, hrows]; exact hy) (by rw [a3, hcols]; omega)
    have e : writeN (k + 1) s r = writeN k (write s r) r := rfl
    rw [e]
    refine ⟨by rw [b1, a3]; simp only [Nat.cast_add, Nat.cast_one]; omega, by rw [b2, a4],
      samePen_trans a5 b3, b4, ?_⟩
    intro i j
    rw [b5 i j, a3, a4, penCell_of_samePen a5]
    simp only [Nat.cast_add, Nat.cast_one]
    by_cases h1 : i = s.curY ∧ s.curX + 1 ≤ j ∧ j < s.curX + 1 + k
    · rw [if_pos h1, if_pos (by omega)]
    · rw [if_neg h1]
      by_cases h2 : i = s.curY ∧ j = s.curX
      · rw [if_pos (by omega), h2.1, h2.2]
        exact a1
      · rw [if_neg (by omega)]
        exact a2 i j (by omega)

theorem feed_tab (s : screen) :
    feed s [9] = Outcome.done (writeN (8 - Int.tmod s.curX 8).toNat s 32) := by
  rw [feed_no_escape s [9] (by decide)]
  have hd : decodeRunes [9] = [9] := by decide
  rw [hd]
  have h : feedRune s 9 = writeN (8 - Int.tmod s.curX 8).toNat s 32 := by
    unfold feedRune
    rw [if_neg (by decide), if_neg (by decide), if_pos rfl]
  simp only [feedText, List.foldl, h]

/-- C16 (amended). Tab with the cursor (x, y) inside the grid, when the next multiple of 8
after x, 8*(x/8+1), is at most `cols`: feeding TAB leaves the cursor on row y at column
8*(x/8+1), every cell of row y from column x up to that column minus one holds a space
with the current graphics state, and every other cell, the graphics state and the
dimensions are unchanged. -/
theorem tab_paints_to_next_stop (s : screen) (hs : GridOK s) (hcm : s.cols ≤ maxInt)
    (hx : 0 ≤ s.curX ∧ s.curX < s.cols) (hy : 0 ≤ s.curY ∧ s.curY < s.rows)
    (hfit : 8 * (s.curX / 8 + 1) ≤ s.cols) :
    ∃ t, feed s [9] = Outcome.done t ∧
      t.curX = 8 * (s.curX / 8 + 1) ∧ t.curY = s.curY ∧ s.curX < t.curX ∧
      SamePen s t ∧ GridOK t ∧
      ∀ i j : Int, cellAt t.cells i j =
        if i = s.curY ∧ s.curX ≤ j ∧ j < 8 * (s.curX / 8 + 1) then
          some { char := 32, fg := s.curFg, bg := s.curBg, bold := s.bold, dim := s.dim,
                 italic := s.italic }
        else cellAt s.cells i j := by
  have hmod : Int.tmod s.curX 8 = s.curX % 8 := Int.tmod_eq_emod hx.1 (by decide)
  have hcount : s.curX + ((8 - Int.tmod s.curX 8).toNat : Int) = 8 * (s.curX / 8 + 1) := by
    rw [hmod]; omega
  obtain ⟨b1, b2, b3, b4, b5⟩ := writeN_in_bounds (8 - Int.tmod s.curX 8).toNat s 32 hs hcm
    hx.1 hy (by rw [hcount]; exact hfit)
  refine ⟨_, feed_tab s, by rw [b1, hcount], b2, by rw [b1, hcount]; omega, b3, b4, ?_⟩
  intro i j
  rw [b5 i j, hcount]
  rfl

/-- Witness of `tab_paints_to_next_stop`: a 16 x 2 grid with the cursor at (5, 0): the
cursor ends at column 8 and columns 5..7 are painted. -/
theorem tab_paints_to_next_stop_witness :
    ∃ t, feed { newScreen 16 2 with curX := 5 } [9] = Outcome.done t ∧
      t.curX = 8 * ((5 : Int) / 8 + 1) ∧ t.curY = 0 ∧ (5 : Int) < t.curX ∧
      SamePen { newScreen 16 2 with curX := 5 } t ∧ GridOK t ∧
      ∀ i j : Int, cellAt t.cells i j =
        if i = 0 ∧ 5 ≤ j ∧ j < 8 * ((5 : Int) / 8 + 1) then
          some { char := 32, fg := defaultFg, bg := "", bold := false, dim := false,
                 italic := false }
        else cellAt (newScreen 16 2).cells i j :=
  tab_paints_to_next_stop { newScreen 16 2 with curX := 5 }
    (newScreen_gridOK 16 2 (by decide) (by decide)) (by decide) ⟨by decide, by decide⟩
    ⟨by decide, by decide⟩ (by decide)

/-- C16 (counterexample). On a 4 x 2 grid with a red background selected, a TAB at (0, 0)
writes eight spaces: four fill row 0, the write wraps and four land on row 1; the cursor
ends at (4, 1), not on row 0 at column 8, and cells of row 1 were painted. -/
theorem tab_wraps_past_right_edge :
    feed { newScreen 4 2 with curBg := "#e06c75" } [9] =
      Outcome.done
        { newScreen 4 2 with
          cells := List.replicate 2 (List.replicate 4
            { char := 32, fg := defaultFg, bg := "#e06c75", bold := false, dim := false,
              italic := false })
          curX := 4
          curY := 1
          curBg := "#e06c75" } ∧
    ¬ ((feed { newScreen 4 2 with curBg := "#e06c75" } [9]).screen.curY = 0) ∧
    ¬ ((feed { newScreen 4 2 with curBg := "#e06c75" } [9]).screen.curX = 8 * (0 / 8 + 1)) ∧
    cellAt (feed { newScreen 4 2 with curBg := "#e06c75" } [9]).screen.cells 1 0 ≠
      cellAt (newScreen 4 2).cells 1 0 := by
  set_option maxRecDepth 100000 in decide


/-! ## Line feed -/

theorem feedRune_newline (s : screen) : feedRune s 10 = newline s := by
  unfold feedRune
  rw [if_pos rfl]

/-- Line feeds fed one after the other only move the cursor: column 0, row plus their
number. -/
theorem feedText_newlines (m : Nat) (s : screen) (h0 : -9223372036854775808 ≤ s.curY)
    (h1 : s.curY + m + 1 ≤ maxInt) :
    feedText s (List.replicate (m + 1) 10) =
      { s with curX := 0, curY := s.curY + ((m + 1 : Nat) : Int) } := by
  unfold maxInt at h1
  induction m generalizing s with
  | zero =>
    simp only [List.replicate, feedText, List.foldl, feedRune_newline, newline]
    rw [wrap64_small (by omega) (by omega)]
    rfl
  | succ m ih =>
    rw [List.replicate_succ]
    show feedText (feedRune s 10) (List.replicate (m + 1) 10) = _
    rw [feedRune_newline, ih (newline s)
      (by show -9223372036854775808 ≤ wrap64 (s.curY + 1)
          rw [wrap64_small (by omega) (by omega)]; omega)
      (by show wrap64 (s.curY + 1) + (m : Int) + 1 ≤ 9223372036854775807
          rw [wrap64_small (by omega) (by omega)]
          simp only [Nat.cast_add, Nat.cast_one] at h1; omega)]
    simp only [newline]
    rw [wrap64_small (by omega) (by omega)]
    simp only [Nat.cast_add, Nat.cast_one]
    congr 1
    omega

theorem drop_cons_replicate {α : Type} (x b : α) (m : Nat) :
    ∃ z, (x :: List.replicate m b).drop m = [z] := by
  cases m with
  | zero => exact ⟨x, rfl⟩
  | succ k =>
    refine ⟨b, ?_⟩
    rw [List.drop_succ_cons, List.drop_replicate]
    simp

theorem scroll_cons_replicate {α : Type} (x b : α) (m : Nat) :
    ((x :: List.replicate m b).drop 1 ++
      (x :: List.replicate m b).drop ((x :: List.replicate m b).length - 1)).set m b =
      List.replicate m b ++ [b] := by
  obtain ⟨z, hz⟩ := drop_cons_replicate x b m
  simp only [List.drop_succ_cons, List.drop_zero, List.length_cons, List.length_replicate,
    Nat.add_sub_cancel]
  rw [hz]
  have hl : m = (List.replicate m b).length := by simp
  conv_lhs => rw [hl]
  rw [List.set_append_right _ _ (by simp)]
  simp

/-- The write that follows line feeds which left the cursor one row below a grid holding
one character `b` at its top left: the grid scrolls once, `b` is gone, the new character is
at the start of the last row. -/
theorem write_after_line_feeds (cols rows : Int) (b c : Nat) (hc : 1 ≤ cols) (hr : 1 ≤ rows)
    (hcm : cols ≤ maxInt) (hrm : rows ≤ maxInt) :
    write { typed cols rows [b] with curX := 0, curY := rows } c =
      { newScreen cols rows with
        cells := List.replicate (rows.toNat - 1) (blankRow cols) ++
          [(blankRow cols).set 0
            { char := c, fg := defaultFg, bg := "", bold := false, dim := false,
              italic := false }]
        curX := 1
        curY := rows - 1 } := by
  unfold maxInt at hcm hrm
  have hw2 : wrap64 (rows - 1) = rows - 1 := wrap64_small (by omega) (by omega)
  have hw3 : wrap64 (0 + 1) = 1 := by decide
  have hm : (rows - 1).toNat = rows.toNat - 1 := by omega
  have e1 : wrapCursor { typed cols rows [b] with curX := 0, curY := rows } =
      { typed cols rows [b] with curX := 0, curY := rows } := by
    unfold wrapCursor
    rw [if_neg (by show ¬ ((0 : Int) ≥ cols); omega)]
  have hscroll : ((typed cols rows [b]).cells.drop 1 ++
      (typed cols rows [b]).cells.drop ((typed cols rows [b]).cells.length - 1)).set
        (rows - 1).toNat (blankRow cols) =
      List.replicate (rows.toNat - 1) (blankRow cols) ++ [blankRow cols] := by
    rw [hm]
    exact scroll_cons_replicate _ (blankRow cols) (rows.toNat - 1)
  have e2 : scrollIfBelow { typed cols rows [b] with curX := 0, curY := rows } =
      { newScreen cols rows with
        cells := List.replicate (rows.toNat - 1) (blankRow cols) ++ [blankRow cols]
        curX := 0
        curY := rows - 1 } := by
    unfold scrollIfBelow
    rw [if_pos (by show rows ≥ rows; omega)]
    unfold scrollUp
    show ({ newScreen cols rows with
        cells := ((typed cols rows [b]).cells.drop 1 ++
          (typed cols rows [b]).cells.drop ((typed cols rows [b]).cells.length - 1)).set
            (rows - 1).toNat (blankRow cols)
        curX := 0
        curY := wrap64 (rows - 1) } : screen) = _
    rw [hscroll, hw2]
  have hrowget : (List.replicate (rows.toNat - 1) (blankRow cols) ++
      [blankRow cols])[(rows - 1).toNat]? = some (blankRow cols) := by
    rw [hm, List.getElem?_append_right (by simp)]
    simp
  have hblank : (blankRow cols).length = cols.toNat := by simp [blankRow]
  have hset := @setCell_eq_some
    (List.replicate (rows.toNat - 1) (blankRow cols) ++ [blankRow cols]) (rows - 1) 0
    (blankRow cols)
    { char := c, fg := defaultFg, bg := "", bold := false, dim := false, italic := false }
    (by omega) (le_refl 0) hrowget (by rw [hblank]; simp only [Int.toNat_zero]; omega)
  have hfinal : (List.replicate (rows.toNat - 1) (blankRow cols) ++ [blankRow cols]).set
      (rows - 1).toNat ((blankRow cols).set (0 : Int).toNat
        { char := c, fg := defaultFg, bg := "", bold := false, dim := false,
          italic := false }) =
      List.replicate (rows.toNat - 1) (blankRow cols) ++
        [(blankRow cols).set 0
          { char := c, fg := defaultFg, bg := "", bold := false, dim := false,
            italic := false }] := by
    rw [hm]
    have hl : rows.toNat - 1 = (List.replicate (rows.toNat - 1) (blankRow cols)).length := by
      simp
    conv_lhs => rw [hl]
    rw [List.set_append_right _ _ (by simp)]
    simp
  have e3 : putRune { newScreen cols rows with
        cells := List.replicate (rows.toNat - 1) (blankRow cols) ++ [blankRow cols]
        curX := 0
        curY := rows - 1 } c =
      { newScreen cols rows with
        cells := List.replicate (rows.toNat - 1) (blankRow cols) ++
          [(blankRow cols).set 0
            { char := c, fg := defaultFg, bg := "", bold := false, dim := false,
              italic := false }]
        curX := 0
        curY := rows - 1 } := by
    unfold putRune
    rw [if_pos ⟨by show rows - 1 ≥ 0; omega, le_refl 0, by show rows - 1 < rows; omega,
      by show (0 : Int) < cols; omega⟩]
    show ({ newScreen cols rows with
        cells := (setCell (List.replicate (rows.toNat - 1) (blankRow cols) ++ [blankRow cols])
          (rows - 1) 0
          { char := c, fg := defaultFg, bg := "", bold := false, dim := false,
            italic := false }).getD _
        curX := 0
        curY := rows - 1 } : screen) = _
    rw [hset, Option.getD_some, hfinal]
  unfold write
  rw [e1, e2, e3]
  unfold advance
  show ({ newScreen cols rows with
      cells := _
      curX := wrap64 (0 + 1)
      curY := rows - 1 } : screen) = _
  rw [hw3]


/-- The write that follows line feeds which left the cursor on any row `y` at or below
row `rows` of a grid holding one character `b` at its top left: the grid scrolls once,
`b` is gone, the new character is at the start of the last row. -/
theorem write_below_grid (cols rows y : Int) (b c : Nat) (hc : 1 ≤ cols) (hr : 1 ≤ rows)
    (hcm : cols ≤ maxInt) (hrm : rows ≤ maxInt) (hy : rows ≤ y) :
    write { typed cols rows [b] with curX := 0, curY := y } c =
      { newScreen cols rows with
        cells := List.replicate (rows.toNat - 1) (blankRow cols) ++
          [(blankRow cols).set 0
            { char := c, fg := defaultFg, bg := "", bold := false, dim := false,
              italic := false }]
        curX := 1
        curY := rows - 1 } := by
  have e1 : wrapCursor { typed cols rows [b] with curX := 0, curY := y } =
      { typed cols rows [b] with curX := 0, curY := y } := by
    unfold wrapCursor
    rw [if_neg (by show ¬ ((0 : Int) ≥ cols); omega)]
  have e0 : wrapCursor { typed cols rows [b] with curX := 0, curY := rows } =
      { typed cols rows [b] with curX := 0, curY := rows } := by
    unfold wrapCursor
    rw [if_neg (by show ¬ ((0 : Int) ≥ cols); omega)]
  have e2 : scrollIfBelow { typed cols rows [b] with curX := 0, curY := y } =
      scrollIfBelow { typed cols rows [b] with curX := 0, curY := rows } := by
    unfold scrollIfBelow
    rw [if_pos (by show y ≥ rows; omega), if_pos (by show rows ≥ rows; omega)]
    rfl
  rw [← write_after_line_feeds cols rows b c hc hr hcm hrm]
  unfold write
  rw [e1, e0, e2]

/-- C17 (amended). A line feed never scrolls: wherever the cursor is, also at or below
row `rows`, it sets the column to 0 and adds one to the row (as a 64-bit addition, so
plainly one more for a row below the largest `int`), leaving all cells as they are;
several line feeds add their number to the row. Feeding one non-blank character `b` and
then `rows` line feeds to a fresh grid leaves the cursor at column 0 of row `rows` (one
below the last row) with `b` still at the top left; the scroll is done by the next write:
a character `c` fed after that scrolls the grid once, so that `b` is gone, `c` is at the
start of the last row and the cursor is at (1, rows-1); the same single scroll is done
from any row `y` at or below row `rows`. -/
theorem line_feed_defers_scroll (cols rows : Int) (b c : Nat) (hc : 1 ≤ cols) (hr : 1 ≤ rows)
    (hcm : cols ≤ maxInt) (hrm : rows ≤ maxInt) (hb : 33 ≤ b ∧ b ≤ 126)
    (hcc : 33 ≤ c ∧ c ≤ 126) :
    feed (newScreen cols rows) (b :: List.replicate rows.toNat 10) =
      Outcome.done { typed cols rows [b] with curX := 0, curY := rows } ∧
    cellAt (typed cols rows [b]).cells 0 0 =
      some { char := b, fg := defaultFg, bg := "", bold := false, dim := false,
             italic := false } ∧
    (∀ s : screen,
      feed s [10] = Outcome.done { s with curX := 0, curY := wrap64 (s.curY + 1) }) ∧
    (∀ s : screen, -9223372036854775808 ≤ s.curY → s.curY < maxInt →
      feed s [10] = Outcome.done { s with curX := 0, curY := s.curY + 1 }) ∧
    (∀ (s : screen) (m : Nat), -9223372036854775808 ≤ s.curY → s.curY + m + 1 ≤ maxInt →
      feed s (List.replicate (m + 1) 10) =
        Outcome.done { s with curX := 0, curY := s.curY + ((m + 1 : Nat) : Int) }) ∧
    feed { typed cols rows [b] with curX := 0, curY := rows } [c] =
      Outcome.done
        { newScreen cols rows with
          cells := List.replicate (rows.toNat - 1) (blankRow cols) ++
            [(blankRow cols).set 0
              { char := c, fg := defaultFg, bg := "", bold := false, dim := false,
                italic := false }]
          curX := 1
          curY := rows - 1 } ∧
    (∀ y : Int, rows ≤ y →
      feed { typed cols rows [b] with curX := 0, curY := y } [c] =
        Outcome.done
          { newScreen cols rows with
            cells := List.replicate (rows.toNat - 1) (blankRow cols) ++
              [(blankRow cols).set 0
                { char := c, fg := defaultFg, bg := "", bold := false, dim := false,
                  italic := false }]
            curX := 1
            curY := rows - 1 }) := by
  have hd : decodeRunes [10] = [10] := by decide
  refine ⟨?_, ?_, ?_, ?_, ?_, ?_, ?_⟩
  · have hne : ∀ x ∈ b :: List.replicate rows.toNat 10, x ≠ 27 := by
      intro x hx
      rcases List.mem_cons.mp hx with h | h
      · omega
      · rw [List.eq_of_mem_replicate h]; decide
    have hascii : ∀ x ∈ b :: List.replicate rows.toNat 10, x < 128 := by
      intro x hx
      rcases List.mem_cons.mp hx with h | h
      · omega
      · rw [List.eq_of_mem_replicate h]; decide
    have hn : rows.toNat = (rows.toNat - 1) + 1 := by omega
    have h1 : feedRune (newScreen cols rows) b = typed cols rows [b] := by
      have := feedText_single_printable (newScreen cols rows) b (by omega)
      simp only [feedText, List.foldl] at this
      rw [this, ← typed_nil cols rows hr, write_typed cols rows [] b hr hcm (by simpa using hc)]
      rfl
    rw [feed_no_escape _ _ hne, decodeRunes_ascii _ hascii]
    show Outcome.done (feedText (feedRune (newScreen cols rows) b)
      (List.replicate rows.toNat 10)) = _
    rw [h1, hn, feedText_newlines (rows.toNat - 1) (typed cols rows [b])
      (by show (-9223372036854775808 : Int) ≤ 0; decide)
      (by show (0 : Int) + ((rows.toNat - 1 : Nat) : Int) + 1 ≤ maxInt
          unfold maxInt at *; omega)]
    have hy : (typed cols rows [b]).curY + ((rows.toNat - 1 + 1 : Nat) : Int) = rows := by
      show (0 : Int) + ((rows.toNat - 1 + 1 : Nat) : Int) = rows
      omega
    rw [hy]
  · simp [cellAt, typed, textCells]
  · intro s
    rw [feed_no_escape s [10] (by decide), hd]
    simp only [feedText, List.foldl, feedRune_newline, newline]
  · intro s h0 h1
    rw [feed_no_escape s [10] (by decide), hd]
    simp only [feedText, List.foldl, feedRune_newline, newline]
    rw [wrap64_small (by omega) (by unfold maxInt at h1; omega)]
  · intro s m h0 h1
    have hne : ∀ x ∈ List.replicate (m + 1) 10, x ≠ 27 := by
      intro x hx
      rw [List.eq_of_mem_replicate hx]; decide
    have hascii : ∀ x ∈ List.replicate (m + 1) 10, x < 128 := by
      intro x hx
      rw [List.eq_of_mem_replicate hx]; decide
    rw [feed_no_escape _ _ hne, decodeRunes_ascii _ hascii, feedText_newlines m s h0 h1]
  · rw [feed_ascii_printable _ c (by omega) (by omega),
      write_after_line_feeds cols rows b c hc hr hcm hrm]
  · intro y hy
    rw [feed_ascii_printable _ c (by omega) (by omega),
      write_below_grid cols rows y b c hc hr hcm hrm hy]

/-- Witness of `line_feed_defers_scroll`: the letter `a` and two line feeds on a 3 x 2
grid, then the letter `b`. -/
theorem line_feed_defers_scroll_witness :
    feed (newScreen 3 2) (97 :: List.replicate (2 : Int).toNat 10) =
      Outcome.done { typed 3 2 [97] with curX := 0, curY := 2 } ∧
    cellAt (typed 3 2 [97]).cells 0 0 =
      some { char := 97, fg := defaultFg, bg := "", bold := false, dim := false,
             italic := false } ∧
    (∀ s : screen,
      feed s [10] = Outcome.done { s with curX := 0, curY := wrap64 (s.curY + 1) }) ∧
    (∀ s : screen, -9223372036854775808 ≤ s.curY → s.curY < maxInt →
      feed s [10] = Outcome.done { s with curX := 0, curY := s.curY + 1 }) ∧
    (∀ (s : screen) (m : Nat), -9223372036854775808 ≤ s.curY → s.curY + m + 1 ≤ maxInt →
      feed s (List.replicate (m + 1) 10) =
        Outcome.done { s with curX := 0, curY := s.curY + ((m + 1 : Nat) : Int) }) ∧
    feed { typed 3 2 [97] with curX := 0, curY := 2 } [98] =
      Outcome.done
        { newScreen 3 2 with
          cells := List.replicate ((2 : Int).toNat - 1) (blankRow 3) ++
            [(blankRow 3).set 0
              { char := 98, fg := defaultFg, bg := "", bold := false, dim := false,
                italic := false }]
          curX := 1
          curY := 2 - 1 } ∧
    (∀ y : Int, 2 ≤ y →
      feed { typed 3 2 [97] with curX := 0, curY := y } [98] =
        Outcome.done
          { newScreen 3 2 with
            cells := List.replicate ((2 : Int).toNat - 1) (blankRow 3) ++
              [(blankRow 3).set 0
                { char := 98, fg := defaultFg, bg := "", bold := false, dim := false,
                  italic := false }]
            curX := 1
            curY := 2 - 1 }) :=
  line_feed_defers_scroll 3 2 97 98 (by decide) (by decide) (by decide) (by decide)
    ⟨by decide, by decide⟩ ⟨by decide, by decide⟩

/-- C17 (counterexample). On a fresh 3 x 2 grid the letter `a` followed by two line feeds
leaves the cursor on row 2 = rows, not on row rows-1 = 1, and `a` is still in cell (0,0):
nothing was scrolled. -/
theorem line_feed_does_not_scroll :
    feed (newScreen 3 2) [97, 10, 10] =
      Outcome.done { typed 3 2 [97] with curX := 0, curY := 2 } ∧
    ¬ ((feed (newScreen 3 2) [97, 10, 10]).screen.curY = 2 - 1) ∧
    cellAt (feed (newScreen 3 2) [97, 10, 10]).screen.cells 0 0 =
      some { char := 97, fg := defaultFg, bg := "", bold := false, dim := false,
             italic := false } := by
  set_option maxRecDepth 100000 in decide

/-! ## Relative cursor movement -/

theorem dispatch_up (s : screen) (ps : List Nat) :
    dispatch s ps 65 =
      Outcome.done { s with
        curY := if wrap64 (s.curY - moveCount (parseParams ps)) < 0 then 0
          else wrap64 (s.curY - moveCount (parseParams ps)) } := by
  unfold dispatch
  rw [if_neg (by decide), if_neg (by decide), if_neg (by decide), if_neg (by decide),
    if_pos rfl]

theorem dispatch_down (s : screen) (ps : List Nat) :
    dispatch s ps 66 =
      Outcome.done { s with
        curY := if wrap64 (s.curY + moveCount (parseParams ps)) ≥ s.rows
          then wrap64 (s.rows - 1)
          else wrap64 (s.curY + moveCount (parseParams ps)) } := by
  unfold dispatch
  rw [if_neg (by decide), if_neg (by decide), if_neg (by decide), if_neg (by decide),
    if_neg (by decide), if_pos rfl]

theorem dispatch_forward (s : screen) (ps : List Nat) :
    dispatch s ps 67 =
      Outcome.done { s with
        curX := if wrap64 (s.curX + moveCount (parseParams ps)) ≥ s.cols
          then wrap64 (s.cols - 1)
          else wrap64 (s.curX + moveCount (parseParams ps)) } := by
  unfold dispatch
  rw [if_neg (by decide), if_neg (by decide), if_neg (by decide), if_neg (by decide),
    if_neg (by decide), if_neg (by decide), if_pos rfl]

theorem dispatch_back (s : screen) (ps : List Nat) :
    dispatch s ps 68 =
      Outcome.done { s with
        curX := if wrap64 (s.curX - moveCount (parseParams ps)) < 0 then 0
          else wrap64 (s.curX - moveCount (parseParams ps)) } := by
  unfold dispatch
  rw [if_neg (by decide), if_neg (by decide), if_neg (by decide), if_neg (by decide),
    if_neg (by decide), if_neg (by decide), if_neg (by decide), if_pos rfl]

/-- Relative cursor movement when the sum or difference fits a 64-bit `int`: the clamped
positions of the table (`A`: max(0, y-n), `B`: min(rows-1, y+n), `C`: min(cols-1, x+n),
`D`: max(0, x-n)), nothing else changed. -/
theorem relative_move_in_range (s : screen) (ps : List Nat)
    (hps : ∀ b ∈ ps, isParamByte b = true) (hrows : IsInt64 (s.rows - 1))
    (hcols : IsInt64 (s.cols - 1)) :
    (IsInt64 (s.curY - moveCount (parseParams ps)) →
      feed s (27 :: 91 :: (ps ++ [65])) =
        Outcome.done { s with curY := max 0 (s.curY - moveCount (parseParams ps)) }) ∧
    (IsInt64 (s.curY + moveCount (parseParams ps)) →
      feed s (27 :: 91 :: (ps ++ [66])) =
        Outcome.done { s with
          curY := min (s.rows - 1) (s.curY + moveCount (parseParams ps)) }) ∧
    (IsInt64 (s.curX + moveCount (parseParams ps)) →
      feed s (27 :: 91 :: (ps ++ [67])) =
        Outcome.done { s with
          curX := min (s.cols - 1) (s.curX + moveCount (parseParams ps)) }) ∧
    (IsInt64 (s.curX - moveCount (parseParams ps)) →
      feed s (27 :: 91 :: (ps ++ [68])) =
        Outcome.done { s with curX := max 0 (s.curX - moveCount (parseParams ps)) }) := by
  refine ⟨?_, ?_, ?_, ?_⟩
  · intro h
    rw [feed_single s ps 65 hps (by decide), dispatch_up, wrap64_of_isInt64 h]
    congr 2
    split_ifs <;> omega
  · intro h
    rw [feed_single s ps 66 hps (by decide), dispatch_down, wrap64_of_isInt64 h,
      wrap64_of_isInt64 hrows]
    congr 2
    split_ifs <;> omega
  · intro h
    rw [feed_single s ps 67 hps (by decide), dispatch_forward, wrap64_of_isInt64 h,
      wrap64_of_isInt64 hcols]
    congr 2
    split_ifs <;> omega
  · intro h
    rw [feed_single s ps 68 hps (by decide), dispatch_back, wrap64_of_isInt64 h]
    congr 2
    split_ifs <;> omega

/-- C18 (claim fails on the code). The sum `curY + n` (and `curX + n`) is formed in a
64-bit `int` before it is compared with the grid size, so it wraps for a parameter near
the largest `int`: on a 3 x 2 grid, after one line feed (row 1) `ESC[9223372036854775807B`
leaves the cursor row at -9223372036854775808 instead of min(rows-1, y+n) = 1, and after
one letter (column 1) `ESC[9223372036854775807C` leaves the column at
-9223372036854775808 instead of min(cols-1, x+n) = 2. -/
theorem relative_move_overflows :
    moveCount (parseParams
      [57, 50, 50, 51, 51, 55, 50, 48, 51, 54, 56, 53, 52, 55, 55, 53, 56, 48, 55]) =
        9223372036854775807 ∧
    feed (newScreen 3 2)
      [10, 27, 91, 57, 50, 50, 51, 51, 55, 50, 48, 51, 54, 56, 53, 52, 55, 55, 53, 56, 48, 55, 66] =
      Outcome.done { newScreen 3 2 with curY := -9223372036854775808 } ∧
    feed (newScreen 3 2)
      [97, 27, 91, 57, 50, 50, 51, 51, 55, 50, 48, 51, 54, 56, 53, 52, 55, 55, 53, 56, 48, 55, 67] =
      Outcome.done { typed 3 2 [97] with curX := -9223372036854775808 } := by
  set_option maxRecDepth 100000 in decide


/-! ## Select graphic rendition: extended colour forms -/

theorem sgrStep_foreground_256 (s : screen) (n : Int) (tl : List Int) :
    sgrStep s 38 (5 :: n :: tl) = ({ s with curFg := color256ToHex n }, 2) := by
  unfold sgrStep
  rw [if_neg (by decide), if_neg (by decide), if_neg (by decide), if_neg (by decide),
    if_neg (by decide), if_neg (by decide), if_neg (by decide), if_pos rfl]
  show (if (5 : Int) = 5 then _ else _) = _
  rw [if_pos rfl]

theorem sgrStep_foreground_rgb (s : screen) (r g b : Int) (tl : List Int) :
    sgrStep s 38 (2 :: r :: g :: b :: tl) = ({ s with curFg := rgbHex r g b }, 4) := by
  unfold sgrStep
  rw [if_neg (by decide), if_neg (by decide), if_neg (by decide), if_neg (by decide),
    if_neg (by decide), if_neg (by decide), if_neg (by decide), if_pos rfl]
  show (if (2 : Int) = 5 then _ else if (2 : Int) = 2 then _ else _) = _
  rw [if_neg (by decide), if_pos rfl]

theorem sgrStep_background_256 (s : screen) (n : Int) (tl : List Int) :
    sgrStep s 48 (5 :: n :: tl) = ({ s with curBg := color256ToHex n }, 2) := by
  unfold sgrStep
  rw [if_neg (by decide), if_neg (by decide), if_neg (by decide), if_neg (by decide),
    if_neg (by decide), if_neg (by decide), if_neg (by decide), if_neg (by decide),
    if_neg (by decide), if_neg (by decide), if_pos rfl]
  show (if (5 : Int) = 5 then _ else _) = _
  rw [if_pos rfl]

theorem sgrStep_background_rgb (s : screen) (r g b : Int) (tl : List Int) :
    sgrStep s 48 (2 :: r :: g :: b :: tl) = ({ s with curBg := rgbHex r g b }, 4) := by
  unfold sgrStep
  rw [if_neg (by decide), if_neg (by decide), if_neg (by decide), if_neg (by decide),
    if_neg (by decide), if_neg (by decide), if_neg (by decide), if_neg (by decide),
    if_neg (by decide), if_neg (by decide), if_pos rfl]
  show (if (2 : Int) = 5 then _ else if (2 : Int) = 2 then _ else _) = _
  rw [if_neg (by decide), if_pos rfl]

theorem setSGR_of_ne_nil (s : screen) (params : List Int) (h : params ≠ []) :
    setSGR s params = setSGRAux 0 s params := by
  unfold setSGR
  rw [if_neg h]

/-- The loop of `setSGR` at a complete `c;5;N` form passes over `5` and `N`. -/
theorem setSGRAux_skip_two (s : screen) (c q n : Int) (rest : List Int) (t : screen)
    (h : sgrStep s c (q :: n :: rest) = (t, 2)) :
    setSGRAux 0 s (c :: q :: n :: rest) = setSGRAux 0 t rest := by
  simp only [setSGRAux, h]

/-- The loop of `setSGR` at a complete `c;2;R;G;B` form passes over the four arguments. -/
theorem setSGRAux_skip_four (s : screen) (c q r g b : Int) (rest : List Int) (t : screen)
    (h : sgrStep s c (q :: r :: g :: b :: rest) = (t, 4)) :
    setSGRAux 0 s (c :: q :: r :: g :: b :: rest) = setSGRAux 0 t rest := by
  simp only [setSGRAux, h]

theorem setSGRAux_nil (skip : Nat) (s : screen) : setSGRAux skip s [] = s := by
  cases skip <;> rfl

/-- C21. Extended-colour forms consume their arguments: with further codes `rest` (not
empty), `setSGR (38 :: 5 :: N :: rest)` is `setSGR rest` on the state whose foreground
is `color256ToHex N`, and `setSGR (38 :: 2 :: R :: G :: B :: rest)`, with R, G, B in
0..255, is `setSGR rest` on the state whose foreground is the colour `#rrggbb`; the same
holds with 48 and the background. Without further codes the form changes the one colour
and nothing else, so `5`, `2`, `N`, `R`, `G`, `B` are not run as codes: `ESC[38;5;1m` sets
the foreground to palette entry 1 and leaves bold as it was. -/
theorem extended_colour_consumes_arguments (s : screen) (N R G B : Int) (rest : List Int)
    (hR : 0 ≤ R ∧ R ≤ 255) (hG : 0 ≤ G ∧ G ≤ 255) (hB : 0 ≤ B ∧ B ≤ 255)
    (hrest : rest ≠ []) :
    setSGR s (38 :: 5 :: N :: rest) = setSGR { s with curFg := color256ToHex N } rest ∧
    setSGR s (38 :: 2 :: R :: G :: B :: rest) =
      setSGR { s with curFg := hexColour R G B } rest ∧
    setSGR s (48 :: 5 :: N :: rest) = setSGR { s with curBg := color256ToHex N } rest ∧
    setSGR s (48 :: 2 :: R :: G :: B :: rest) =
      setSGR { s with curBg := hexColour R G B } rest ∧
    setSGR s [38, 5, N] = { s with curFg := color256ToHex N } ∧
    setSGR s [38, 2, R, G, B] = { s with curFg := hexColour R G B } ∧
    setSGR s [48, 5, N] = { s with curBg := color256ToHex N } ∧
    setSGR s [48, 2, R, G, B] = { s with curBg := hexColour R G B } ∧
    feed s [27, 91, 51, 56, 59, 53, 59, 49, 109] = Outcome.done { s with curFg := "#e06c75" } ∧
    (feed s [27, 91, 51, 56, 59, 53, 59, 49, 109]).screen.bold = s.bold := by
  have hfeed : feed s [27, 91, 51, 56, 59, 53, 59, 49, 109] =
      Outcome.done { s with curFg := "#e06c75" } := by
    have hp : parseParams [51, 56, 59, 53, 59, 49] = [38, 5, 1] := by decide
    have h := feed_single s [51, 56, 59, 53, 59, 49] 109 (by decide) (by decide)
    rw [dispatch_sgr, hp, setSGR_of_ne_nil s _ (by simp),
      setSGRAux_skip_two s 38 5 1 [] _ (sgrStep_foreground_256 s 1 []), setSGRAux_nil] at h
    exact h
  refine ⟨?_, ?_, ?_, ?_, ?_, ?_, ?_, ?_, hfeed, ?_⟩
  · rw [setSGR_of_ne_nil s _ (by simp), setSGR_of_ne_nil _ rest hrest]
    exact setSGRAux_skip_two s 38 5 N rest _ (sgrStep_foreground_256 s N rest)
  · rw [setSGR_of_ne_nil s _ (by simp), setSGR_of_ne_nil _ rest hrest,
      ← rgbHex_small R G B hR hG hB]
    exact setSGRAux_skip_four s 38 2 R G B rest _ (sgrStep_foreground_rgb s R G B rest)
  · rw [setSGR_of_ne_nil s _ (by simp), setSGR_of_ne_nil _ rest hrest]
    exact setSGRAux_skip_two s 48 5 N rest _ (sgrStep_background_256 s N rest)
  · rw [setSGR_of_ne_nil s _ (by simp), setSGR_of_ne_nil _ rest hrest,
      ← rgbHex_small R G B hR hG hB]
    exact setSGRAux_skip_four s 48 2 R G B rest _ (sgrStep_background_rgb s R G B rest)
  · rw [setSGR_of_ne_nil s _ (by simp),
      setSGRAux_skip_two s 38 5 N [] _ (sgrStep_foreground_256 s N []), setSGRAux_nil]
  · rw [setSGR_of_ne_nil s _ (by simp), ← rgbHex_small R G B hR hG hB,
      setSGRAux_skip_four s 38 2 R G B [] _ (sgrStep_foreground_rgb s R G B []), setSGRAux_nil]
  · rw [setSGR_of_ne_nil s _ (by simp),
      setSGRAux_skip_two s 48 5 N [] _ (sgrStep_background_256 s N []), setSGRAux_nil]
  · rw [setSGR_of_ne_nil s _ (by simp), ← rgbHex_small R G B hR hG hB,
      setSGRAux_skip_four s 48 2 R G B [] _ (sgrStep_background_rgb s R G B []), setSGRAux_nil]
  · rw [hfeed]
    rfl

/-- Witness of `extended_colour_consumes_arguments`: on the sample screen, `38;5;208`
and `38;2;255;128;0` followed by the code 1 (bold). -/
theorem extended_colour_consumes_arguments_witness :
    setSGR sampleScreen [38, 5, 208, 1] =
      { sampleScreen with curFg := "#ff6600", bold := true } ∧
    setSGR sampleScreen [38, 2, 255, 128, 0, 1] =
      { sampleScreen with curFg := "#ff8000", bold := true } ∧
    setSGR sampleScreen [48, 5, 208, 1] =
      { sampleScreen with curBg := "#ff6600", bold := true } ∧
    setSGR sampleScreen [48, 2, 255, 128, 0, 1] =
      { sampleScreen with curBg := "#ff8000", bold := true } ∧
    (feed sampleScreen [27, 91, 51, 56, 59, 53, 59, 49, 109]).screen.bold = false := by
  have h := extended_colour_consumes_arguments sampleScreen 208 255 128 0 [1]
    (by decide) (by decide) (by decide) (by simp)
  refine ⟨?_, ?_, ?_, ?_, ?_⟩
  · rw [h.1]; set_option maxRecDepth 100000 in decide
  · rw [h.2.1]; set_option maxRecDepth 100000 in decide
  · rw [h.2.2.1]; set_option maxRecDepth 100000 in decide
  · rw [h.2.2.2.1]; set_option maxRecDepth 100000 in decide
  · rw [h.2.2.2.2.2.2.2.2.2]; rfl

/-! ## Rendering a grid of blank cells -/

theorem renderRow_all_blank (row : Nat) (cells : List cell) (col : Nat)
    (h : ∀ c ∈ cells, c.char = 32 ∧ c.bg = "") : renderRow row 0 col cells = [] := by
  induction cells generalizing col with
  | nil => rfl
  | cons c rest ih =>
    simp only [renderRow]
    rw [if_pos (h c (List.mem_cons_self c rest))]
    exact ih (col + 1) (fun x hx => h x (List.mem_cons_of_mem c hx))

theorem renderRows_all_blank (row : Nat) (cells : List (List cell))
    (h : ∀ r ∈ cells, ∀ c ∈ r, c.char = 32 ∧ c.bg = "") : renderRows row cells = [] := by
  induction cells generalizing row with
  | nil => rfl
  | cons r rs ih =>
    simp only [renderRows]
    rw [renderRow_all_blank row r 0 (h r (List.mem_cons_self r rs)),
      ih (row + 1) (fun x hx => h x (List.mem_cons_of_mem r hx))]
    rfl

/-- C22. Blank grid: when every cell of the grid is a space without background, whatever
its foreground and style flags, `toSVG` returns, for every font size and font family,
the document with no node inside the `g` element: the header, the base rectangle, the
opening `g` with the sanitized font family, and the closing tags. -/
theorem blank_grid_minimal_document (s : screen) (fontSize : Int) (fontFamily : List Nat)
    (h : ∀ row ∈ s.cells, ∀ c ∈ row, c.char = 32 ∧ c.bg = "") :
    toSVG s fontSize fontFamily =
      { cols := s.cols
        rows := s.rows
        fontSize := fontSize
        fontFamily := sanitizeFontFamily fontFamily
        nodes := [] } := by
  unfold toSVG
  rw [renderRows_all_blank 0 s.cells h]

/-- Witness of `blank_grid_minimal_document`: a 2 x 2 grid of spaces, one of them red and
bold, one dim and italic, rendered at 14px with a font family that is not allow-listed. -/
theorem blank_grid_minimal_document_witness :
    toSVG
      { newScreen 2 2 with
        cells := [[{ char := 32, fg := "#e06c75", bg := "", bold := true, dim := false,
                     italic := false }, blankCell],
                  [blankCell,
                   { char := 32, fg := defaultFg, bg := "", bold := false, dim := true,
                     italic := true }]] } 14 [34, 62] =
      { cols := 2, rows := 2, fontSize := 14, fontFamily := monospace, nodes := [] } :=
  blank_grid_minimal_document _ 14 [34, 62] (by decide)

/-! ## Rendering does not read `dim` and `italic` -/

theorem sameStyle_plainStyle (c : cell) :
    (sameStyle (plainStyle c) ∘ plainStyle) = sameStyle c := by
  funext n
  rfl

theorem flatMap_char_plainStyle (run : List cell) :
    (run.map plainStyle).flatMap (fun n => encodeRune n.char) =
      run.flatMap (fun n => encodeRune n.char) := by
  induction run with
  | nil => rfl
  | cons c rest ih =>
    rw [List.map_cons, List.flatMap_cons, List.flatMap_cons, ih]
    rfl

theorem runNodes_plainStyle (row col : Nat) (c : cell) (run : List cell) :
    runNodes row col (plainStyle c) (run.map plainStyle) = runNodes row col c run := by
  unfold runNodes
  rw [flatMap_char_plainStyle]
  rfl

theorem renderRow_plainStyle (row : Nat) (cells : List cell) (skip col : Nat) :
    renderRow row skip col (cells.map plainStyle) = renderRow row skip col cells := by
  induction cells generalizing skip col with
  | nil => cases skip <;> rfl
  | cons c rest ih =>
    cases skip with
    | succ k =>
      simp only [List.map_cons, renderRow]
      exact ih k (col + 1)
    | zero =>
      simp only [List.map_cons, renderRow]
      rw [List.takeWhile_map, sameStyle_plainStyle, List.length_map, runNodes_plainStyle,
        ih, ih]
      rfl

theorem renderRows_plainStyle (row : Nat) (cells : List (List cell)) :
    renderRows row (cells.map (fun r => r.map plainStyle)) = renderRows row cells := by
  induction cells generalizing row with
  | nil => rfl
  | cons r rs ih =>
    simp only [List.map_cons, renderRows]
    rw [renderRow_plainStyle, ih]

theorem plainStyle_of_sameVisible {a b : cell} (h : SameVisible a b) :
    plainStyle a = plainStyle b := by
  obtain ⟨h1, h2, h3, h4⟩ := h
  cases a
  cases b
  simp only [plainStyle] at *
  simp only [h1, h2, h3, h4]

theorem map_plainStyle_of_sameVisible {r1 r2 : List cell}
    (h : List.Forall₂ SameVisible r1 r2) : r1.map plainStyle = r2.map plainStyle := by
  induction h with
  | nil => rfl
  | cons hab _ ih => rw [List.map_cons, List.map_cons, ih, plainStyle_of_sameVisible hab]

theorem grid_plainStyle_of_sameVisible {g1 g2 : List (List cell)}
    (h : List.Forall₂ (List.Forall₂ SameVisible) g1 g2) :
    g1.map (fun r => r.map plainStyle) = g2.map (fun r => r.map plainStyle) := by
  induction h with
  | nil => rfl
  | cons hab _ ih => rw [List.map_cons, List.map_cons, ih, map_plainStyle_of_sameVisible hab]

/-- C25. Dim and italic never reach the output: two grids of the same dimensions whose
cells agree, position by position, on character, foreground, background and bold give
the same document under `toSVG`, for every font size and font family, whatever their
`dim` and `italic` flags. -/
theorem dim_italic_not_rendered (s t : screen) (fontSize : Int) (fontFamily : List Nat)
    (hcols : s.cols = t.cols) (hrows : s.rows = t.rows)
    (hcells : List.Forall₂ (List.Forall₂ SameVisible) s.cells t.cells) :
    toSVG s fontSize fontFamily = toSVG t fontSize fontFamily := by
  unfold toSVG
  rw [hcols, hrows, ← renderRows_plainStyle 0 s.cells, ← renderRows_plainStyle 0 t.cells,
    grid_plainStyle_of_sameVisible hcells]

/-- Witness of `dim_italic_not_rendered`: `ab` typed plain, and the same grid with the first
cell dim and the second italic. -/
theorem dim_italic_not_rendered_witness :
    toSVG (typed 3 1 [97, 98]) 14 monospace =
      toSVG
        { typed 3 1 [97, 98] with
          cells := [[{ char := 97, fg := defaultFg, bg := "", bold := false, dim := true,
                       italic := false },
                     { char := 98, fg := defaultFg, bg := "", bold := false, dim := false,
                       italic := true }, blankCell]] } 14 monospace :=
  dim_italic_not_rendered _ _ 14 monospace rfl rfl
    (by
      show List.Forall₂ (List.Forall₂ SameVisible)
        [[{ char := 97, fg := defaultFg, bg := "", bold := false, dim := false,
            italic := false },
          { char := 98, fg := defaultFg, bg := "", bold := false, dim := false,
            italic := false }, blankCell]] _
      refine List.Forall₂.cons
        (List.Forall₂.cons ⟨rfl, rfl, rfl, rfl⟩
          (List.Forall₂.cons ⟨rfl, rfl, rfl, rfl⟩
            (List.Forall₂.cons ⟨rfl, rfl, rfl, rfl⟩ List.Forall₂.nil)))
        List.Forall₂.nil)

/-! ## Text nodes -/

theorem escapeByte_no_markup (a b : Nat) (h : b ∈ escapeByte a) :
    b ≠ 60 ∧ b ≠ 62 ∧ b ≠ 39 ∧ b ≠ 34 := by
  unfold escapeByte at h
  split_ifs at h <;> simp at h <;> omega

theorem escapeString_no_markup (t : List Nat) :
    ∀ b ∈ escapeString t, b ≠ 60 ∧ b ≠ 62 ∧ b ≠ 39 ∧ b ≠ 34 := by
  intro b hb
  unfold escapeString at hb
  rw [List.mem_flatMap] at hb
  obtain ⟨a, _, hab⟩ := hb
  exact escapeByte_no_markup a b hab

/-- An ampersand in the replacement of one byte is its first byte, and the replacement is
then one of the five character references. -/
theorem escapeByte_ampersand (a i : Nat) (h : (escapeByte a)[i]? = some 38) :
    i = 0 ∧ escapeByte a ∈ entities := by
  unfold escapeByte at h ⊢
  split_ifs at h ⊢ with h1 h2 h3 h4 h5
  · rcases i with _ | _ | _ | _ | _ | _ <;> simp at h
    simp [entities]
  · rcases i with _ | _ | _ | _ | _ | _ <;> simp at h
    simp [entities]
  · rcases i with _ | _ | _ | _ | _ <;> simp at h
    simp [entities]
  · rcases i with _ | _ | _ | _ | _ <;> simp at h
    simp [entities]
  · rcases i with _ | _ | _ | _ | _ | _ <;> simp at h
    simp [entities]
  · rcases i with _ | _ <;> simp at h
    exact absurd h h1

theorem escapeString_ampersand (t : List Nat) (i : Nat)
    (h : (escapeString t)[i]? = some 38) :
    ∃ e ∈ entities, e <+: (escapeString t).drop i := by
  induction t generalizing i with
  | nil => simp [escapeString] at h
  | cons a rest ih =>
    have hc : escapeString (a :: rest) = escapeByte a ++ escapeString rest := by
      simp [escapeString]
    rw [hc] at h ⊢
    by_cases hi : i < (escapeByte a).length
    · rw [List.getElem?_append_left hi] at h
      obtain ⟨h0, he⟩ := escapeByte_ampersand a i h
      subst h0
      exact ⟨escapeByte a, he, by simp⟩
    · rw [List.getElem?_append_right (by omega)] at h
      obtain ⟨e, he, hpre⟩ := ih _ h
      refine ⟨e, he, ?_⟩
      rw [List.drop_append_eq_append_drop, List.drop_of_length_le (by omega), List.nil_append]
      exact hpre

theorem mem_runNodes_text {row col : Nat} {c : cell} {run : List cell}
    {row1 col1 : Nat} {fill weight : String} {content : List Nat}
    (h : node.text row1 col1 fill weight content ∈ runNodes row col c run) :
    row1 = row ∧ col1 = col ∧ fill = c.fg ∧ weight = (if c.bold then "bold" else "normal") ∧
      content = escapeString (trimRight (runText c run)) := by
  unfold runNodes at h
  rw [List.mem_append] at h
  rcases h with h | h
  · split_ifs at h <;> simp at h
  · have h1 : node.text row1 col1 fill weight content ∈
        (if trimRight (runText c run) = [] then []
        else [node.text row col c.fg (if c.bold then "bold" else "normal")
          (escapeString (trimRight (runText c run)))]) := h
    by_cases ht : trimRight (runText c run) = []
    · rw [if_pos ht] at h1
      simp at h1
    · rw [if_neg ht, List.mem_singleton, node.text.injEq] at h1
      exact h1

/-- A text node of a row is the node of a run of that row: it starts at a cell `c` of the
row, at the column of the node, and runs over the cells after it that have the style of
`c`. -/
theorem mem_renderRow_text (row : Nat) (cells : List cell) (skip col0 : Nat)
    {row1 col1 : Nat} {fill weight : String} {content : List Nat}
    (h : node.text row1 col1 fill weight content ∈ renderRow row skip col0 cells) :
    row1 = row ∧ col0 ≤ col1 ∧ ∃ c rest, cells.drop (col1 - col0) = c :: rest ∧
      fill = c.fg ∧ weight = (if c.bold then "bold" else "normal") ∧
      content = escapeString (trimRight (runText c (rest.takeWhile (sameStyle c)))) := by
  induction cells generalizing skip col0 with
  | nil => cases skip <;> simp [renderRow] at h
  | cons c rest ih =>
    have step : ∀ k, node.text row1 col1 fill weight content ∈ renderRow row k (col0 + 1) rest →
        row1 = row ∧ col0 ≤ col1 ∧ ∃ c1 rest1, (c :: rest).drop (col1 - col0) = c1 :: rest1 ∧
          fill = c1.fg ∧ weight = (if c1.bold then "bold" else "normal") ∧
          content = escapeString (trimRight (runText c1 (rest1.takeWhile (sameStyle c1)))) := by
      intro k hk
      obtain ⟨h1, h2, c1, rest1, h3, h4⟩ := ih k (col0 + 1) hk
      refine ⟨h1, by omega, c1, rest1, ?_, h4⟩
      have e : col1 - col0 = (col1 - (col0 + 1)) + 1 := by omega
      rw [e, List.drop_succ_cons]
      exact h3
    cases skip with
    | succ k =>
      simp only [renderRow] at h
      exact step k h
    | zero =>
      simp only [renderRow] at h
      split_ifs at h with hb
      · exact step 0 h
      · rw [List.mem_append] at h
        rcases h with h | h
        · obtain ⟨h1, h2, h3, h4, h5⟩ := mem_runNodes_text h
          refine ⟨h1, by omega, c, rest, ?_, h3, h4, h5⟩
          rw [h2, Nat.sub_self]
          rfl
        · exact step _ h

theorem mem_renderRows_text (cells : List (List cell)) (row0 : Nat)
    {row1 col1 : Nat} {fill weight : String} {content : List Nat}
    (h : node.text row1 col1 fill weight content ∈ renderRows row0 cells) :
    row0 ≤ row1 ∧ ∃ r c rest, cells[row1 - row0]? = some r ∧ r.drop col1 = c :: rest ∧
      fill = c.fg ∧ weight = (if c.bold then "bold" else "normal") ∧
      content = escapeString (trimRight (runText c (rest.takeWhile (sameStyle c)))) := by
  induction cells generalizing row0 with
  | nil => simp [renderRows] at h
  | cons r rs ih =>
    simp only [renderRows] at h
    rw [List.mem_append] at h
    rcases h with h | h
    · obtain ⟨h1, _, c, rest, h3, h4⟩ := mem_renderRow_text row0 r 0 0 h
      refine ⟨by omega, r, c, rest, ?_, h3, h4⟩
      rw [h1, Nat.sub_self, List.getElem?_cons_zero]
    · obtain ⟨h1, r1, c, rest, h2, h3⟩ := ih (row0 + 1) h
      refine ⟨by omega, r1, c, rest, ?_, h3⟩
      have e : row1 - row0 = (row1 - (row0 + 1)) + 1 := by omega
      rw [e, List.getElem?_cons_succ]
      exact h2

/-- C23. Text escaping: every text node that `toSVG` emits is the node of a run of its row:
the run starts at the cell `c` in the column of the node and takes the cells after it
that have the foreground, background and bold of `c`; the content of the node is
`html.EscapeString` of the text of that run with the spaces at its right end removed. So the
content holds no `<`, `>`, apostrophe or double quote, and an ampersand in it is the first
byte of one of `&amp;`, `&#39;`, `&lt;`, `&gt;`, `&#34;`. -/
theorem text_nodes_escaped (s : screen) (fontSize : Int) (fontFamily : List Nat)
    (row col : Nat) (fill weight : String) (content : List Nat)
    (h : node.text row col fill weight content ∈ (toSVG s fontSize fontFamily).nodes) :
    (∃ r c rest, s.cells[row]? = some r ∧ r.drop col = c :: rest ∧
      fill = c.fg ∧ weight = (if c.bold then "bold" else "normal") ∧
      content = escapeString (trimRight (runText c (rest.takeWhile (sameStyle c))))) ∧
    (∀ b ∈ content, b ≠ 60 ∧ b ≠ 62 ∧ b ≠ 39 ∧ b ≠ 34) ∧
    (∀ i, content[i]? = some 38 → ∃ e ∈ entities, e <+: content.drop i) := by
  obtain ⟨_, r, c, rest, h1, h2, h3, h4, h5⟩ := mem_renderRows_text s.cells 0 h
  refine ⟨⟨r, c, rest, h1, h2, h3, h4, h5⟩, ?_, ?_⟩
  · rw [h5]
    exact escapeString_no_markup _
  · intro i hi
    rw [h5] at hi ⊢
    exact escapeString_ampersand _ i hi

/-- Witness of `text_nodes_escaped`: the row `<a&'">` followed by two blank cells renders
as one text node with content `&lt;a&amp;&#39;&#34;&gt;`. -/
theorem text_nodes_escaped_witness :
    (toSVG (typed 8 1 [60, 97, 38, 39, 34, 62]) 14 monospace).nodes =
      [node.text 0 0 defaultFg "normal"
        [38, 108, 116, 59, 97, 38, 97, 109, 112, 59, 38, 35, 51, 57, 59, 38, 35, 51, 52, 59,
          38, 103, 116, 59]] ∧
    ∀ b ∈ [38, 108, 116, 59, 97, 38, 97, 109, 112, 59, 38, 35, 51, 57, 59, 38, 35, 51, 52,
        59, 38, 103, 116, 59], b ≠ 60 ∧ b ≠ 62 ∧ b ≠ 39 ∧ b ≠ 34 :=
  have hn : (toSVG (typed 8 1 [60, 97, 38, 39, 34, 62]) 14 monospace).nodes =
      [node.text 0 0 defaultFg "normal"
        [38, 108, 116, 59, 97, 38, 97, 109, 112, 59, 38, 35, 51, 57, 59, 38, 35, 51, 52, 59,
          38, 103, 116, 59]] := by
    set_option maxRecDepth 100000 in decide
  ⟨hn, (text_nodes_escaped (typed 8 1 [60, 97, 38, 39, 34, 62]) 14 monospace 0 0 defaultFg
    "normal" _ (by rw [hn]; exact List.mem_singleton_self _)).2.1⟩

/-! ## A sequence inside a longer text -/

theorem findAllAux_skip_exact (l acc tail : List Nat) :
    findAllAux l.length acc (l ++ tail) = findAllAux 0 acc tail := by
  induction l with
  | nil => rfl
  | cons b rest ih =>
    simp only [List.length_cons, List.cons_append, findAllAux]
    exact ih

/-- The scan at a complete sequence: one match, then the scan of the text after it. -/
theorem findAllAux_sequence (acc ps : List Nat) (c : Nat) (tail : List Nat)
    (hps : ∀ b ∈ ps, isParamByte b = true) (hc : isLetterByte c = true) :
    findAllAux 0 acc (27 :: 91 :: (ps ++ c :: tail)) =
      ((acc, ps, c) :: (findAll tail).1, (findAll tail).2) := by
  have e : ps ++ c :: tail = (ps ++ [c]) ++ tail := by simp
  have hl : ps.length + 1 = (ps ++ [c]).length := by simp
  simp only [findAllAux, matchEscape_complete ps c tail hps hc]
  rw [e, hl, findAllAux_skip_exact]
  rfl

/-- A match of the pattern has at least three bytes: ESC, `[`, and the letter. -/
theorem matchEscape_length (t ps : List Nat) (c : Nat) (h : matchEscape t = some (ps, c)) :
    ps.length + 3 ≤ t.length := by
  unfold matchEscape at h
  split at h
  · rename_i rest
    have hlen := congrArg List.length (List.takeWhile_append_dropWhile isParamByte rest)
    split at h
    · rename_i c1 tl hd
      split_ifs at h
      simp only [Option.some.injEq, Prod.mk.injEq] at h
      rw [List.length_append, hd, h.1] at hlen
      simp only [List.length_cons] at hlen ⊢
      omega
    · exact absurd h (by simp)
  · exact absurd h (by simp)

/-- A match that starts in a text is not changed by an ESC byte put after the text: ESC is
neither a parameter byte nor a letter. -/
theorem matchEscape_append_esc (b : Nat) (rest tail : List Nat) :
    matchEscape (b :: rest ++ 27 :: tail) = matchEscape (b :: rest) := by
  by_cases hb : b = 27
  · subst hb
    cases rest with
    | nil => rfl
    | cons b2 r =>
      by_cases hb2 : b2 = 91
      · subst hb2
        simp only [List.cons_append, matchEscape]
        cases hd : r.dropWhile isParamByte with
        | nil =>
          have hall : ∀ x ∈ r, isParamByte x = true := by
            intro x hx
            by_contra hx2
            have := List.dropWhile_eq_nil_iff.mp hd x hx
            exact hx2 this
          rw [List.dropWhile_append_of_pos hall, List.dropWhile_cons_of_neg (by decide)]
          rfl
        | cons c1 tl =>
          have hd2 : (r ++ 27 :: tail).dropWhile isParamByte = c1 :: (tl ++ 27 :: tail) := by
            have hr := List.takeWhile_append_dropWhile isParamByte r
            have hc1 : ¬ isParamByte c1 = true := by
              have := List.head_dropWhile_not isParamByte r (by rw [hd]; simp)
              simpa [hd] using this
            conv_lhs => rw [← hr, hd, List.append_assoc]
            rw [List.dropWhile_append_of_pos (fun x hx => List.mem_takeWhile_imp hx)]
            rw [List.cons_append, List.dropWhile_cons_of_neg hc1]
          have ht2 : (r ++ 27 :: tail).takeWhile isParamByte = r.takeWhile isParamByte := by
            have hr := List.takeWhile_append_dropWhile isParamByte r
            have hc1 : ¬ isParamByte c1 = true := by
              have := List.head_dropWhile_not isParamByte r (by rw [hd]; simp)
              simpa [hd] using this
            conv_lhs => rw [← hr, hd, List.append_assoc]
            rw [List.takeWhile_append_of_pos (fun x hx => List.mem_takeWhile_imp hx)]
            rw [List.cons_append, List.takeWhile_cons_of_neg hc1, List.append_nil]
          rw [hd2, ht2]
      · have h1 : matchEscape (27 :: b2 :: r) = none := by
          unfold matchEscape
          split
          · rename_i heq
            simp only [List.cons.injEq] at heq
            exact absurd heq.2.1 hb2
          · rfl
        have h2 : matchEscape (27 :: b2 :: r ++ 27 :: tail) = none := by
          unfold matchEscape
          split
          · rename_i heq
            simp only [List.cons_append, List.cons.injEq] at heq
            exact absurd heq.2.1 hb2
          · rfl
        rw [h1, h2]
  · rw [List.cons_append, matchEscape_none_of_ne _ hb, matchEscape_none_of_ne _ hb]

theorem findAllAux_zero_cons (acc : List Nat) (b : Nat) (rest : List Nat) :
    findAllAux 0 acc (b :: rest) =
      match matchEscape (b :: rest) with
      | some (ps, c) =>
        ((acc, ps, c) :: (findAllAux (ps.length + 2) [] rest).1,
          (findAllAux (ps.length + 2) [] rest).2)
      | none => findAllAux 0 (acc ++ [b]) rest := rfl

/-- The scan of a text followed by a complete sequence and more text: the matches of the
text, the sequence with the unmatched end of the text before it, and the scan of the
text after the sequence. -/
theorem findAllAux_around_sequence (pre : List Nat) (skip : Nat) (acc ps : List Nat) (c : Nat)
    (tail : List Nat) (hskip : skip ≤ pre.length)
    (hps : ∀ b ∈ ps, isParamByte b = true) (hc : isLetterByte c = true) :
    findAllAux skip acc (pre ++ 27 :: 91 :: (ps ++ c :: tail)) =
      ((findAllAux skip acc pre).1 ++
          ((findAllAux skip acc pre).2, ps, c) :: (findAll tail).1,
        (findAll tail).2) := by
  induction pre generalizing skip acc with
  | nil =>
    have h0 : skip = 0 := by simpa using hskip
    subst h0
    rw [List.nil_append, findAllAux_sequence acc ps c tail hps hc]
    rfl
  | cons b rest ih =>
    cases skip with
    | succ k =>
      simp only [List.cons_append, findAllAux]
      exact ih k acc (by simpa using hskip)
    | zero =>
      have hm := matchEscape_append_esc b rest (91 :: (ps ++ c :: tail))
      rw [List.cons_append] at hm
      rw [List.cons_append, findAllAux_zero_cons acc b (rest ++ 27 :: 91 :: (ps ++ c :: tail)),
        findAllAux_zero_cons acc b rest, hm]
      cases hme : matchEscape (b :: rest) with
      | none =>
        simp only []
        exact ih 0 (acc ++ [b]) (Nat.zero_le _)
      | some m =>
        obtain ⟨ps1, c1⟩ := m
        have hlen := matchEscape_length (b :: rest) ps1 c1 hme
        simp only [List.length_cons] at hlen
        simp only []
        rw [ih (ps1.length + 2) [] (by omega)]
        rfl

theorem feedMatches_append (s : screen) (ms ms1 : List (List Nat × List Nat × Nat)) :
    feedMatches s (ms ++ ms1) =
      match feedMatches s ms with
      | .done s1 => feedMatches s1 ms1
      | .panic s1 => .panic s1 := by
  induction ms generalizing s with
  | nil => rfl
  | cons m rest ih =>
    obtain ⟨before, ps, c⟩ := m
    simp only [List.cons_append, feedMatches]
    cases dispatch (feedText s (decodeRunes before)) ps c with
    | done s1 => exact ih s1
    | panic s1 => rfl

/-- Feeding a text, a complete sequence and more text in one call: the text before the
sequence is processed as by a call of its own, then the sequence is dispatched, then the
text after it is processed as by a call of its own. -/
theorem feed_around_sequence (s : screen) (pre ps : List Nat) (c : Nat) (tail : List Nat)
    (hps : ∀ b ∈ ps, isParamByte b = true) (hc : isLetterByte c = true) :
    feed s (pre ++ 27 :: 91 :: (ps ++ c :: tail)) =
      match feed s pre with
      | .done s1 =>
        match dispatch s1 ps c with
        | .done s2 => feed s2 tail
        | .panic s2 => .panic s2
      | .panic s1 => .panic s1 := by
  have hf := findAllAux_around_sequence pre 0 [] ps c tail (Nat.zero_le _) hps hc
  unfold feed findAll
  rw [hf]
  simp only [feedMatches_append, feedMatches]
  cases feedMatches s (findAllAux 0 [] pre).1 with
  | panic s1 => rfl
  | done s1 =>
    simp only []
    cases dispatch (feedText s1 (decodeRunes (findAllAux 0 [] pre).2)) ps c with
    | panic s2 => rfl
    | done s2 => rfl

theorem feed_nil (s : screen) : feed s [] = Outcome.done s := rfl

theorem dispatch_unrecognized (s : screen) (ps : List Nat) (c : Nat)
    (h : c ≠ 109 ∧ c ≠ 72 ∧ c ≠ 102 ∧ c ≠ 74 ∧ c ≠ 75 ∧ c ≠ 65 ∧ c ≠ 66 ∧ c ≠ 67 ∧ c ≠ 68) :
    dispatch s ps c = Outcome.done s := by
  obtain ⟨h1, h2, h3, h4, h5, h6, h7, h8, h9⟩ := h
  unfold dispatch
  rw [if_neg h1, if_neg (by omega), if_neg h4, if_neg h5, if_neg h6, if_neg h7, if_neg h8,
    if_neg h9]

/-- C24. Unrecognized final letters are ignored: for a parameter string `ps` of digits and
semicolons and an ASCII letter `c` other than m, H, f, J, K, A, B, C, D, feeding
`ESC [ ps c` returns the screen as it was (cells, cursor and graphics state); feeding
the sequence followed by a text `tail` is feeding `tail`; and feeding a text `pre`, the
sequence and `tail` in one call is feeding `pre` and then `tail`. -/
theorem unrecognized_letter_ignored (s : screen) (ps : List Nat) (c : Nat)
    (pre tail : List Nat)
    (hps : ∀ b ∈ ps, isParamByte b = true) (hc : isLetterByte c = true)
    (hother : c ≠ 109 ∧ c ≠ 72 ∧ c ≠ 102 ∧ c ≠ 74 ∧ c ≠ 75 ∧ c ≠ 65 ∧ c ≠ 66 ∧ c ≠ 67 ∧
      c ≠ 68) :
    feed s (27 :: 91 :: (ps ++ [c])) = Outcome.done s ∧
    feed s (27 :: 91 :: (ps ++ c :: tail)) = feed s tail ∧
    feed s (pre ++ 27 :: 91 :: (ps ++ c :: tail)) = feedAll s [pre, tail] := by
  refine ⟨?_, ?_, ?_⟩
  · rw [feed_single s ps c hps hc]
    exact dispatch_unrecognized s ps c hother
  · have h := feed_around_sequence s [] ps c tail hps hc
    rw [List.nil_append, feed_nil] at h
    rw [h]
    simp only [dispatch_unrecognized s ps c hother]
  · rw [feed_around_sequence s pre ps c tail hps hc]
    simp only [feedAll]
    cases feed s pre with
    | panic s1 => rfl
    | done s1 =>
      simp only [dispatch_unrecognized s1 ps c hother]
      cases feed s1 tail <;> rfl

/-- Witness of `unrecognized_letter_ignored`: the device status report `ESC[6n` on the
sample screen, alone, before `x`, and between `a` and `x`. -/
theorem unrecognized_letter_ignored_witness :
    feed sampleScreen [27, 91, 54, 110] = Outcome.done sampleScreen ∧
    feed sampleScreen [27, 91, 54, 110, 120] = feed sampleScreen [120] ∧
    feed sampleScreen [97, 27, 91, 54, 110, 120] = feedAll sampleScreen [[97], [120]] :=
  unrecognized_letter_ignored sampleScreen [54] 110 [97] [120] (by decide) (by decide)
    (by decide)
end Tui
